import Mathlib

/-!
ComplaintAI: the heuristic complaint classifier.

A shallow embedding of `server/services/aiAnalysis.js` (class `AIAnalysisService`).

Modelling conventions.

* A JavaScript string is the list of its UTF-16 code units (`JSString`), so that
  `text.length` is `List.length`.
* Counts and lengths are naturals that are cast where the source divides or multiplies
  them.  The methods are embedded twice.  The first embedding reads them as functions of
  the title and the description: on the dictionaries of the constructor, on strings that
  the engine can build, and with the numbers as exact rationals (`ℚ`).  The second
  (`AIAnalysisService`) reads them as methods of an object: the dictionaries are the state
  that every call takes and returns, a string longer than the engine allows is a
  `RangeError`, and the numbers are IEEE 754 binary64, each operation rounded.
* The two npm libraries (`sentiment`, `natural`) and the built-in
  `String.prototype.toLowerCase` are not part of the repository.  They are the fields of a
  `Runtime`.  A library call may throw, which is `none`; `toLowerCase` never throws on a
  string.
* The `try`/`catch` of `analyzeComplaint` is the `match` on the `Option` returned by the
  body of the `try` block.
-/

namespace ComplaintAI

/-! ## Strings -/

/-- A JavaScript string: its sequence of UTF-16 code units. -/
abbrev JSString := List Nat

/-- UTF-16 encoding of one Unicode scalar value. -/
def utf16 (c : Char) : List Nat :=
  if c.toNat < 0x10000 then [c.toNat]
  else [0xD800 + (c.toNat - 0x10000) / 0x400, 0xDC00 + (c.toNat - 0x10000) % 0x400]

/-- The JavaScript string denoted by a string literal of the source. -/
def js (s : String) : JSString := (s.toList.map utf16).flatten

/-- The code unit of the space character, the separator of the template literals. -/
def space : Nat := 32

/-- `String.prototype.includes`: `pat` occurs in `text` as a contiguous substring. -/
def includes : JSString → JSString → Bool
  | [], pat => pat.isEmpty
  | c :: cs, pat => pat.isPrefixOf (c :: cs) || includes cs pat

/-- The characters matched by `\s` in a JavaScript regular expression. -/
def isWhitespace (c : Nat) : Bool :=
  c == 9 || c == 10 || c == 11 || c == 12 || c == 13 || c == 32 || c == 0xA0 ||
  c == 0x1680 || (0x2000 ≤ c && c ≤ 0x200A) || c == 0x2028 || c == 0x2029 ||
  c == 0x202F || c == 0x205F || c == 0x3000 || c == 0xFEFF

/-- Worker of `splitWhitespace`: `inRun` says that the previous code unit was whitespace,
`cur` is the current piece, reversed. -/
def splitWhitespaceAux : JSString → Bool → JSString → List JSString
  | [], _, cur => [cur.reverse]
  | c :: cs, inRun, cur =>
    if isWhitespace c then
      if inRun then splitWhitespaceAux cs true cur
      else cur.reverse :: splitWhitespaceAux cs true []
    else splitWhitespaceAux cs false (c :: cur)

/-- The array `text.split(/\s+/)`: the pieces between the maximal whitespace runs. -/
def splitWhitespace (text : JSString) : List JSString :=
  splitWhitespaceAux text false []

/-- Worker of `splitOn`; `cur` is the current piece, reversed. -/
def splitOnAux (sep : Nat) : JSString → JSString → List JSString
  | [], cur => [cur.reverse]
  | c :: cs, cur =>
    if c = sep then cur.reverse :: splitOnAux sep cs [] else splitOnAux sep cs (c :: cur)

/-- The array `text.split(' ')` for a one-character separator. -/
def splitOn (sep : Nat) (text : JSString) : List JSString :=
  splitOnAux sep text []

/-- The string `pieces.join(' ')` for a one-character separator. -/
def joinWith (sep : Nat) : List JSString → JSString
  | [] => []
  | [p] => p
  | p :: q :: ps => p ++ sep :: joinWith sep (q :: ps)

/-- ASCII lower-casing of one code unit. -/
def asciiLower (c : Nat) : Nat :=
  if 65 ≤ c ∧ c ≤ 90 then c + 32 else c

/-! ## The environment: built-ins and libraries -/

/-- What the service takes from outside the repository. -/
structure Runtime where
  /-- `String.prototype.toLowerCase`. -/
  toLowerCase : JSString → JSString
  /-- `new Sentiment().analyze(text).score`; `none` when the call throws. -/
  sentimentScore : JSString → Option Int
  /-- `natural.PorterStemmer.stem(word)`; `none` when the call throws. -/
  stem : JSString → Option JSString

/-- The facts of ECMAScript about `toLowerCase` that the development uses: on a string of
ASCII characters it lower-cases `A`–`Z` and leaves the rest, and the lower-casing of a
string is not changed by what follows a space after it. -/
structure Runtime.Ecma (rt : Runtime) : Prop where
  toLowerCase_ascii : ∀ s : JSString, (∀ c ∈ s, c < 128) → rt.toLowerCase s = s.map asciiLower
  toLowerCase_append_space : ∀ s t : JSString,
    rt.toLowerCase (s ++ space :: t) = rt.toLowerCase s ++ rt.toLowerCase (space :: t)

/-! ## The dictionaries of the constructor -/

/-- The field `this.urgencyKeywords`. -/
def urgencyKeywords : List JSString :=
  [ js "urgent", js "emergency", js "critical", js "immediate", js "asap", js "now",
    js "fire", js "flood", js "gas leak", js "water leak", js "electrical", js "power outage",
    js "dangerous", js "hazard", js "unsafe", js "risk", js "threat", js "threatening",
    js "broken", js "damaged", js "collapsed", js "cracked", js "leaking", js "flooding",
    js "blocked", js "clogged", js "overflowing", js "burst", js "explosion",
    js "injury", js "injured", js "hurt", js "bleeding", js "trapped", js "stuck",
    js "poisoning", js "toxic", js "contaminated", js "exposed",
    js "major", js "severe", js "serious", js "massive", js "huge", js "extensive",
    js "widespread", js "multiple", js "numerous", js "many" ]

/-- The keys of `this.departmentKeywords`. -/
inductive Department where
  | publicWorks
  | policeDepartment
  | parksDepartment
  | codeEnforcement
  | sanitation
  | fireDepartment
  deriving DecidableEq, Repr

/-- The key string of a department. -/
def Department.name : Department → String
  | .publicWorks => "Public Works"
  | .policeDepartment => "Police Department"
  | .parksDepartment => "Parks Department"
  | .codeEnforcement => "Code Enforcement"
  | .sanitation => "Sanitation"
  | .fireDepartment => "Fire Department"

/-- The keys of `this.departmentKeywords` in the order of `Object.entries`, which for
string keys is the order in which the literal lists them. -/
def allDepartments : List Department :=
  [.publicWorks, .policeDepartment, .parksDepartment, .codeEnforcement, .sanitation,
   .fireDepartment]

/-- The field `this.departmentKeywords`. -/
def departmentKeywords : Department → List JSString
  | .publicWorks =>
    [ js "road", js "street", js "pothole", js "pavement", js "sidewalk", js "curb",
      js "water", js "sewer", js "drain", js "pipe", js "utility", js "infrastructure",
      js "maintenance", js "repair", js "construction", js "bridge", js "tunnel" ]
  | .policeDepartment =>
    [ js "crime", js "theft", js "robbery", js "assault", js "violence", js "fight",
      js "noise", js "disturbance", js "loud", js "party", js "music", js "shouting",
      js "traffic", js "parking", js "speeding", js "accident", js "collision",
      js "safety", js "security", js "suspicious", js "trespassing", js "vandalism" ]
  | .parksDepartment =>
    [ js "park", js "playground", js "recreation", js "green space", js "garden",
      js "trees", js "grass", js "landscaping", js "sports field", js "court",
      js "bench", js "trail", js "path", js "fountain", js "pond", js "lake" ]
  | .codeEnforcement =>
    [ js "building", js "construction", js "permit", js "zoning", js "violation",
      js "compliance", js "illegal", js "unauthorized", js "code", js "regulation",
      js "property", js "structure", js "renovation", js "demolition" ]
  | .sanitation =>
    [ js "garbage", js "trash", js "recycling", js "pickup", js "collection",
      js "waste", js "cleaning", js "littering", js "dumping", js "smell",
      js "odor", js "bins", js "containers", js "disposal" ]
  | .fireDepartment =>
    [ js "fire", js "smoke", js "burning", js "flames", js "gas", js "propane",
      js "hazard", js "alarm", js "detector", js "sprinkler", js "hydrant",
      js "carbon monoxide", js "explosion", js "chemical", js "rescue" ]

/-- The field `this.priorityWeights`. -/
structure PriorityWeights where
  urgencyKeywords : ℚ
  sentimentScore : ℚ
  keywordDensity : ℚ
  lengthFactor : ℚ

/-- The values of `this.priorityWeights`. -/
def priorityWeights : PriorityWeights :=
  { urgencyKeywords := 4, sentimentScore := 2, keywordDensity := 1, lengthFactor := 1 / 2 }

/-- The field `this.categoryImportance`, as the list of its entries. -/
def categoryImportance : List (String × Nat) :=
  [ ("Safety", 4), ("Infrastructure", 3), ("Public Works", 3), ("Fire Department", 4),
    ("Police Department", 4), ("Code Enforcement", 2), ("Parks Department", 2),
    ("Sanitation", 2) ]

/-- The expression `this.categoryImportance[department] || 1`: a missing key and the
value 0 both give 1. -/
def importanceOf (department : Department) : Nat :=
  match categoryImportance.lookup department.name with
  | some v => if v = 0 then 1 else v
  | none => 1

/-- The local constant `locationKeywords` of `extractTags`. -/
def locationKeywords : List JSString :=
  [ js "downtown", js "uptown", js "residential", js "commercial", js "industrial",
    js "school", js "hospital", js "mall", js "intersection", js "highway", js "bridge" ]

/-! ## Result types -/

/-- The priority tiers, in the order of their declaration: Low < Medium < High < Critical. -/
inductive Priority where
  | low
  | medium
  | high
  | critical
  deriving DecidableEq, Repr

/-- The position of a tier in the order Low < Medium < High < Critical. -/
def Priority.rank : Priority → Nat
  | .low => 0
  | .medium => 1
  | .high => 2
  | .critical => 3

/-- The sentiment labels. -/
inductive Sentiment where
  | positive
  | neutral
  | negative
  deriving DecidableEq, Repr

/-- The field `analysis` of a result: the statistics of the normal path, or the message of
the `catch` branch. -/
inductive AnalysisDetail where
  | stats (textLength wordCount urgencyScore : Nat) (sentimentScore : Int)
  | error (message : String)
  deriving DecidableEq, Repr

/-- The record returned by `analyzeComplaint`. -/
structure Analysis where
  priority : Priority
  sentiment : Sentiment
  department : Department
  urgencyKeywords : List JSString
  tags : List JSString
  confidence : ℚ
  analysis : AnalysisDetail

/-! ## The service -/

/-- The local `text` of the methods that lower-case: the template literal
`${title} ${description}` followed by `.toLowerCase()`. -/
def corpus (rt : Runtime) (title description : JSString) : JSString :=
  rt.toLowerCase (title ++ space :: description)

/-- The local `urgencyMatches` of `analyzePriority` (lines 133-135). -/
def urgencyMatches (rt : Runtime) (text : JSString) : List JSString :=
  urgencyKeywords.filter (fun keyword => includes text (rt.toLowerCase keyword))

/-- The local `keywordDensity` of `analyzePriority` (line 142), from the number of matches
and `words.length`. -/
def keywordDensity (matchCount wordCount : Nat) : ℚ :=
  (matchCount : ℚ) / (wordCount : ℚ)

/-- The accumulation of `priorityScore` (lines 145-152) from the number of urgency matches,
the sentiment score, `words.length` and `text.length`. -/
def priorityScoreOf (matchCount : Nat) (sentimentScore : Int) (wordCount textLength : Nat) : ℚ :=
  let sentimentIntensity : ℚ := |(sentimentScore : ℚ)|
  let density := keywordDensity matchCount wordCount
  let score : ℚ := 0
  let score := score + (matchCount : ℚ) * priorityWeights.urgencyKeywords
  let score := score + (sentimentIntensity / 10) * priorityWeights.sentimentScore
  let score := score + density * 100 * priorityWeights.keywordDensity
  let lengthFactor : ℚ := min ((textLength : ℚ) / 500) 1
  score + lengthFactor * priorityWeights.lengthFactor

/-- The threshold cascade of `analyzePriority` (lines 155-158). -/
def priorityLevel (score : ℚ) (matchCount : Nat) : Priority :=
  if score ≥ 12 ∨ matchCount ≥ 4 then .critical
  else if score ≥ 8 ∨ matchCount ≥ 3 then .high
  else if score ≥ 4 ∨ matchCount ≥ 1 then .medium
  else .low

/-- The value of the local `priorityScore` of `analyzePriority` before the thresholds. -/
def priorityScore (rt : Runtime) (title description : JSString) : Option ℚ := do
  let text := corpus rt title description
  let words := splitWhitespace text
  let found := urgencyMatches rt text
  let sentimentResult ← rt.sentimentScore text
  pure (priorityScoreOf found.length sentimentResult words.length text.length)

/-- The method `analyzePriority`. -/
def analyzePriority (rt : Runtime) (title description : JSString) : Option Priority := do
  let text := corpus rt title description
  let found := urgencyMatches rt text
  let score ← priorityScore rt title description
  pure (priorityLevel score found.length)

/-- The four tests of `analyzeSentiment` (lines 166-170) on `result.score`. -/
def sentimentLabel (score : Int) : Sentiment :=
  if score > 3 then .positive
  else if score < -3 then .negative
  else if score < -1 then .negative
  else if score > 1 then .positive
  else .neutral

/-- The method `analyzeSentiment`; its text is not lower-cased. -/
def analyzeSentiment (rt : Runtime) (title description : JSString) : Option Sentiment := do
  let text := title ++ space :: description
  let score ← rt.sentimentScore text
  pure (sentimentLabel score)

/-- The local `stemmedText` of `classifyDepartment` (line 192). -/
def stemmedText (rt : Runtime) (text : JSString) : Option JSString := do
  let stems ← (splitOn space text).mapM rt.stem
  pure (joinWith space stems)

/-- The body of `keywords.forEach` in `classifyDepartment` (lines 182-196): the new value of
the local `score`. -/
def keywordStep (rt : Runtime) (text : JSString) (score : Nat) (keyword : JSString) :
    Option Nat := do
  let keywordLower := rt.toLowerCase keyword
  let score := if includes text keywordLower then score + 2 else score
  let stemmedKeyword ← rt.stem keywordLower
  let stemmed ← stemmedText rt text
  pure (if includes stemmed stemmedKeyword then score + 1 else score)

/-- The score of one department in `classifyDepartment` after the importance multiplier
(lines 180-200). -/
def departmentScore (rt : Runtime) (text : JSString) (department : Department) : Option Nat := do
  let score ← (departmentKeywords department).foldlM (keywordStep rt text) 0
  pure (score * importanceOf department)

/-- The body of the outer `forEach` of `classifyDepartment`: the new values of `bestMatch`
and `maxScore`. -/
def departmentStep (rt : Runtime) (text : JSString) (best : Department × Nat)
    (department : Department) : Option (Department × Nat) := do
  let score ← departmentScore rt text department
  pure (if score > best.2 then (department, score) else best)

/-- The method `classifyDepartment`. -/
def classifyDepartment (rt : Runtime) (title description : JSString) : Option Department := do
  let text := corpus rt title description
  let best ← allDepartments.foldlM (departmentStep rt text) (Department.publicWorks, 0)
  pure best.1

/-- The method `extractUrgencyKeywords`. -/
def extractUrgencyKeywords (rt : Runtime) (title description : JSString) : List JSString :=
  let text := corpus rt title description
  (urgencyKeywords.filter (fun keyword => includes text (rt.toLowerCase keyword))).take 10

/-- The method `Set.prototype.add` on a set kept as the list of its elements in insertion
order. -/
def setAdd (tags : List JSString) (keyword : JSString) : List JSString :=
  if keyword ∈ tags then tags else tags ++ [keyword]

/-- The method `extractTags`. -/
def extractTags (rt : Runtime) (title description : JSString) : List JSString :=
  let text := corpus rt title description
  let tags : List JSString := []
  let tags := ((allDepartments.map departmentKeywords).flatten).foldl
    (fun tags keyword => if includes text (rt.toLowerCase keyword) then setAdd tags keyword else tags)
    tags
  let tags := urgencyKeywords.foldl
    (fun tags keyword => if includes text (rt.toLowerCase keyword) then setAdd tags keyword else tags)
    tags
  let tags := locationKeywords.foldl
    (fun tags keyword => if includes text keyword then setAdd tags keyword else tags)
    tags
  tags.take 12

/-- The method `calculateConfidence`, its numbers read as exact rationals;
`AIAnalysisService.calculateConfidence` has them in binary64. -/
def calculateConfidence (rt : Runtime) (text : JSString) (urgency : List JSString)
    (department : Department) : ℚ :=
  let confidence : ℚ := 1 / 2
  let matchedKeywords := (departmentKeywords department).filter
    (fun keyword => includes text (rt.toLowerCase keyword))
  let keywordConfidence : ℚ := min ((matchedKeywords.length : ℚ) / 3) 1 * (3 / 10)
  let confidence := confidence + keywordConfidence
  let urgencyConfidence : ℚ := min ((urgency.length : ℚ) / 2) 1 * (2 / 10)
  let confidence := confidence + urgencyConfidence
  let lengthConfidence : ℚ := min ((text.length : ℚ) / 200) 1 * (1 / 10)
  let confidence := confidence + lengthConfidence
  min confidence 1

/-- The result of the `catch` branch of `analyzeComplaint` (lines 114-124). -/
def fallbackAnalysis : Analysis :=
  { priority := .medium
    sentiment := .neutral
    department := .publicWorks
    urgencyKeywords := []
    tags := []
    confidence := 1 / 2
    analysis := .error "Analysis failed, using defaults" }

/-- The body of the `try` block of `analyzeComplaint` (lines 88-109); `none` when a step
throws. -/
def analyzeComplaintTry (rt : Runtime) (title description : JSString) : Option Analysis := do
  let text := corpus rt title description
  let priority ← analyzePriority rt title description
  let sentiment ← analyzeSentiment rt title description
  let department ← classifyDepartment rt title description
  let urgency := extractUrgencyKeywords rt title description
  let tags := extractTags rt title description
  let confidence := calculateConfidence rt text urgency department
  let sentimentScore ← rt.sentimentScore text
  pure
    { priority := priority
      sentiment := sentiment
      department := department
      urgencyKeywords := urgency
      tags := tags
      confidence := confidence
      analysis := .stats text.length (splitOn space text).length urgency.length sentimentScore }

/-- The method `analyzeComplaint` from its `try` statement on, for a title and a description
whose `text` of line 85 the engine builds; `AIAnalysisService.analyzeComplaint` is the whole
method, line 85 included. -/
def analyzeComplaint (rt : Runtime) (title description : JSString) : Analysis :=
  match analyzeComplaintTry rt title description with
  | some result => result
  | none => fallbackAnalysis

/-- An element of the array passed to `analyzeMultipleComplaints`: the fields that the
method reads; `ι` is the type of the identifiers. -/
structure ComplaintItem (ι : Type) where
  id : ι
  title : JSString
  description : JSString

/-- An element of the array returned by `analyzeMultipleComplaints`. -/
structure BatchEntry (ι : Type) where
  id : ι
  analysis : Analysis

/-- The method `analyzeMultipleComplaints`. -/
def analyzeMultipleComplaints {ι : Type} (rt : Runtime) (complaints : List (ComplaintItem ι)) :
    List (BatchEntry ι) :=
  complaints.map (fun complaint =>
    { id := complaint.id
      analysis := analyzeComplaint rt complaint.title complaint.description })

/-! ## Insights -/

/-- A truthy value of the field `urgency_keywords` of a stored complaint: an array of
keywords, or a string that holds their JSON text. -/
inductive KeywordsField where
  | array (keywords : List JSString)
  | json (text : JSString)

/-- The fields of a stored complaint that `generateInsights` reads; `none` is a field that
is `undefined` or `null`. -/
structure StoredComplaint where
  priority : Option JSString
  sentiment : Option JSString
  department : Option JSString
  urgency_keywords : Option KeywordsField
  ai_confidence : Option ℚ

/-- Truthiness of a string field: present and not the empty string. -/
def truthyString : Option JSString → Option JSString
  | some (c :: cs) => some (c :: cs)
  | _ => none

/-- A JavaScript object used as a table, as the list of its own entries; the keys are taken
not to be names inherited from `Object.prototype`. -/
abbrev Table (α : Type) := List (JSString × α)

/-- The value of `table[key]`; `none` is `undefined`. -/
def Table.get {α : Type} (table : Table α) (key : JSString) : Option α :=
  match table with
  | [] => none
  | (k, v) :: rest => if k = key then some v else Table.get rest key

/-- The table after `table[key] = value`. -/
def Table.set {α : Type} (table : Table α) (key : JSString) (value : α) : Table α :=
  match table with
  | [] => [(key, value)]
  | (k, v) :: rest => if k = key then (k, value) :: rest else (k, v) :: Table.set rest key value

/-- The value of `x + 1` for the number read by `table[key]++`, `none` being `NaN`: a
missing entry (`undefined`) and a `NaN` entry both give `NaN`. -/
def nextCount : Option (Option Nat) → Option Nat
  | some (some n) => some (n + 1)
  | _ => none

/-- The statement `table[key]++` on a table of numbers, `none` being `NaN`. -/
def Table.increment (table : Table (Option Nat)) (key : JSString) : Table (Option Nat) :=
  table.set key (nextCount (table.get key))

/-- The statement `table[key] = (table[key] || 0) + 1`. -/
def Table.countUp (table : Table Nat) (key : JSString) : Table Nat :=
  table.set key (match table.get key with
    | some n => (if n = 0 then 0 else n) + 1
    | none => 0 + 1)

/-- The object `insights` of `generateInsights`. -/
structure Insights where
  totalComplaints : Nat
  criticalCount : Nat
  highPriorityCount : Nat
  sentimentDistribution : Table (Option Nat)
  topUrgencyKeywords : Table Nat
  departmentDistribution : Table Nat
  avgConfidence : ℚ
  recommendations : List String

/-- The initial value of `insights` (lines 286-295). -/
def initialInsights (complaints : List StoredComplaint) : Insights :=
  { totalComplaints := complaints.length
    criticalCount := 0
    highPriorityCount := 0
    sentimentDistribution := [(js "Positive", some 0), (js "Neutral", some 0),
      (js "Negative", some 0)]
    topUrgencyKeywords := []
    departmentDistribution := []
    avgConfidence := 0
    recommendations := [] }

/-- The local `keywords` of the loop body (lines 316-319), the empty list when the field is
falsy; `parse` is `JSON.parse` followed by the use of the result as an array, `none` when
either throws. -/
def storedKeywords (parse : JSString → Option (List JSString)) (complaint : StoredComplaint) :
    Option (List JSString) :=
  match complaint.urgency_keywords with
  | none => some []
  | some (.array keywords) => some keywords
  | some (.json []) => some []
  | some (.json (c :: cs)) => parse (c :: cs)

/-- The body of `complaints.forEach` in `generateInsights` (lines 299-331), on the pair of
`insights` and `totalConfidence`. -/
def insightStep (parse : JSString → Option (List JSString)) (state : Insights × ℚ)
    (complaint : StoredComplaint) : Option (Insights × ℚ) := do
  let insights := state.1
  let totalConfidence := state.2
  let insights :=
    if complaint.priority = some (js "Critical") then
      { insights with criticalCount := insights.criticalCount + 1 }
    else insights
  let insights :=
    if complaint.priority = some (js "High") then
      { insights with highPriorityCount := insights.highPriorityCount + 1 }
    else insights
  let insights :=
    match truthyString complaint.sentiment with
    | some sentiment =>
      { insights with
        sentimentDistribution := insights.sentimentDistribution.increment sentiment }
    | none => insights
  let insights :=
    match truthyString complaint.department with
    | some department =>
      { insights with
        departmentDistribution := insights.departmentDistribution.countUp department }
    | none => insights
  let keywords ← storedKeywords parse complaint
  let insights :=
    { insights with
      topUrgencyKeywords := keywords.foldl Table.countUp insights.topUrgencyKeywords }
  let totalConfidence :=
    match complaint.ai_confidence with
    | some confidence => if confidence = 0 then totalConfidence else totalConfidence + confidence
    | none => totalConfidence
  pure (insights, totalConfidence)

/-- The first recommendation of `generateInsights`. -/
def capacityMessage : String :=
  "High number of critical complaints detected. Consider increasing response team capacity."

/-- The second recommendation of `generateInsights`. -/
def negativeMessage : String :=
  "Majority of complaints show negative sentiment. Review communication and response strategies."

/-- The third recommendation of `generateInsights`. -/
def lowConfidenceMessage : String :=
  "AI classification confidence is low. Consider improving keyword dictionaries and training data."

/-- The comparison `insights.sentimentDistribution.Negative > bound`; it is false on `NaN`
and on `undefined`. -/
def negativeAbove (distribution : Table (Option Nat)) (bound : ℚ) : Bool :=
  match distribution.get (js "Negative") with
  | some (some n) => decide ((n : ℚ) > bound)
  | _ => false

/-- The three `if` statements that fill `insights.recommendations` (lines 336-346). -/
def recommendationsOf (insights : Insights) : List String :=
  let recommendations : List String := []
  let recommendations :=
    if (insights.criticalCount : ℚ) > (insights.totalComplaints : ℚ) * (1 / 10) then
      recommendations ++ [capacityMessage]
    else recommendations
  let recommendations :=
    if negativeAbove insights.sentimentDistribution ((insights.totalComplaints : ℚ) * (6 / 10))
    then recommendations ++ [negativeMessage]
    else recommendations
  let recommendations :=
    if insights.avgConfidence < 7 / 10 then recommendations ++ [lowConfidenceMessage]
    else recommendations
  recommendations

/-- The method `generateInsights`, its numbers read as exact rationals; `none` when a
`JSON.parse` of the loop throws.  `AIAnalysisService.generateInsights` has the numbers in
binary64. -/
def generateInsights (parse : JSString → Option (List JSString))
    (complaints : List StoredComplaint) : Option Insights := do
  let state ← complaints.foldlM (insightStep parse) (initialInsights complaints, (0 : ℚ))
  let insights := state.1
  let totalConfidence := state.2
  let insights :=
    { insights with
      avgConfidence :=
        if complaints.length > 0 then totalConfidence / (complaints.length : ℚ) else 0 }
  pure { insights with recommendations := recommendationsOf insights }

/-! ## The client service `AIService` -/

/-- The field `this.urgencyKeywords` of the client `AIService`. -/
def AIService.urgencyKeywords : List JSString :=
  [ js "urgent", js "emergency", js "critical", js "immediate", js "fire", js "flood",
    js "gas leak", js "water leak", js "electrical", js "dangerous", js "hazard", js "unsafe",
    js "broken", js "major", js "severe", js "threatening", js "damage", js "injury",
    js "blocked", js "collapsed", js "explosion", js "accident", js "bleeding", js "trapped",
    js "poisoning", js "overdose" ]

/-- The field `this.departmentKeywords` of the client `AIService`; its keys are those of the
server, in the same order. -/
def AIService.departmentKeywords : Department → List JSString
  | .publicWorks =>
    [ js "road", js "street", js "pothole", js "water", js "sewer", js "utility",
      js "infrastructure", js "maintenance", js "pipe", js "drain" ]
  | .policeDepartment =>
    [ js "crime", js "theft", js "assault", js "noise", js "disturbance", js "traffic",
      js "parking", js "safety", js "violence", js "robbery" ]
  | .parksDepartment =>
    [ js "park", js "playground", js "recreation", js "green space", js "trees",
      js "sports field", js "garden", js "bench", js "trail" ]
  | .codeEnforcement =>
    [ js "building", js "construction", js "permit", js "zoning", js "violation",
      js "compliance", js "illegal", js "unauthorized" ]
  | .sanitation =>
    [ js "garbage", js "trash", js "recycling", js "pickup", js "waste", js "cleaning",
      js "littering", js "dumping", js "smell" ]
  | .fireDepartment =>
    [ js "fire", js "smoke", js "gas", js "hazard", js "emergency", js "alarm", js "burning",
      js "explosion", js "carbon monoxide" ]

/-- The threshold cascade of the client `analyzePriority` (lines 44-47). -/
def AIService.priorityLevel (score : ℚ) (matchCount : Nat) : Priority :=
  if score ≥ 8 ∨ matchCount ≥ 3 then .critical
  else if score ≥ 5 ∨ matchCount ≥ 2 then .high
  else if score ≥ 2 ∨ matchCount ≥ 1 then .medium
  else .low

/-- The method `extractUrgencyKeywords` of the client; no cap. -/
def AIService.extractUrgencyKeywords (rt : Runtime) (title description : JSString) :
    List JSString :=
  let text := corpus rt title description
  AIService.urgencyKeywords.filter (fun keyword => includes text keyword)

/-- The method `analyzePriority` of the client; the weights are 3 for the urgency keywords
and 2 for the sentiment score. -/
def AIService.analyzePriority (rt : Runtime) (title description : JSString) :
    Option Priority := do
  let text := corpus rt title description
  let urgencyMatches := AIService.urgencyKeywords.filter (fun keyword => includes text keyword)
  let sentimentResult ← rt.sentimentScore text
  let sentimentScore : ℚ := |(sentimentResult : ℚ)|
  let priorityScore : ℚ := 0
  let priorityScore := priorityScore + (urgencyMatches.length : ℚ) * 3
  let priorityScore := priorityScore + (sentimentScore / 5) * 2
  pure (AIService.priorityLevel priorityScore urgencyMatches.length)

/-- The two tests of the client `analyzeSentiment` (lines 54-56). -/
def AIService.sentimentLabel (score : Int) : Sentiment :=
  if score > 2 then .positive
  else if score < -2 then .negative
  else .neutral

/-- The method `analyzeSentiment` of the client. -/
def AIService.analyzeSentiment (rt : Runtime) (title description : JSString) :
    Option Sentiment := do
  let text := title ++ space :: description
  let score ← rt.sentimentScore text
  pure (AIService.sentimentLabel score)

/-- The method `classifyDepartment` of the client: the department with the most matched
terms. -/
def AIService.classifyDepartment (rt : Runtime) (title description : JSString) : Department :=
  let text := corpus rt title description
  (allDepartments.foldl
    (fun (best : Department × Nat) department =>
      let matchCount :=
        ((AIService.departmentKeywords department).filter
          (fun keyword => includes text keyword)).length
      if matchCount > best.2 then (department, matchCount) else best)
    (Department.publicWorks, 0)).1

/-- The method `extractTags` of the client: an array without repetition, cut to 8. -/
def AIService.extractTags (rt : Runtime) (title description : JSString) : List JSString :=
  let text := corpus rt title description
  let tags : List JSString := []
  let tags := ((allDepartments.map AIService.departmentKeywords).flatten).foldl
    (fun tags keyword =>
      if includes text keyword && !(tags.contains keyword) then tags ++ [keyword] else tags)
    tags
  let tags := AIService.urgencyKeywords.foldl
    (fun tags keyword =>
      if includes text keyword && !(tags.contains keyword) then tags ++ [keyword] else tags)
    tags
  tags.take 8

/-- The object `analysis` built by `performAiAnalysis` of the complaint form, when the
sentiment calls return. -/
structure Suggestion where
  priority : Priority
  sentiment : Sentiment
  suggestedDepartment : Department
  urgencyKeywords : List JSString
  suggestedTags : List JSString

/-- The function `performAiAnalysis` of the complaint form for a non-empty title and
description. -/
def performAiAnalysis (rt : Runtime) (title description : JSString) : Option Suggestion := do
  let priority ← AIService.analyzePriority rt title description
  let sentiment ← AIService.analyzeSentiment rt title description
  pure
    { priority := priority
      sentiment := sentiment
      suggestedDepartment := AIService.classifyDepartment rt title description
      urgencyKeywords := AIService.extractUrgencyKeywords rt title description
      suggestedTags := AIService.extractTags rt title description }

/-! ## A concrete runtime -/

/-- A runtime on which the definitions can be evaluated: ASCII lower-casing, a sentiment
lexicon without entries (every text scores 0) and a stemmer that returns its word. -/
def plainRuntime : Runtime :=
  { toLowerCase := fun s => s.map asciiLower
    sentimentScore := fun _ => some 0
    stem := fun w => some w }

/-- A runtime whose sentiment analysis throws on every text. -/
def failingRuntime : Runtime :=
  { toLowerCase := fun s => s.map asciiLower
    sentimentScore := fun _ => none
    stem := fun w => some w }

/-- A dictionary term is written in lower-case ASCII. -/
def isLowerAscii (k : JSString) : Bool :=
  k.all (fun c => decide (c < 128)) && (k.map asciiLower == k)

/-! ## The rules as the specification words them -/

/-- The priority score of the specification:
`urgencyMatches * 4 + (|sentimentScore| / 10) * 2 + keywordDensity * 100 * 1 +
min(corpusLength / 500, 1) * 0.5`. -/
def specPriorityScore (matchCount : Nat) (sentimentScore : Int) (density : ℚ)
    (corpusLength : Nat) : ℚ :=
  (matchCount : ℚ) * 4 + (|(sentimentScore : ℚ)| / 10) * 2 + density * 100 * 1 +
    min ((corpusLength : ℚ) / 500) 1 * (1 / 2)

/-- The threshold rules of the specification, in the order in which they are checked. -/
def specPriorityRules : List ((ℚ → Nat → Bool) × Priority) :=
  [ (fun score matchCount => decide (score ≥ 12 ∨ matchCount ≥ 4), .critical),
    (fun score matchCount => decide (score ≥ 8 ∨ matchCount ≥ 3), .high),
    (fun score matchCount => decide (score ≥ 4 ∨ matchCount ≥ 1), .medium) ]

/-- The tier of the first rule that matches, Low when none does. -/
def specPriorityTier (score : ℚ) (matchCount : Nat) : Priority :=
  match specPriorityRules.find? (fun rule => rule.1 score matchCount) with
  | some rule => rule.2
  | none => .low

/-- The two-threshold sentiment rule of the specification. -/
def specSentiment (score : Int) : Sentiment :=
  if score > 1 then .positive else if score < -1 then .negative else .neutral

/-- The list without its repeated elements: of equal elements only the first is kept. -/
def keepFirst : List JSString → List JSString
  | [] => []
  | x :: xs => x :: (keepFirst xs).filter (fun y => decide (y ≠ x))

/-- The terms that `extractTags` goes through, in the order in which it does: the
department vocabularies in enumeration order, the urgency vocabulary, the location
vocabulary. -/
def tagCandidates : List JSString :=
  (allDepartments.map departmentKeywords).flatten ++ urgencyKeywords ++ locationKeywords

/-- The corpus stemmed word by word, for a stemmer that returns `st w` on `w`. -/
def specStemmedCorpus (st : JSString → JSString) (text : JSString) : JSString :=
  joinWith space ((splitOn space text).map st)

/-- The weighted score of a department in the specification:
`(2 * exact matches + 1 * stemmed matches) * importance`. -/
def specDepartmentScore (st : JSString → JSString) (text : JSString) (d : Department) : Nat :=
  (2 * (departmentKeywords d).countP (fun t => decide (t <:+: text)) +
    1 * (departmentKeywords d).countP
      (fun t => decide (st t <:+: specStemmedCorpus st text))) * importanceOf d

/-- The update of `bestMatch` and `maxScore` (lines 202-205) for a department whose score
is `f d`. -/
def pickBest (f : Department → Nat) (best : Department × Nat) (d : Department) :
    Department × Nat :=
  if f d > best.2 then (d, f d) else best

/-- The confidence of the specification, from the number `k` of matched terms of the
winning department, the number `u` of urgency keywords and the corpus length `L`. -/
def specConfidence (k u L : Nat) : ℚ :=
  min 1 (1 / 2 + min ((k : ℚ) / 3) 1 * (3 / 10) + min ((u : ℚ) / 2) 1 * (2 / 10) +
    min ((L : ℚ) / 200) 1 * (1 / 10))

/-- A description of 24 words with the single urgency term `now`. -/
def quietReport : JSString := js "now x x x x x x x x x x x x x x x x x x x x x x x"

/-- A complaint text that names terms shared by two vocabularies. -/
def sharedTermsReport : JSString := js "Fire hazard: explosion at the bridge construction"

/-- A complaint text on which Police Department and Fire Department have the same score. -/
def tiedReport : JSString := js "noise and smoke"

/-- A complaint text that names two urgency terms against the order of the vocabulary. -/
def outOfOrderReport : JSString := js "Fire! This is urgent"

/-- The title of scenario 1. -/
def scenario1Title : JSString := js "Urgent gas leak"

/-- The description of scenario 1. -/
def scenario1Description : JSString :=
  js "Dangerous gas leak near school, immediate evacuation needed"

/-- The title of scenario 2. -/
def scenario2Title : JSString := js "Pothole on Elm Street"

/-- The description of scenario 2. -/
def scenario2Description : JSString :=
  js "A medium-sized pothole has formed near the curb"

/-- The corpus of scenario 1. -/
def scenario1Corpus : JSString :=
  js "urgent gas leak dangerous gas leak near school, immediate evacuation needed"

/-- The corpus of scenario 2. -/
def scenario2Corpus : JSString :=
  js "pothole on elm street a medium-sized pothole has formed near the curb"

/-- The number of terms of a department whose stem occurs in the word-by-word stemmed
corpus, for a stemmer that returns `st w` on `w`. -/
def stemMatchCount (st : JSString → JSString) (text : JSString) (d : Department) : Nat :=
  (departmentKeywords d).countP (fun t => decide (st t <:+: specStemmedCorpus st text))

/-- The tier that the thresholds of `analyzePriority` give when only the score is looked
at. -/
def scoreOnlyTier (score : ℚ) : Priority :=
  if score ≥ 12 then .critical
  else if score ≥ 8 then .high
  else if score ≥ 4 then .medium
  else .low

/-- The value of the local `confidence` of `calculateConfidence` before the final
`Math.min` (lines 253-271). -/
def confidenceSum (rt : Runtime) (text : JSString) (urgency : List JSString)
    (department : Department) : ℚ :=
  let confidence : ℚ := 1 / 2
  let matchedKeywords := (departmentKeywords department).filter
    (fun keyword => includes text (rt.toLowerCase keyword))
  let keywordConfidence : ℚ := min ((matchedKeywords.length : ℚ) / 3) 1 * (3 / 10)
  let confidence := confidence + keywordConfidence
  let urgencyConfidence : ℚ := min ((urgency.length : ℚ) / 2) 1 * (2 / 10)
  let confidence := confidence + urgencyConfidence
  let lengthConfidence : ℚ := min ((text.length : ℚ) / 200) 1 * (1 / 10)
  confidence + lengthConfidence

/-- Worker of `specTokens`; `cur` is the current token, reversed. -/
def specTokensAux : JSString → JSString → List JSString
  | [], cur => if cur = [] then [] else [cur.reverse]
  | c :: cs, cur =>
    if isWhitespace c then
      if cur = [] then specTokensAux cs [] else cur.reverse :: specTokensAux cs []
    else specTokensAux cs (c :: cur)

/-- The whitespace-delimited tokens of a text: its maximal runs of non-whitespace code
units. -/
def specTokens (text : JSString) : List JSString := specTokensAux text []

/-- The text begins with a whitespace character. -/
def startsWithWhitespace : JSString → Bool
  | [] => false
  | c :: _ => isWhitespace c

/-- The text ends with a whitespace character. -/
def endsWithWhitespace : JSString → Bool
  | [] => false
  | [c] => isWhitespace c
  | _ :: c :: cs => endsWithWhitespace (c :: cs)

/-- The title of scenario 3. -/
def scenario3Title : JSString := js "Loud party every night"

/-- The description of scenario 3. -/
def scenario3Description : JSString :=
  js "Neighbors are disturbing the peace with loud music"

/-- The corpus of scenario 3. -/
def scenario3Corpus : JSString :=
  js "loud party every night neighbors are disturbing the peace with loud music"

/-- The title of a report with three Fire Department terms and several urgency terms. -/
def smokeTitle : JSString := js "Urgent: fire and smoke in the stairwell"

/-- The description of that report; the corpus has 239 code units. -/
def smokeDescription : JSString :=
  js "There is a fire alarm ringing and thick smoke on the second floor of the building at the corner. It is an emergency, people are still inside and nobody has come to help us so far. Please send someone"

/-- The title of a report whose only urgency term, `asap`, is not in the client
vocabulary. -/
def asapTitle : JSString := js "Street light"

/-- The description of that report. -/
def asapDescription : JSString := js "Please repair the street light asap"

/-- The keywords of a stored complaint as the loop of `generateInsights` reads them, the
empty list when `JSON.parse` throws. -/
def storedKeywordsOr (parse : JSString → Option (List JSString)) (complaint : StoredComplaint) :
    List JSString :=
  (storedKeywords parse complaint).getD []

/-- The stored confidence of a complaint, 0 when there is none. -/
def storedConfidence (complaint : StoredComplaint) : ℚ :=
  match complaint.ai_confidence with
  | some confidence => confidence
  | none => 0

/-- A `JSON.parse` that throws on every text; the sample complaints hold arrays. -/
def noJson : JSString → Option (List JSString) := fun _ => none

/-- A stored complaint of priority Low. -/
def lowComplaint : StoredComplaint :=
  { priority := some (js "Low")
    sentiment := some (js "Neutral")
    department := some (js "Public Works")
    urgency_keywords := some (.array [])
    ai_confidence := some (3 / 5) }

/-- A stored complaint of priority Critical with two urgency keywords. -/
def criticalComplaint : StoredComplaint :=
  { priority := some (js "Critical")
    sentiment := some (js "Negative")
    department := some (js "Fire Department")
    urgency_keywords := some (.array [js "fire", js "urgent"])
    ai_confidence := some (9 / 10) }

/-- A stored complaint without urgency keywords and without a stored confidence. -/
def unscoredComplaint : StoredComplaint :=
  { priority := some (js "Low")
    sentiment := some (js "Neutral")
    department := some (js "Sanitation")
    urgency_keywords := none
    ai_confidence := none }

/-- Ten complaints, 2 Critical and 8 Low. -/
def tenWithTwoCritical : List StoredComplaint :=
  List.replicate 2 criticalComplaint ++ List.replicate 8 lowComplaint

/-- Ten complaints, 1 Critical and 9 Low. -/
def tenWithOneCritical : List StoredComplaint :=
  criticalComplaint :: List.replicate 9 lowComplaint

/-- Two complaints, one with the stored confidence 0.9 and one without. -/
def scoredAndUnscored : List StoredComplaint := [criticalComplaint, unscoredComplaint]

/-- The stored confidence values of a collection: those that are truthy. -/
def storedValues (complaints : List StoredComplaint) : List ℚ :=
  complaints.filterMap (fun c =>
    match c.ai_confidence with
    | some confidence => if confidence = 0 then none else some confidence
    | none => none)

/-- The mean of the stored confidence values, as the specification words it. -/
def specMeanStored (complaints : List StoredComplaint) : ℚ :=
  (storedValues complaints).sum / ((storedValues complaints).length : ℚ)

/-- The property names that every plain object inherits from `Object.prototype`: a table
read at one of these keys gives the inherited value, not a count. -/
def objectPrototypeNames : List JSString :=
  [ js "constructor", js "toString", js "toLocaleString", js "valueOf", js "hasOwnProperty",
    js "isPrototypeOf", js "propertyIsEnumerable", js "__proto__", js "__defineGetter__",
    js "__defineSetter__", js "__lookupGetter__", js "__lookupSetter__" ]

/-! ## Binary64 arithmetic -/

/-- Rounding of a rational to the nearest integer, a tie going to the even one. -/
def roundHalfEven (x : ℚ) : Int :=
  if x - ⌊x⌋ < 1 / 2 then ⌊x⌋
  else if 1 / 2 < x - ⌊x⌋ then ⌊x⌋ + 1
  else if ⌊x⌋ % 2 = 0 then ⌊x⌋ else ⌊x⌋ + 1

/-- The binary exponent that fixes the spacing of the binary64 numbers around `q`: the
integer part of the binary logarithm of the magnitude, and -1022 in the subnormal range. -/
def binade (q : ℚ) : Int := max (Int.log 2 |q|) (-1022)

/-- The IEEE 754 binary64 number nearest to `q`, a tie going to the even significand: the
value of a JavaScript numeric literal and the rounding of each arithmetic operation on
numbers.  A binary64 number is the rational that it denotes.  Magnitudes from 2^1024 on,
which JavaScript rounds to `Infinity`, do not arise from the operands of the service. -/
def roundToDouble (q : ℚ) : ℚ :=
  roundHalfEven (q / 2 ^ (binade q - 52)) * 2 ^ (binade q - 52)

/-- The operator `+` on numbers. -/
def Double.add (a b : ℚ) : ℚ := roundToDouble (a + b)

/-- The operator `*` on numbers. -/
def Double.mul (a b : ℚ) : ℚ := roundToDouble (a * b)

/-- The operator `/` on numbers, for a divisor other than 0. -/
def Double.div (a b : ℚ) : ℚ := roundToDouble (a / b)

/-! ## The service object

The methods once more, this time as they run on an object: each one takes the state of the
object and returns it with its result, a string longer than the engine allows is a
`RangeError`, and numbers are binary64.  The definitions of the sections above are the same
methods read on the dictionaries of the constructor, on strings that the engine can build
and in exact arithmetic. -/

/-- The own fields of an `AIAnalysisService` object that the constructor fills with the
dictionaries and weights (lines 9-81).  The fields `sentiment` and `stemmer` hold the
library objects, which are the `Runtime`. -/
structure AIAnalysisService where
  urgencyKeywords : List JSString
  departmentKeywords : Department → List JSString
  priorityWeights : PriorityWeights
  categoryImportance : List (String × Nat)

/-- The object that `new AIAnalysisService()` returns. -/
def AIAnalysisService.new : AIAnalysisService :=
  { urgencyKeywords := ComplaintAI.urgencyKeywords
    departmentKeywords := ComplaintAI.departmentKeywords
    priorityWeights := ComplaintAI.priorityWeights
    categoryImportance := ComplaintAI.categoryImportance }

/-- The outcome of a method call on a service object: the value returned, `none` when the
call throws, and the state of the object after the call. -/
abbrev Outcome (α : Type) := Option α × AIAnalysisService

/-- Sequencing in a method body: `next` runs on the state that `first` leaves, and not at
all when `first` throws. -/
def andThen {α β : Type} (first : Outcome α) (next : α → AIAnalysisService → Outcome β) :
    Outcome β :=
  match first with
  | (some value, self) => next value self
  | (none, self) => (none, self)

/-- The greatest length of a string in V8, the engine of Node.js, on a 64-bit platform:
2^29 - 24 code units. -/
def v8MaxStringLength : Nat := 2 ^ 29 - 24

/-- The template literal `${title} ${description}`; `none` is the `RangeError` (invalid
string length) of an engine whose strings have at most `maxLength` code units. -/
def templateLiteral (maxLength : Nat) (title description : JSString) : Option JSString :=
  if title.length + 1 + description.length ≤ maxLength then some (title ++ space :: description)
  else none

/-- The expression `${title} ${description}`.toLowerCase(); `none` is the `RangeError` of
the template literal or of a lower-casing that passes the greatest length. -/
def lowerCasedText (rt : Runtime) (maxLength : Nat) (title description : JSString) :
    Option JSString := do
  let text ← templateLiteral maxLength title description
  if (rt.toLowerCase text).length ≤ maxLength then some (rt.toLowerCase text) else none

/-- The method `analyzePriority` on the object (lines 128-159).  No statement assigns to a
field, so the state is returned as it came. -/
def AIAnalysisService.analyzePriority (self : AIAnalysisService) (rt : Runtime)
    (maxLength : Nat) (title description : JSString) : Outcome Priority :=
  (do
    let text ← lowerCasedText rt maxLength title description
    let words := splitWhitespace text
    let found := self.urgencyKeywords.filter
      (fun keyword => includes text (rt.toLowerCase keyword))
    let sentimentResult ← rt.sentimentScore text
    let sentimentIntensity : ℚ := |(sentimentResult : ℚ)|
    let keywordDensity := Double.div (found.length : ℚ) (words.length : ℚ)
    let priorityScore : ℚ := 0
    let priorityScore := Double.add priorityScore
      (Double.mul (found.length : ℚ) self.priorityWeights.urgencyKeywords)
    let priorityScore := Double.add priorityScore
      (Double.mul (Double.div sentimentIntensity 10) self.priorityWeights.sentimentScore)
    let priorityScore := Double.add priorityScore
      (Double.mul (Double.mul keywordDensity 100) self.priorityWeights.keywordDensity)
    let lengthFactor : ℚ := min (Double.div (text.length : ℚ) 500) 1
    let priorityScore := Double.add priorityScore
      (Double.mul lengthFactor self.priorityWeights.lengthFactor)
    pure (priorityLevel priorityScore found.length),
   self)

/-- The method `analyzeSentiment` on the object (lines 161-171). -/
def AIAnalysisService.analyzeSentiment (self : AIAnalysisService) (rt : Runtime)
    (maxLength : Nat) (title description : JSString) : Outcome Sentiment :=
  (do
    let text ← templateLiteral maxLength title description
    let score ← rt.sentimentScore text
    pure (sentimentLabel score),
   self)

/-- The expression `this.categoryImportance[department] || 1` on the object. -/
def AIAnalysisService.importanceOf (self : AIAnalysisService) (department : Department) : Nat :=
  match self.categoryImportance.lookup department.name with
  | some v => if v = 0 then 1 else v
  | none => 1

/-- The score of one department in `classifyDepartment` on the object (lines 180-200). -/
def AIAnalysisService.departmentScore (self : AIAnalysisService) (rt : Runtime)
    (text : JSString) (department : Department) : Option Nat := do
  let score ← (self.departmentKeywords department).foldlM (keywordStep rt text) 0
  pure (score * self.importanceOf department)

/-- The body of the outer `forEach` of `classifyDepartment` on the object. -/
def AIAnalysisService.departmentStep (self : AIAnalysisService) (rt : Runtime)
    (text : JSString) (best : Department × Nat) (department : Department) :
    Option (Department × Nat) := do
  let score ← self.departmentScore rt text department
  pure (if score > best.2 then (department, score) else best)

/-- The method `classifyDepartment` on the object (lines 173-209). -/
def AIAnalysisService.classifyDepartment (self : AIAnalysisService) (rt : Runtime)
    (maxLength : Nat) (title description : JSString) : Outcome Department :=
  (do
    let text ← lowerCasedText rt maxLength title description
    let best ← allDepartments.foldlM (self.departmentStep rt text) (Department.publicWorks, 0)
    pure best.1,
   self)

/-- The method `extractUrgencyKeywords` on the object (lines 211-217). -/
def AIAnalysisService.extractUrgencyKeywords (self : AIAnalysisService) (rt : Runtime)
    (maxLength : Nat) (title description : JSString) : Outcome (List JSString) :=
  (do
    let text ← lowerCasedText rt maxLength title description
    pure ((self.urgencyKeywords.filter
      (fun keyword => includes text (rt.toLowerCase keyword))).take 10),
   self)

/-- The method `extractTags` on the object (lines 219-250); the set and the location
keywords are locals of the call. -/
def AIAnalysisService.extractTags (self : AIAnalysisService) (rt : Runtime)
    (maxLength : Nat) (title description : JSString) : Outcome (List JSString) :=
  (do
    let text ← lowerCasedText rt maxLength title description
    let tags : List JSString := []
    let tags := ((allDepartments.map self.departmentKeywords).flatten).foldl
      (fun tags keyword =>
        if includes text (rt.toLowerCase keyword) then setAdd tags keyword else tags)
      tags
    let tags := self.urgencyKeywords.foldl
      (fun tags keyword =>
        if includes text (rt.toLowerCase keyword) then setAdd tags keyword else tags)
      tags
    let tags := locationKeywords.foldl
      (fun tags keyword => if includes text keyword then setAdd tags keyword else tags)
      tags
    pure (tags.take 12),
   self)

/-- The method `calculateConfidence` on the object (lines 252-274), in binary64: the
literals 0.3, 0.2 and 0.1 are the binary64 numbers nearest to them, 0.5 and 1.0 are binary64
numbers, and each quotient, product and sum is rounded. -/
def AIAnalysisService.calculateConfidence (self : AIAnalysisService) (rt : Runtime)
    (text : JSString) (urgency : List JSString) (department : Department) : Outcome ℚ :=
  (let confidence : ℚ := 1 / 2
   let matchedKeywords := (self.departmentKeywords department).filter
     (fun keyword => includes text (rt.toLowerCase keyword))
   let keywordConfidence : ℚ :=
     Double.mul (min (Double.div (matchedKeywords.length : ℚ) 3) 1) (roundToDouble (3 / 10))
   let confidence := Double.add confidence keywordConfidence
   let urgencyConfidence : ℚ :=
     Double.mul (min (Double.div (urgency.length : ℚ) 2) 1) (roundToDouble (2 / 10))
   let confidence := Double.add confidence urgencyConfidence
   let lengthConfidence : ℚ :=
     Double.mul (min (Double.div (text.length : ℚ) 200) 1) (roundToDouble (1 / 10))
   let confidence := Double.add confidence lengthConfidence
   some (min confidence 1),
   self)

/-- The body of the `try` block of `analyzeComplaint` on the object (lines 88-109), `text`
being the local of line 85. -/
def AIAnalysisService.analyzeComplaintTry (self : AIAnalysisService) (rt : Runtime)
    (maxLength : Nat) (title description text : JSString) : Outcome Analysis :=
  andThen (self.analyzePriority rt maxLength title description) fun priority self =>
  andThen (self.analyzeSentiment rt maxLength title description) fun sentiment self =>
  andThen (self.classifyDepartment rt maxLength title description) fun department self =>
  andThen (self.extractUrgencyKeywords rt maxLength title description) fun urgency self =>
  andThen (self.extractTags rt maxLength title description) fun tags self =>
  andThen (self.calculateConfidence rt text urgency department) fun confidence self =>
  andThen (rt.sentimentScore text, self) fun sentimentScore self =>
  (some
    { priority := priority
      sentiment := sentiment
      department := department
      urgencyKeywords := urgency
      tags := tags
      confidence := confidence
      analysis := .stats text.length (splitOn space text).length urgency.length sentimentScore },
   self)

/-- The method `analyzeComplaint` on the object (lines 84-126).  Line 85 stands before the
`try` statement: its `RangeError` leaves the method.  What the `try` block throws is caught
and replaced by the record of the `catch` branch. -/
def AIAnalysisService.analyzeComplaint (self : AIAnalysisService) (rt : Runtime)
    (maxLength : Nat) (title description : JSString) : Outcome Analysis :=
  andThen (lowerCasedText rt maxLength title description, self) fun text self =>
    match self.analyzeComplaintTry rt maxLength title description text with
    | (some result, self) => (some result, self)
    | (none, self) => (some fallbackAnalysis, self)

/-- The body of `complaints.forEach` in `generateInsights` (lines 299-331) with the sum of
line 329 in binary64, on the pair of `insights` and `totalConfidence`. -/
def AIAnalysisService.insightStep (parse : JSString → Option (List JSString))
    (state : Insights × ℚ) (complaint : StoredComplaint) : Option (Insights × ℚ) := do
  let insights := state.1
  let totalConfidence := state.2
  let insights :=
    if complaint.priority = some (js "Critical") then
      { insights with criticalCount := insights.criticalCount + 1 }
    else insights
  let insights :=
    if complaint.priority = some (js "High") then
      { insights with highPriorityCount := insights.highPriorityCount + 1 }
    else insights
  let insights :=
    match truthyString complaint.sentiment with
    | some sentiment =>
      { insights with
        sentimentDistribution := insights.sentimentDistribution.increment sentiment }
    | none => insights
  let insights :=
    match truthyString complaint.department with
    | some department =>
      { insights with
        departmentDistribution := insights.departmentDistribution.countUp department }
    | none => insights
  let keywords ← storedKeywords parse complaint
  let insights :=
    { insights with
      topUrgencyKeywords := keywords.foldl Table.countUp insights.topUrgencyKeywords }
  let totalConfidence :=
    match complaint.ai_confidence with
    | some confidence =>
      if confidence = 0 then totalConfidence else Double.add totalConfidence confidence
    | none => totalConfidence
  pure (insights, totalConfidence)

/-- The three `if` statements that fill `insights.recommendations` (lines 336-346), the
products and the literal 0.7 in binary64. -/
def AIAnalysisService.recommendationsOf (insights : Insights) : List String :=
  let recommendations : List String := []
  let recommendations :=
    if (insights.criticalCount : ℚ) >
        Double.mul (insights.totalComplaints : ℚ) (roundToDouble (1 / 10)) then
      recommendations ++ [capacityMessage]
    else recommendations
  let recommendations :=
    if negativeAbove insights.sentimentDistribution
        (Double.mul (insights.totalComplaints : ℚ) (roundToDouble (6 / 10)))
    then recommendations ++ [negativeMessage]
    else recommendations
  let recommendations :=
    if insights.avgConfidence < roundToDouble (7 / 10) then
      recommendations ++ [lowConfidenceMessage]
    else recommendations
  recommendations

/-- The method `generateInsights` on the object (lines 285-349), the sum, the quotient and
the thresholds in binary64; `none` when a `JSON.parse` of the loop throws. -/
def AIAnalysisService.generateInsights (self : AIAnalysisService)
    (parse : JSString → Option (List JSString)) (complaints : List StoredComplaint) :
    Outcome Insights :=
  (do
    let state ← complaints.foldlM (AIAnalysisService.insightStep parse)
      (initialInsights complaints, (0 : ℚ))
    let insights := state.1
    let totalConfidence := state.2
    let insights :=
      { insights with
        avgConfidence :=
          if complaints.length > 0 then Double.div totalConfidence (complaints.length : ℚ)
          else 0 }
    pure { insights with recommendations := AIAnalysisService.recommendationsOf insights },
   self)

/-- The formula of the confidence with each literal, quotient, product and sum in binary64,
in the order in which the claim writes them. -/
def specConfidenceDouble (k u L : Nat) : ℚ :=
  min 1 (Double.add (Double.add (Double.add (1 / 2)
    (Double.mul (min (Double.div (k : ℚ) 3) 1) (roundToDouble (3 / 10))))
    (Double.mul (min (Double.div (u : ℚ) 2) 1) (roundToDouble (2 / 10))))
    (Double.mul (min (Double.div (L : ℚ) 200) 1) (roundToDouble (1 / 10))))

/-! ## Sample data of the service object -/

/-- The title of a report with two terms of the Fire Department, one urgency keyword and a
corpus of 18 code units. -/
def hallTitle : JSString := js "Fire"

/-- The description of that report. -/
def hallDescription : JSString := js "smoke in hall"

/-- A stored complaint whose stored confidence is the number 0.9. -/
def ninetyComplaint : StoredComplaint :=
  { priority := some (js "Critical")
    sentiment := some (js "Negative")
    department := some (js "Fire Department")
    urgency_keywords := some (.array [js "fire", js "urgent"])
    ai_confidence := some (roundToDouble (9 / 10)) }

/-- Two stored complaints, one with the stored confidence 0.9 and one without a stored
confidence. -/
def ninetyAndUnscored : List StoredComplaint := [ninetyComplaint, unscoredComplaint]

/-- Modelled from the spec: the signed lexical sentiment score of a text, the "sum of
per-token sentiment polarity weights from a fixed polarity lexicon; positive words
contribute positive values, negative words contribute negative values; unknown tokens
contribute 0".  The library `sentiment` that computes the score is not part of the
repository: `lexicon` is its table of weights, 0 for a token that it does not hold, and the
tokens are the whitespace-delimited tokens of the text in lower case. -/
def lexicalScore (lexicon : JSString → Int) (rt : Runtime) (text : JSString) : Int :=
  ((specTokens (rt.toLowerCase text)).map lexicon).sum

/-- A polarity lexicon with two entries: `disturbing` of weight -2 and `peace` of
weight 2. -/
def sampleLexicon (token : JSString) : Int :=
  if token = js "disturbing" then -2 else if token = js "peace" then 2 else 0

/-- A runtime whose sentiment analysis is the lexical score over `sampleLexicon`, with ASCII
lower-casing and a stemmer that returns its word. -/
def lexiconRuntime : Runtime :=
  { toLowerCase := fun s => s.map asciiLower
    sentimentScore := fun text =>
      some (((specTokens (text.map asciiLower)).map sampleLexicon).sum)
    stem := fun w => some w }

/-! ## Theorems -/

/-! ### Strings and dictionaries -/

theorem includes_iff (text pat : JSString) : includes text pat = true ↔ pat <:+: text := by
  induction text with
  | nil => cases pat <;> simp [includes]
  | cons c cs ih =>
    rw [includes, Bool.or_eq_true, ih, List.infix_cons_iff, List.isPrefixOf_iff_prefix]

theorem includes_eq_decide (text pat : JSString) :
    includes text pat = decide (pat <:+: text) := by
  rw [Bool.eq_iff_iff, includes_iff, decide_eq_true_iff]

set_option maxRecDepth 100000 in
theorem urgencyKeywords_lower : urgencyKeywords.all isLowerAscii = true := by decide

set_option maxRecDepth 100000 in
theorem departmentKeywords_lower :
    allDepartments.all (fun d => (departmentKeywords d).all isLowerAscii) = true := by decide

theorem mem_allDepartments (d : Department) : d ∈ allDepartments := by
  cases d <;> simp [allDepartments]

theorem Runtime.Ecma.toLowerCase_of_isLowerAscii {rt : Runtime} (h : rt.Ecma) {k : JSString}
    (hk : isLowerAscii k = true) : rt.toLowerCase k = k := by
  simp only [isLowerAscii, Bool.and_eq_true, List.all_eq_true, decide_eq_true_eq,
    beq_iff_eq] at hk
  rw [h.toLowerCase_ascii k hk.1, hk.2]

theorem Runtime.Ecma.toLowerCase_urgency {rt : Runtime} (h : rt.Ecma) {k : JSString}
    (hk : k ∈ urgencyKeywords) : rt.toLowerCase k = k :=
  h.toLowerCase_of_isLowerAscii (List.all_eq_true.mp urgencyKeywords_lower k hk)

theorem Runtime.Ecma.toLowerCase_department {rt : Runtime} (h : rt.Ecma) {d : Department}
    {k : JSString} (hk : k ∈ departmentKeywords d) : rt.toLowerCase k = k :=
  h.toLowerCase_of_isLowerAscii
    (List.all_eq_true.mp
      (List.all_eq_true.mp departmentKeywords_lower d (mem_allDepartments d)) k hk)

theorem plainRuntime_ecma : plainRuntime.Ecma where
  toLowerCase_ascii := fun _ _ => rfl
  toLowerCase_append_space := fun s t => by simp [plainRuntime]

theorem plainRuntime_stem (w : JSString) : plainRuntime.stem w = some (id w) := rfl

theorem urgencyMatches_eq {rt : Runtime} (h : rt.Ecma) (text : JSString) :
    urgencyMatches rt text = urgencyKeywords.filter (fun t => decide (t <:+: text)) := by
  unfold urgencyMatches
  apply List.filter_congr
  intro k hk
  rw [h.toLowerCase_urgency hk, includes_eq_decide]

theorem urgencyMatches_length {rt : Runtime} (h : rt.Ecma) (text : JSString) :
    (urgencyMatches rt text).length =
      urgencyKeywords.countP (fun t => decide (t <:+: text)) := by
  rw [urgencyMatches_eq h, List.countP_eq_length_filter]

/-! ### Priority -/

theorem analyzePriority_eq (rt : Runtime) (title description : JSString) :
    analyzePriority rt title description =
      (rt.sentimentScore (corpus rt title description)).map (fun s =>
        priorityLevel
          (priorityScoreOf (urgencyMatches rt (corpus rt title description)).length s
            (splitWhitespace (corpus rt title description)).length
            (corpus rt title description).length)
          (urgencyMatches rt (corpus rt title description)).length) := by
  simp only [analyzePriority, priorityScore]
  cases rt.sentimentScore (corpus rt title description) <;> rfl

theorem priorityScore_eq (rt : Runtime) (title description : JSString) :
    priorityScore rt title description =
      (rt.sentimentScore (corpus rt title description)).map (fun s =>
        priorityScoreOf (urgencyMatches rt (corpus rt title description)).length s
          (splitWhitespace (corpus rt title description)).length
          (corpus rt title description).length) := by
  simp only [priorityScore]
  cases rt.sentimentScore (corpus rt title description) <;> rfl

theorem priorityScoreOf_eq_spec (u : Nat) (s : Int) (w L : Nat) :
    priorityScoreOf u s w L = specPriorityScore u s (keywordDensity u w) L := by
  simp [priorityScoreOf, specPriorityScore, priorityWeights]

theorem priorityLevel_eq_spec (score : ℚ) (u : Nat) :
    priorityLevel score u = specPriorityTier score u := by
  unfold priorityLevel specPriorityTier specPriorityRules
  by_cases h1 : score ≥ 12 ∨ u ≥ 4
  · simp [List.find?, h1]
  · by_cases h2 : score ≥ 8 ∨ u ≥ 3
    · simp [List.find?, h1, h2]
    · by_cases h3 : score ≥ 4 ∨ u ≥ 1
      · simp [List.find?, h1, h2, h3]
      · simp [List.find?, h1, h2, h3]

theorem priorityScoreOf_ge (u : Nat) (s : Int) (w L : Nat) :
    4 * (u : ℚ) ≤ priorityScoreOf u s w L := by
  simp only [priorityScoreOf, keywordDensity, priorityWeights]
  have h1 : (0 : ℚ) ≤ |(s : ℚ)| / 10 * 2 := by positivity
  have h2 : (0 : ℚ) ≤ (u : ℚ) / (w : ℚ) * 100 * 1 := by positivity
  have h3 : (0 : ℚ) ≤ min ((L : ℚ) / 500) 1 * (1 / 2) :=
    mul_nonneg (le_min (by positivity) (by norm_num)) (by norm_num)
  linarith

theorem priorityLevel_floor (u : Nat) (s : Int) (w L : Nat) :
    min 3 u ≤ (priorityLevel (priorityScoreOf u s w L) u).rank := by
  have hge := priorityScoreOf_ge u s w L
  unfold priorityLevel
  split_ifs with h1 h2 h3
  · simp [Priority.rank]
  · have : u < 3 := by
      by_contra hu
      have : (3 : ℚ) ≤ u := by exact_mod_cast Nat.le_of_not_lt hu
      exact h1 (Or.inl (by linarith))
    simp only [Priority.rank]; omega
  · have : u < 2 := by
      by_contra hu
      have : (2 : ℚ) ≤ u := by exact_mod_cast Nat.le_of_not_lt hu
      exact h2 (Or.inl (by linarith))
    simp only [Priority.rank]; omega
  · have : u < 1 := by
      by_contra hu
      exact h3 (Or.inr (Nat.le_of_not_lt hu))
    simp only [Priority.rank]; omega

/-- C1. For every title and description, `analyzePriority` returns (as soon as the
sentiment analysis of the corpus returns a score) the tier of the first matching rule of
the specification: score >= 12 or matches >= 4 gives Critical, score >= 8 or matches >= 3
gives High, score >= 4 or matches >= 1 gives Medium, otherwise Low; the matches are the
urgency terms that are substrings of the lower-cased corpus and the score is
`matches * 4 + (|sentiment| / 10) * 2 + density * 100 * 1 + min(length / 500, 1) * 0.5`. -/
theorem analyzePriority_first_matching_rule (rt : Runtime) (h : rt.Ecma)
    (title description : JSString) :
    analyzePriority rt title description =
      (rt.sentimentScore (corpus rt title description)).map (fun sentimentScore =>
        specPriorityTier
          (specPriorityScore
            (urgencyKeywords.countP (fun t => decide (t <:+: corpus rt title description)))
            sentimentScore
            (keywordDensity
              (urgencyKeywords.countP (fun t => decide (t <:+: corpus rt title description)))
              (splitWhitespace (corpus rt title description)).length)
            (corpus rt title description).length)
          (urgencyKeywords.countP (fun t => decide (t <:+: corpus rt title description)))) := by
  rw [analyzePriority_eq]
  simp only [urgencyMatches_length h, priorityScoreOf_eq_spec, priorityLevel_eq_spec]

theorem analyzePriority_first_matching_rule_witness :
    plainRuntime.Ecma ∧
      analyzePriority plainRuntime [] quietReport =
        (plainRuntime.sentimentScore (corpus plainRuntime [] quietReport)).map
          (fun sentimentScore =>
            specPriorityTier
              (specPriorityScore
                (urgencyKeywords.countP
                  (fun t => decide (t <:+: corpus plainRuntime [] quietReport)))
                sentimentScore
                (keywordDensity
                  (urgencyKeywords.countP
                    (fun t => decide (t <:+: corpus plainRuntime [] quietReport)))
                  (splitWhitespace (corpus plainRuntime [] quietReport)).length)
                (corpus plainRuntime [] quietReport).length)
              (urgencyKeywords.countP
                (fun t => decide (t <:+: corpus plainRuntime [] quietReport)))) :=
  ⟨plainRuntime_ecma, analyzePriority_first_matching_rule plainRuntime plainRuntime_ecma [] quietReport⟩

theorem corpus_append_term {rt : Runtime} (h : rt.Ecma) (title description t : JSString)
    (ht : t ∈ urgencyKeywords) :
    corpus rt title (description ++ space :: t) =
      corpus rt title description ++ space :: t := by
  have hl : isLowerAscii (space :: t) = true := by
    have := List.all_eq_true.mp urgencyKeywords_lower t ht
    simp only [isLowerAscii, Bool.and_eq_true, List.all_eq_true, decide_eq_true_eq,
      beq_iff_eq] at this ⊢
    refine ⟨?_, ?_⟩
    · intro c hc
      rcases List.mem_cons.mp hc with rfl | hc
      · decide
      · exact this.1 c hc
    · rw [List.map_cons, this.2]; rfl
  unfold corpus
  rw [show title ++ space :: (description ++ space :: t) =
    (title ++ space :: description) ++ space :: t by simp,
    h.toLowerCase_append_space, h.toLowerCase_of_isLowerAscii hl]

set_option maxRecDepth 100000 in
theorem now_mem_urgencyKeywords : js "now" ∈ urgencyKeywords := by decide

set_option maxRecDepth 100000 in
theorem quietReport_counts :
    (urgencyMatches plainRuntime (corpus plainRuntime [] quietReport)).length = 1 ∧
    (splitWhitespace (corpus plainRuntime [] quietReport)).length = 25 ∧
    (corpus plainRuntime [] quietReport).length = 50 := by decide

set_option maxRecDepth 100000 in
theorem quietReport_now_counts :
    (urgencyMatches plainRuntime
      (corpus plainRuntime [] (quietReport ++ space :: js "now"))).length = 1 ∧
    (splitWhitespace (corpus plainRuntime [] (quietReport ++ space :: js "now"))).length = 26 ∧
    (corpus plainRuntime [] (quietReport ++ space :: js "now")).length = 54 := by decide

/-- C2, as stated, fails.  With the empty title and the description `quietReport` (the
word `now` followed by 23 words `x`, none of which carries sentiment), adding the urgency
term `now` as an extra word lowers the priority score from 161/20 = 8.05 to
51351/6500 = 7.90... and the tier from High to Medium: the term is already matched, so
the number of matches stays 1 while the word count goes from 25 to 26. -/
theorem urgency_addition_can_lower_score_and_tier :
    js "now" ∈ urgencyKeywords ∧
    priorityScore plainRuntime [] quietReport = some (161 / 20) ∧
    priorityScore plainRuntime [] (quietReport ++ space :: js "now") = some (51351 / 6500) ∧
    (51351 / 6500 : ℚ) < 161 / 20 ∧
    analyzePriority plainRuntime [] quietReport = some Priority.high ∧
    analyzePriority plainRuntime [] (quietReport ++ space :: js "now") = some Priority.medium ∧
    Priority.medium.rank < Priority.high.rank := by
  obtain ⟨a1, a2, a3⟩ := quietReport_counts
  obtain ⟨b1, b2, b3⟩ := quietReport_now_counts
  have hs : ∀ x, plainRuntime.sentimentScore x = some 0 := fun _ => rfl
  have e1 : priorityScoreOf 1 0 25 50 = 161 / 20 := by
    norm_num [priorityScoreOf, keywordDensity, priorityWeights]
  have e2 : priorityScoreOf 1 0 26 54 = 51351 / 6500 := by
    norm_num [priorityScoreOf, keywordDensity, priorityWeights]
  refine ⟨now_mem_urgencyKeywords, ?_, ?_, by norm_num, ?_, ?_, by decide⟩
  · rw [priorityScore_eq, hs, a1, a2, a3, Option.map_some', e1]
  · rw [priorityScore_eq, hs, b1, b2, b3, Option.map_some', e2]
  · rw [analyzePriority_eq, hs, a1, a2, a3, Option.map_some', e1]
    norm_num [priorityLevel]
  · rw [analyzePriority_eq, hs, b1, b2, b3, Option.map_some', e2]
    norm_num [priorityLevel]

/-- C2, amended.  For every title, description and term `t` of the urgency vocabulary,
adding `t` to the description as an extra word never decreases the number of urgency
matches and makes it at least 1; and as soon as the sentiment analysis of the new corpus
returns, `analyzePriority` returns a tier that is at least Medium and at least the floor
of the number of matches, after and so also before the addition: Medium for 1, High for 2,
Critical for 3 or more. -/
theorem urgency_addition_keeps_matches_and_floor (rt : Runtime) (h : rt.Ecma)
    (title description t : JSString) (ht : t ∈ urgencyKeywords) :
    (urgencyMatches rt (corpus rt title description)).length ≤
        (urgencyMatches rt (corpus rt title (description ++ space :: t))).length ∧
      1 ≤ (urgencyMatches rt (corpus rt title (description ++ space :: t))).length ∧
      ∀ s, rt.sentimentScore (corpus rt title (description ++ space :: t)) = some s →
        ∃ p, analyzePriority rt title (description ++ space :: t) = some p ∧
          min 3 (urgencyMatches rt (corpus rt title (description ++ space :: t))).length ≤
            p.rank ∧
          min 3 (urgencyMatches rt (corpus rt title description)).length ≤ p.rank ∧
          Priority.medium.rank ≤ p.rank := by
  have hle : (urgencyMatches rt (corpus rt title description)).length ≤
      (urgencyMatches rt (corpus rt title (description ++ space :: t))).length := by
    rw [urgencyMatches_length h, urgencyMatches_length h, corpus_append_term h _ _ _ ht]
    apply List.countP_mono_left
    intro k _ hk
    have hk' : k <:+: corpus rt title description := of_decide_eq_true hk
    exact decide_eq_true (hk'.trans (List.infix_append' [] _ _))
  have hpos : 1 ≤ (urgencyMatches rt (corpus rt title (description ++ space :: t))).length := by
    rw [urgencyMatches_length h, corpus_append_term h _ _ _ ht]
    apply List.countP_pos_iff.mpr
    refine ⟨t, ht, decide_eq_true ?_⟩
    exact ⟨corpus rt title description ++ [space], [], by simp⟩
  refine ⟨hle, hpos, ?_⟩
  intro s hs
  rw [analyzePriority_eq, hs]
  have hfloor := priorityLevel_floor
    (urgencyMatches rt (corpus rt title (description ++ space :: t))).length s
    (splitWhitespace (corpus rt title (description ++ space :: t))).length
    (corpus rt title (description ++ space :: t)).length
  refine ⟨_, rfl, hfloor, ?_, ?_⟩
  · exact le_trans (by omega) hfloor
  · exact le_trans (by simp only [Priority.rank]; omega) hfloor

theorem urgency_addition_keeps_matches_and_floor_witness :
    plainRuntime.Ecma ∧ js "now" ∈ urgencyKeywords ∧
      ((urgencyMatches plainRuntime (corpus plainRuntime [] quietReport)).length ≤
          (urgencyMatches plainRuntime
            (corpus plainRuntime [] (quietReport ++ space :: js "now"))).length ∧
        1 ≤ (urgencyMatches plainRuntime
          (corpus plainRuntime [] (quietReport ++ space :: js "now"))).length ∧
        ∀ s, plainRuntime.sentimentScore
            (corpus plainRuntime [] (quietReport ++ space :: js "now")) = some s →
          ∃ p, analyzePriority plainRuntime [] (quietReport ++ space :: js "now") = some p ∧
            min 3 (urgencyMatches plainRuntime
              (corpus plainRuntime [] (quietReport ++ space :: js "now"))).length ≤ p.rank ∧
            min 3 (urgencyMatches plainRuntime (corpus plainRuntime [] quietReport)).length ≤
              p.rank ∧
            Priority.medium.rank ≤ p.rank) :=
  ⟨plainRuntime_ecma, now_mem_urgencyKeywords,
    urgency_addition_keeps_matches_and_floor plainRuntime plainRuntime_ecma [] quietReport
      (js "now") now_mem_urgencyKeywords⟩

/-! ### Department -/

theorem mapM_some {α β : Type} (f : α → Option β) (g : α → β) (l : List α)
    (h : ∀ x, f x = some (g x)) : l.mapM f = some (l.map g) := by
  induction l with
  | nil => rfl
  | cons a l ih => rw [List.mapM_cons, h, ih]; rfl

theorem foldlM_some {α β : Type} (f : β → α → Option β) (g : β → α → β) (l : List α)
    (h : ∀ b, ∀ x ∈ l, f b x = some (g b x)) (b : β) :
    l.foldlM f b = some (l.foldl g b) := by
  induction l generalizing b with
  | nil => rfl
  | cons a l ih =>
    rw [List.foldlM_cons, h b a (List.mem_cons_self _ _)]
    exact ih (fun b x hx => h b x (List.mem_cons_of_mem _ hx)) _

theorem find?_append_cons {α : Type} (p : α → Bool) (l1 : List α) (x : α) (l2 : List α)
    (h1 : ∀ y ∈ l1, p y = false) (hx : p x = true) : (l1 ++ x :: l2).find? p = some x := by
  induction l1 with
  | nil => simp [hx]
  | cons a l ih =>
    rw [List.cons_append, List.find?_cons_of_neg _ (by simp [h1 a (List.mem_cons_self _ _)])]
    exact ih (fun y hy => h1 y (List.mem_cons_of_mem _ hy))

theorem stemmedText_eq {rt : Runtime} {st : JSString → JSString}
    (hst : ∀ w, rt.stem w = some (st w)) (text : JSString) :
    stemmedText rt text = some (specStemmedCorpus st text) := by
  simp only [stemmedText]
  rw [mapM_some rt.stem st _ hst]
  rfl

theorem keywordStep_eq {rt : Runtime} (h : rt.Ecma) {st : JSString → JSString}
    (hst : ∀ w, rt.stem w = some (st w)) (text : JSString) (d : Department) (score : Nat)
    (k : JSString) (hk : k ∈ departmentKeywords d) :
    keywordStep rt text score k =
      some (score + ((if k <:+: text then 2 else 0) +
        (if st k <:+: specStemmedCorpus st text then 1 else 0))) := by
  simp only [keywordStep, h.toLowerCase_department hk, hst, stemmedText_eq hst,
    includes_eq_decide]
  by_cases h1 : k <:+: text <;> by_cases h2 : st k <:+: specStemmedCorpus st text <;>
    simp [h1, h2]

theorem foldl_add_eq (p q : JSString → Prop) [DecidablePred p] [DecidablePred q]
    (l : List JSString) (init : Nat) :
    l.foldl (fun score k => score + ((if p k then 2 else 0) + (if q k then 1 else 0))) init =
      init + (2 * l.countP (fun k => decide (p k)) + 1 * l.countP (fun k => decide (q k))) := by
  induction l generalizing init with
  | nil => simp
  | cons a l ih =>
    rw [List.foldl_cons, ih]
    by_cases h1 : p a <;> by_cases h2 : q a <;> simp [h1, h2] <;> omega

theorem departmentScore_eq {rt : Runtime} (h : rt.Ecma) {st : JSString → JSString}
    (hst : ∀ w, rt.stem w = some (st w)) (text : JSString) (d : Department) :
    departmentScore rt text d = some (specDepartmentScore st text d) := by
  unfold departmentScore
  rw [foldlM_some _ _ _ (fun b x hx => keywordStep_eq h hst text d b x hx), foldl_add_eq]
  simp [specDepartmentScore]

theorem departmentStep_eq {rt : Runtime} (h : rt.Ecma) {st : JSString → JSString}
    (hst : ∀ w, rt.stem w = some (st w)) (text : JSString) (best : Department × Nat)
    (d : Department) :
    departmentStep rt text best d = some (pickBest (specDepartmentScore st text) best d) := by
  simp [departmentStep, departmentScore_eq h hst, pickBest]

theorem classifyDepartment_eq {rt : Runtime} (h : rt.Ecma) {st : JSString → JSString}
    (hst : ∀ w, rt.stem w = some (st w)) (title description : JSString) :
    classifyDepartment rt title description =
      some (allDepartments.foldl
        (pickBest (specDepartmentScore st (corpus rt title description)))
        (Department.publicWorks, 0)).1 := by
  simp only [classifyDepartment]
  rw [foldlM_some (departmentStep rt (corpus rt title description))
    (pickBest (specDepartmentScore st (corpus rt title description)))]
  · rfl
  · intro b x _
    exact departmentStep_eq h hst _ b x

/-- The loop of `classifyDepartment` from the state `acc`: the maximum does not decrease,
it bounds every score of the list, and the state is either unchanged or the first element
of the list whose score is above `acc` and above all earlier ones. -/
theorem foldl_pickBest (f : Department → Nat) (l : List Department) (acc : Department × Nat) :
    acc.2 ≤ (l.foldl (pickBest f) acc).2 ∧
    (∀ x ∈ l, f x ≤ (l.foldl (pickBest f) acc).2) ∧
    (l.foldl (pickBest f) acc = acc ∨
      ∃ l1 x l2, l = l1 ++ x :: l2 ∧ l.foldl (pickBest f) acc = (x, f x) ∧ acc.2 < f x ∧
        ∀ y ∈ l1, f y < f x) := by
  induction l generalizing acc with
  | nil => simp
  | cons a l ih =>
    rw [List.foldl_cons]
    obtain ⟨h1, h2, h3⟩ := ih (pickBest f acc a)
    by_cases ha : f a > acc.2
    · have hp : pickBest f acc a = (a, f a) := by simp [pickBest, ha]
      rw [hp] at h1 h2 h3 ⊢
      refine ⟨by simp at h1; omega, ?_, ?_⟩
      · intro x hx
        rcases List.mem_cons.mp hx with rfl | hx
        · exact h1
        · exact h2 x hx
      · right
        rcases h3 with h3 | ⟨l1, x, l2, rfl, hr, hlt, hl1⟩
        · exact ⟨[], a, l, rfl, h3, ha, by simp⟩
        · refine ⟨a :: l1, x, l2, rfl, hr, by simp at hlt; omega, ?_⟩
          intro y hy
          rcases List.mem_cons.mp hy with rfl | hy
          · exact hlt
          · exact hl1 y hy
    · have hp : pickBest f acc a = acc := by simp [pickBest, ha]
      rw [hp] at h1 h2 h3 ⊢
      refine ⟨h1, ?_, ?_⟩
      · intro x hx
        rcases List.mem_cons.mp hx with rfl | hx
        · omega
        · exact h2 x hx
      · rcases h3 with h3 | ⟨l1, x, l2, rfl, hr, hlt, hl1⟩
        · exact Or.inl h3
        · right
          refine ⟨a :: l1, x, l2, rfl, hr, hlt, ?_⟩
          intro y hy
          rcases List.mem_cons.mp hy with rfl | hy
          · omega
          · exact hl1 y hy

/-- C3. For every title and description (and a stemmer that returns `st w` on every word
`w`), `classifyDepartment` returns a department whose weighted score
`(2 * exact matches + 1 * stemmed matches) * importance` is maximal among the six
departments, and it returns Public Works when every score is 0. -/
theorem classifyDepartment_maximal (rt : Runtime) (h : rt.Ecma) (st : JSString → JSString)
    (hst : ∀ w, rt.stem w = some (st w)) (title description : JSString) :
    ∃ d, classifyDepartment rt title description = some d ∧
      (∀ d', specDepartmentScore st (corpus rt title description) d' ≤
        specDepartmentScore st (corpus rt title description) d) ∧
      ((∀ d', specDepartmentScore st (corpus rt title description) d' = 0) →
        d = Department.publicWorks) := by
  refine ⟨_, classifyDepartment_eq h hst title description, ?_, ?_⟩
  · intro d'
    obtain ⟨_, h2, h3⟩ := foldl_pickBest
      (specDepartmentScore st (corpus rt title description)) allDepartments
      (Department.publicWorks, 0)
    have hd := h2 d' (mem_allDepartments d')
    rcases h3 with h3 | ⟨l1, x, l2, _, hr, _, _⟩
    · rw [h3] at hd ⊢
      simp only [Nat.le_zero_eq] at hd
      rw [hd]
      exact Nat.zero_le _
    · rw [hr] at hd ⊢
      exact hd
  · intro hz
    obtain ⟨_, _, h3⟩ := foldl_pickBest
      (specDepartmentScore st (corpus rt title description)) allDepartments
      (Department.publicWorks, 0)
    rcases h3 with h3 | ⟨l1, x, l2, _, _, hlt, _⟩
    · rw [h3]
    · rw [hz x] at hlt
      exact absurd hlt (Nat.lt_irrefl _)

theorem classifyDepartment_maximal_witness :
    plainRuntime.Ecma ∧ (∀ w, plainRuntime.stem w = some (id w)) ∧
      ∃ d, classifyDepartment plainRuntime [] sharedTermsReport = some d ∧
        (∀ d', specDepartmentScore id (corpus plainRuntime [] sharedTermsReport) d' ≤
          specDepartmentScore id (corpus plainRuntime [] sharedTermsReport) d) ∧
        ((∀ d', specDepartmentScore id (corpus plainRuntime [] sharedTermsReport) d' = 0) →
          d = Department.publicWorks) :=
  ⟨plainRuntime_ecma, plainRuntime_stem,
    classifyDepartment_maximal plainRuntime plainRuntime_ecma id plainRuntime_stem []
      sharedTermsReport⟩

/-- C4. For every title and description (and a stemmer that returns `st w` on every word
`w`), `classifyDepartment` returns the first department, in the enumeration order Public
Works, Police Department, Parks Department, Code Enforcement, Sanitation, Fire Department,
whose weighted score is the greatest; each step of the loop replaces the current best only
by a department whose score is strictly greater. -/
theorem classifyDepartment_first_in_order (rt : Runtime) (h : rt.Ecma)
    (st : JSString → JSString) (hst : ∀ w, rt.stem w = some (st w))
    (title description : JSString) :
    classifyDepartment rt title description =
        allDepartments.find? (fun d => decide (∀ d' ∈ allDepartments,
          specDepartmentScore st (corpus rt title description) d' ≤
            specDepartmentScore st (corpus rt title description) d)) ∧
      (∀ (best : Department × Nat) (d : Department),
        departmentStep rt (corpus rt title description) best d =
          some (if specDepartmentScore st (corpus rt title description) d > best.2
            then (d, specDepartmentScore st (corpus rt title description) d) else best)) ∧
      allDepartments.map Department.name =
        ["Public Works", "Police Department", "Parks Department", "Code Enforcement",
         "Sanitation", "Fire Department"] := by
  refine ⟨?_, ?_, rfl⟩
  · rw [classifyDepartment_eq h hst]
    obtain ⟨_, h2, h3⟩ := foldl_pickBest
      (specDepartmentScore st (corpus rt title description)) allDepartments
      (Department.publicWorks, 0)
    rcases h3 with h3 | ⟨l1, x, l2, hl, hr, _, hl1⟩
    · rw [h3] at h2 ⊢
      have hp : ∀ d' ∈ allDepartments,
          specDepartmentScore st (corpus rt title description) d' ≤
            specDepartmentScore st (corpus rt title description) Department.publicWorks := by
        intro d' hd'
        have := h2 d' hd'
        simp only [Nat.le_zero_eq] at this
        rw [this]
        exact Nat.zero_le _
      rw [allDepartments, List.find?_cons_of_pos]
      simpa [allDepartments] using hp
    · rw [hr] at h2 ⊢
      have hx : ∀ d' ∈ allDepartments,
          specDepartmentScore st (corpus rt title description) d' ≤
            specDepartmentScore st (corpus rt title description) x := h2
      have key := find?_append_cons (fun d => decide (∀ d' ∈ allDepartments,
          specDepartmentScore st (corpus rt title description) d' ≤
            specDepartmentScore st (corpus rt title description) d)) l1 x l2
        (fun y hy => decide_eq_false (fun hmax => by
          have h1 := hmax x (mem_allDepartments x)
          have h2 := hl1 y hy
          omega))
        (decide_eq_true hx)
      rw [← hl] at key
      rw [key]
  · intro best d
    rw [departmentStep_eq h hst]
    rfl

set_option maxRecDepth 100000 in
theorem tiedReport_scores :
    allDepartments.map (specDepartmentScore id (corpus plainRuntime [] tiedReport)) =
        [0, 12, 0, 0, 0, 12] ∧
      classifyDepartment plainRuntime [] tiedReport = some Department.policeDepartment := by
  decide

theorem classifyDepartment_first_in_order_witness :
    plainRuntime.Ecma ∧ (∀ w, plainRuntime.stem w = some (id w)) ∧
      (classifyDepartment plainRuntime [] tiedReport =
          allDepartments.find? (fun d => decide (∀ d' ∈ allDepartments,
            specDepartmentScore id (corpus plainRuntime [] tiedReport) d' ≤
              specDepartmentScore id (corpus plainRuntime [] tiedReport) d)) ∧
        (∀ (best : Department × Nat) (d : Department),
          departmentStep plainRuntime (corpus plainRuntime [] tiedReport) best d =
            some (if specDepartmentScore id (corpus plainRuntime [] tiedReport) d > best.2
              then (d, specDepartmentScore id (corpus plainRuntime [] tiedReport) d)
              else best)) ∧
        allDepartments.map Department.name =
          ["Public Works", "Police Department", "Parks Department", "Code Enforcement",
           "Sanitation", "Fire Department"]) ∧
      allDepartments.map (specDepartmentScore id (corpus plainRuntime [] tiedReport)) =
        [0, 12, 0, 0, 0, 12] ∧
      classifyDepartment plainRuntime [] tiedReport = some Department.policeDepartment :=
  ⟨plainRuntime_ecma, plainRuntime_stem,
    classifyDepartment_first_in_order plainRuntime plainRuntime_ecma id plainRuntime_stem []
      tiedReport,
    tiedReport_scores⟩

/-! ### Sentiment -/

theorem sentimentLabel_eq_spec (s : Int) : sentimentLabel s = specSentiment s := by
  unfold sentimentLabel specSentiment
  split_ifs <;> first | rfl | omega

/-- C5. For every title and description, `analyzeSentiment` returns (as soon as the
sentiment analysis of the text returns a score) Positive if the score is > 1, Negative if
it is < -1 and Neutral otherwise, that is exactly when -1 <= score <= 1; the four tests of
the code agree with this two-threshold rule on every score. -/
theorem analyzeSentiment_two_thresholds (rt : Runtime) (title description : JSString) :
    analyzeSentiment rt title description =
        (rt.sentimentScore (title ++ space :: description)).map specSentiment ∧
      (∀ score : Int, sentimentLabel score = specSentiment score) ∧
      (∀ score : Int, specSentiment score = Sentiment.positive ↔ score > 1) ∧
      (∀ score : Int, specSentiment score = Sentiment.negative ↔ score < -1) ∧
      (∀ score : Int, specSentiment score = Sentiment.neutral ↔ -1 ≤ score ∧ score ≤ 1) := by
  refine ⟨?_, sentimentLabel_eq_spec, ?_, ?_, ?_⟩
  · simp only [analyzeSentiment, sentimentLabel_eq_spec]
    cases rt.sentimentScore (title ++ space :: description) <;> rfl
  · intro s; unfold specSentiment; split_ifs <;> simp <;> omega
  · intro s; unfold specSentiment; split_ifs <;> simp <;> omega
  · intro s; unfold specSentiment; split_ifs <;> simp <;> omega

/-! ### Urgency keywords and tags -/

/-- C6. For every title and description, `extractUrgencyKeywords` returns the first 10
elements of the urgency vocabulary filtered, in vocabulary order, to the terms that are
substrings of the lower-cased corpus. -/
theorem extractUrgencyKeywords_filter_take (rt : Runtime) (h : rt.Ecma)
    (title description : JSString) :
    extractUrgencyKeywords rt title description =
      (urgencyKeywords.filter
        (fun t => decide (t <:+: corpus rt title description))).take 10 := by
  unfold extractUrgencyKeywords
  simp only []
  congr 1
  exact urgencyMatches_eq h _

set_option maxRecDepth 100000 in
theorem outOfOrderReport_keywords :
    extractUrgencyKeywords plainRuntime [] outOfOrderReport = [js "urgent", js "fire"] := by
  decide

theorem extractUrgencyKeywords_filter_take_witness :
    plainRuntime.Ecma ∧
      extractUrgencyKeywords plainRuntime [] outOfOrderReport =
        (urgencyKeywords.filter
          (fun t => decide (t <:+: corpus plainRuntime [] outOfOrderReport))).take 10 ∧
      extractUrgencyKeywords plainRuntime [] outOfOrderReport = [js "urgent", js "fire"] :=
  ⟨plainRuntime_ecma,
    extractUrgencyKeywords_filter_take plainRuntime plainRuntime_ecma [] outOfOrderReport,
    outOfOrderReport_keywords⟩

theorem mem_keepFirst (l : List JSString) (x : JSString) : x ∈ keepFirst l ↔ x ∈ l := by
  induction l with
  | nil => simp [keepFirst]
  | cons a l ih =>
    by_cases hxa : x = a
    · simp [keepFirst, hxa]
    · simp [keepFirst, hxa, ih]

theorem nodup_keepFirst (l : List JSString) : (keepFirst l).Nodup := by
  induction l with
  | nil => simp [keepFirst]
  | cons a l ih =>
    rw [keepFirst, List.nodup_cons]
    exact ⟨by simp, ih.filter _⟩

theorem foldl_cond_setAdd (p : JSString → Bool) (l : List JSString) (init : List JSString) :
    l.foldl (fun tags keyword => if p keyword then setAdd tags keyword else tags) init =
      (l.filter p).foldl setAdd init := by
  induction l generalizing init with
  | nil => rfl
  | cons a l ih =>
    by_cases ha : p a
    · simp [List.filter, ha, ih]
    · simp [List.filter, ha, ih]

theorem foldl_setAdd (l acc : List JSString) :
    l.foldl setAdd acc = acc ++ (keepFirst l).filter (fun y => decide (y ∉ acc)) := by
  induction l generalizing acc with
  | nil => simp [keepFirst]
  | cons a l ih =>
    rw [List.foldl_cons, ih, keepFirst]
    by_cases ha : a ∈ acc
    · simp only [setAdd, ha, if_true, List.filter_cons, not_true_eq_false, decide_False,
        Bool.false_eq_true, if_false, List.filter_filter]
      congr 1
      apply List.filter_congr
      intro y _
      by_cases hy : y ∈ acc
      · simp [hy]
      · have : y ≠ a := fun e => hy (e ▸ ha)
        simp [hy, this]
    · simp only [setAdd, ha, if_false, List.filter_cons, not_false_eq_true, decide_True,
        if_true, List.filter_filter, List.append_assoc, List.singleton_append]
      congr 2
      apply List.filter_congr
      intro y _
      by_cases hy : y ∈ acc
      · simp [hy]
      · by_cases hya : y = a <;> simp [hy, hya]

theorem extractTags_eq {rt : Runtime} (h : rt.Ecma) (title description : JSString) :
    extractTags rt title description =
      (keepFirst (tagCandidates.filter
        (fun t => decide (t <:+: corpus rt title description)))).take 12 := by
  unfold extractTags
  simp only [foldl_cond_setAdd]
  rw [← List.foldl_append, ← List.foldl_append, foldl_setAdd]
  simp only [List.not_mem_nil, not_false_eq_true, decide_True, List.filter_true,
    List.nil_append]
  congr 2
  unfold tagCandidates
  rw [List.append_assoc, List.filter_append, List.filter_append]
  congr 1
  · apply List.filter_congr
    intro k hk
    obtain ⟨ks, hks, hk⟩ := List.mem_flatten.mp hk
    obtain ⟨d, _, rfl⟩ := List.mem_map.mp hks
    rw [h.toLowerCase_department hk, includes_eq_decide]
  · congr 1
    · apply List.filter_congr
      intro k hk
      rw [h.toLowerCase_urgency hk, includes_eq_decide]
    · apply List.filter_congr
      intro k _
      rw [includes_eq_decide]

/-- C7. For every title and description, `extractTags` returns the first 12 elements of
the duplicate-free list of the terms present in the lower-cased corpus, taken in the order
department terms (departments in enumeration order), urgency terms, location terms, with
only the first occurrence of a term kept; the result never holds the same tag twice. -/
theorem extractTags_dedup_first_twelve (rt : Runtime) (h : rt.Ecma)
    (title description : JSString) :
    extractTags rt title description =
        (keepFirst (tagCandidates.filter
          (fun t => decide (t <:+: corpus rt title description)))).take 12 ∧
      (extractTags rt title description).Nodup := by
  refine ⟨extractTags_eq h title description, ?_⟩
  rw [extractTags_eq h]
  exact (nodup_keepFirst _).sublist (List.take_sublist _ _)

set_option maxRecDepth 100000 in
theorem sharedTermsReport_tags :
    extractTags plainRuntime [] sharedTermsReport =
      [js "construction", js "bridge", js "fire", js "hazard", js "explosion"] := by
  decide

theorem extractTags_dedup_first_twelve_witness :
    plainRuntime.Ecma ∧
      (extractTags plainRuntime [] sharedTermsReport =
          (keepFirst (tagCandidates.filter
            (fun t => decide (t <:+: corpus plainRuntime [] sharedTermsReport)))).take 12 ∧
        (extractTags plainRuntime [] sharedTermsReport).Nodup) ∧
      extractTags plainRuntime [] sharedTermsReport =
        [js "construction", js "bridge", js "fire", js "hazard", js "explosion"] :=
  ⟨plainRuntime_ecma,
    extractTags_dedup_first_twelve plainRuntime plainRuntime_ecma [] sharedTermsReport,
    sharedTermsReport_tags⟩

/-! ### Confidence and the assembled result -/

theorem analyzeComplaintTry_some {rt : Runtime} {title description : JSString} {r : Analysis}
    (h : analyzeComplaintTry rt title description = some r) :
    ∃ p s d sc, analyzePriority rt title description = some p ∧
      analyzeSentiment rt title description = some s ∧
      classifyDepartment rt title description = some d ∧
      rt.sentimentScore (corpus rt title description) = some sc ∧
      r = { priority := p
            sentiment := s
            department := d
            urgencyKeywords := extractUrgencyKeywords rt title description
            tags := extractTags rt title description
            confidence := calculateConfidence rt (corpus rt title description)
              (extractUrgencyKeywords rt title description) d
            analysis := .stats (corpus rt title description).length
              (splitOn space (corpus rt title description)).length
              (extractUrgencyKeywords rt title description).length sc } := by
  simp only [analyzeComplaintTry, Option.bind_eq_bind, Option.pure_def, Option.bind_eq_some,
    Option.some.injEq] at h
  obtain ⟨p, hp, s, hs, d, hd, sc, hsc, rfl⟩ := h
  exact ⟨p, s, d, sc, hp, hs, hd, hsc, rfl⟩

theorem analyzeComplaintTry_of_some {rt : Runtime} {title description : JSString}
    {p : Priority} {s : Sentiment} {d : Department} {sc : Int}
    (hp : analyzePriority rt title description = some p)
    (hs : analyzeSentiment rt title description = some s)
    (hd : classifyDepartment rt title description = some d)
    (hsc : rt.sentimentScore (corpus rt title description) = some sc) :
    analyzeComplaintTry rt title description = some
      { priority := p
        sentiment := s
        department := d
        urgencyKeywords := extractUrgencyKeywords rt title description
        tags := extractTags rt title description
        confidence := calculateConfidence rt (corpus rt title description)
          (extractUrgencyKeywords rt title description) d
        analysis := .stats (corpus rt title description).length
          (splitOn space (corpus rt title description)).length
          (extractUrgencyKeywords rt title description).length sc } := by
  simp only [analyzeComplaintTry, hp, hs, hd, hsc, Option.bind_eq_bind, Option.pure_def,
    Option.some_bind]

theorem calculateConfidence_eq {rt : Runtime} (h : rt.Ecma) (text : JSString)
    (urgency : List JSString) (d : Department) :
    calculateConfidence rt text urgency d =
      specConfidence ((departmentKeywords d).countP (fun t => decide (t <:+: text)))
        urgency.length text.length := by
  have hf : (departmentKeywords d).filter
      (fun keyword => includes text (rt.toLowerCase keyword)) =
        (departmentKeywords d).filter (fun t => decide (t <:+: text)) := by
    apply List.filter_congr
    intro k hk
    rw [h.toLowerCase_department hk, includes_eq_decide]
  simp only [calculateConfidence, specConfidence, hf, List.countP_eq_length_filter]
  rw [min_comm]

theorem calculateConfidence_bounds (rt : Runtime) (text : JSString) (urgency : List JSString)
    (d : Department) :
    0 ≤ calculateConfidence rt text urgency d ∧ calculateConfidence rt text urgency d ≤ 1 := by
  simp only [calculateConfidence]
  refine ⟨le_min ?_ (by norm_num), min_le_right _ _⟩
  have h1 : ∀ (x : ℚ), 0 ≤ x → 0 ≤ min x 1 := fun x hx => le_min hx (by norm_num)
  have a := h1 _ (div_nonneg (Nat.cast_nonneg
    ((departmentKeywords d).filter
      (fun keyword => includes text (rt.toLowerCase keyword))).length)
    (by norm_num : (0 : ℚ) ≤ 3))
  have b := h1 _ (div_nonneg (Nat.cast_nonneg urgency.length) (by norm_num : (0 : ℚ) ≤ 2))
  have c := h1 _ (div_nonneg (Nat.cast_nonneg text.length) (by norm_num : (0 : ℚ) ≤ 200))
  positivity

/-- The two outcomes of `analyzeComplaint`: the result of the `catch` branch, or a record
whose confidence, urgency keywords and tags are those of the steps. -/
theorem analyzeComplaint_cases (rt : Runtime) (title description : JSString) :
    analyzeComplaint rt title description = fallbackAnalysis ∨
    ∃ d, (analyzeComplaint rt title description).confidence =
        calculateConfidence rt (corpus rt title description)
          (extractUrgencyKeywords rt title description) d ∧
      (analyzeComplaint rt title description).urgencyKeywords =
        extractUrgencyKeywords rt title description ∧
      (analyzeComplaint rt title description).tags = extractTags rt title description := by
  unfold analyzeComplaint
  cases hr : analyzeComplaintTry rt title description with
  | none => exact Or.inl rfl
  | some r =>
    obtain ⟨p, s, d, sc, _, _, _, _, rfl⟩ := analyzeComplaintTry_some hr
    exact Or.inr ⟨d, rfl, rfl, rfl⟩

/-- C9. For every title and description, on the normal path and on the path of the `catch`
branch, the confidence of the result of `analyzeComplaint` is between 0 and 1. -/
theorem analyzeComplaint_confidence_bounds (rt : Runtime) (title description : JSString) :
    0 ≤ (analyzeComplaint rt title description).confidence ∧
      (analyzeComplaint rt title description).confidence ≤ 1 ∧
      0 ≤ fallbackAnalysis.confidence ∧ fallbackAnalysis.confidence ≤ 1 := by
  have hf : 0 ≤ fallbackAnalysis.confidence ∧ fallbackAnalysis.confidence ≤ 1 := by
    norm_num [fallbackAnalysis]
  rcases analyzeComplaint_cases rt title description with h | ⟨d, h, _, _⟩
  · rw [h]; exact ⟨hf.1, hf.2, hf⟩
  · rw [h]
    exact ⟨(calculateConfidence_bounds _ _ _ _).1, (calculateConfidence_bounds _ _ _ _).2, hf⟩

/-- C10. For every title and description, the result of `analyzeComplaint` has at most 10
urgency keywords and at most 12 tags. -/
theorem analyzeComplaint_keyword_cap (rt : Runtime) (title description : JSString) :
    (analyzeComplaint rt title description).urgencyKeywords.length ≤ 10 ∧
      (analyzeComplaint rt title description).tags.length ≤ 12 := by
  rcases analyzeComplaint_cases rt title description with h | ⟨d, _, hu, ht⟩
  · rw [h]; simp [fallbackAnalysis]
  · rw [hu, ht]
    exact ⟨by simp [extractUrgencyKeywords, List.length_take],
      by simp [extractTags, List.length_take]⟩

/-! ### Shared lemmas for the empty input and the scenarios -/

theorem filter_infix_eq (l : List JSString) (text : JSString) :
    l.filter (fun t => decide (t <:+: text)) = l.filter (fun t => includes text t) := by
  apply List.filter_congr
  intro k _
  rw [includes_eq_decide]

theorem countP_infix_eq (l : List JSString) (text : JSString) :
    l.countP (fun t => decide (t <:+: text)) = l.countP (fun t => includes text t) := by
  rw [List.countP_eq_length_filter, List.countP_eq_length_filter, filter_infix_eq]

theorem corpus_empty {rt : Runtime} (h : rt.Ecma) : corpus rt [] [] = [space] := by
  unfold corpus
  rw [h.toLowerCase_ascii _ (by decide)]
  rfl

set_option maxRecDepth 100000 in
theorem blank_no_urgency : urgencyKeywords.filter (fun t => includes [space] t) = [] := by
  decide

set_option maxRecDepth 100000 in
theorem blank_no_tags : tagCandidates.filter (fun t => includes [space] t) = [] := by
  decide

set_option maxRecDepth 100000 in
theorem blank_no_terms (d : Department) :
    (departmentKeywords d).countP (fun t => includes [space] t) = 0 := by
  cases d <;> decide

theorem pickBest_publicWorks (f : Department → Nat)
    (hle : ∀ d, f d ≤ f Department.publicWorks) :
    (allDepartments.foldl (pickBest f) (Department.publicWorks, 0)).1 =
      Department.publicWorks := by
  obtain ⟨_, h2, h3⟩ := foldl_pickBest f allDepartments (Department.publicWorks, 0)
  rcases h3 with h3 | ⟨l1, x, l2, hl, hr, hlt, hl1⟩
  · rw [h3]
  · rw [hr]
    by_cases hx : x = Department.publicWorks
    · exact hx
    · exfalso
      cases l1 with
      | nil =>
        simp only [allDepartments, List.nil_append, List.cons.injEq] at hl
        exact hx hl.1.symm
      | cons a l1 =>
        simp only [allDepartments, List.cons_append, List.cons.injEq] at hl
        have := hl1 a (List.mem_cons_self _ _)
        rw [← hl.1] at this
        have := hle x
        omega

theorem pickBest_strict (f : Department → Nat) (d : Department)
    (hlt : ∀ d', d' ≠ d → f d' < f d) :
    (allDepartments.foldl (pickBest f) (Department.publicWorks, 0)).1 = d := by
  obtain ⟨_, h2, h3⟩ := foldl_pickBest f allDepartments (Department.publicWorks, 0)
  rcases h3 with h3 | ⟨l1, x, l2, hl, hr, _, _⟩
  · rw [h3] at h2 ⊢
    by_contra hne
    have h1 := hlt Department.publicWorks hne
    have h2' := h2 d (mem_allDepartments d)
    simp only at h2'
    omega
  · rw [hr] at h2 ⊢
    by_contra hne
    have h1 := hlt x hne
    have h2' := h2 d (mem_allDepartments d)
    simp only at h2'
    omega

theorem specDepartmentScore_eq (st : JSString → JSString) (text : JSString) (d : Department) :
    specDepartmentScore st text d =
      (2 * (departmentKeywords d).countP (fun t => includes text t) +
        stemMatchCount st text d) * importanceOf d := by
  rw [specDepartmentScore, countP_infix_eq, stemMatchCount, Nat.one_mul]

theorem urgencyMatches_blank {rt : Runtime} (h : rt.Ecma) : urgencyMatches rt [space] = [] := by
  rw [urgencyMatches_eq h, filter_infix_eq, blank_no_urgency]

theorem analyzePriority_empty {rt : Runtime} (h : rt.Ecma) {s : Int}
    (hsent : rt.sentimentScore [space] = some s) :
    analyzePriority rt [] [] = some (priorityLevel (priorityScoreOf 0 s 2 1) 0) := by
  rw [analyzePriority_eq, corpus_empty h, hsent, urgencyMatches_blank h]
  rfl

theorem analyzeSentiment_empty {rt : Runtime} {s : Int}
    (hsent : rt.sentimentScore [space] = some s) :
    analyzeSentiment rt [] [] = some (sentimentLabel s) := by
  simp only [analyzeSentiment, List.nil_append, hsent]
  rfl

theorem extractUrgencyKeywords_eq_take (rt : Runtime) (title description : JSString) :
    extractUrgencyKeywords rt title description =
      (urgencyMatches rt (corpus rt title description)).take 10 := rfl

theorem extractUrgencyKeywords_empty {rt : Runtime} (h : rt.Ecma) :
    extractUrgencyKeywords rt [] [] = [] := by
  rw [extractUrgencyKeywords_eq_take, corpus_empty h, urgencyMatches_blank h]
  rfl

theorem extractTags_empty {rt : Runtime} (h : rt.Ecma) : extractTags rt [] [] = [] := by
  rw [extractTags_eq h, corpus_empty h, filter_infix_eq, blank_no_tags]
  rfl

theorem calculateConfidence_blank {rt : Runtime} (h : rt.Ecma) (d : Department) :
    calculateConfidence rt [space] [] d = 1001 / 2000 := by
  rw [calculateConfidence_eq h, countP_infix_eq, blank_no_terms]
  norm_num [specConfidence]

/-- The result of the `try` block on the empty input, as soon as the library calls return. -/
theorem analyzeComplaintTry_empty {rt : Runtime} (h : rt.Ecma) {st : JSString → JSString}
    (hst : ∀ w, rt.stem w = some (st w)) {s : Int}
    (hsent : rt.sentimentScore [space] = some s) :
    analyzeComplaintTry rt [] [] = some
      { priority := priorityLevel (priorityScoreOf 0 s 2 1) 0
        sentiment := sentimentLabel s
        department := (allDepartments.foldl (pickBest (specDepartmentScore st [space]))
          (Department.publicWorks, 0)).1
        urgencyKeywords := []
        tags := []
        confidence := 1001 / 2000
        analysis := .stats 1 2 0 s } := by
  have hd := classifyDepartment_eq h hst [] []
  rw [corpus_empty h] at hd
  have hsc : rt.sentimentScore (corpus rt [] []) = some s := by rw [corpus_empty h]; exact hsent
  rw [analyzeComplaintTry_of_some (analyzePriority_empty h hsent) (analyzeSentiment_empty hsent)
    hd hsc]
  simp only [extractUrgencyKeywords_empty h, extractTags_empty h, corpus_empty h,
    calculateConfidence_blank h]
  rfl

theorem analyzeComplaint_of_try {rt : Runtime} {title description : JSString} {r : Analysis}
    (h : analyzeComplaintTry rt title description = some r) :
    analyzeComplaint rt title description = r := by
  simp only [analyzeComplaint, h]

theorem analyzeComplaint_of_none {rt : Runtime} {title description : JSString}
    (h : analyzeComplaintTry rt title description = none) :
    analyzeComplaint rt title description = fallbackAnalysis := by
  simp only [analyzeComplaint, h]

theorem department_blank {st : JSString → JSString}
    (hother : ∀ d, d ≠ Department.publicWorks → stemMatchCount st [space] d = 0) :
    (allDepartments.foldl (pickBest (specDepartmentScore st [space]))
      (Department.publicWorks, 0)).1 = Department.publicWorks := by
  apply pickBest_publicWorks
  intro d
  by_cases hd : d = Department.publicWorks
  · rw [hd]
  · rw [specDepartmentScore_eq, blank_no_terms, hother d hd]
    simp

theorem plainRuntime_blank_stems :
    ∀ d, d ≠ Department.publicWorks → stemMatchCount id [space] d = 0 := by
  intro d _
  cases d <;> decide

/-! ### The empty input and the `catch` branch -/

/-- C11. On the empty title and the empty description the `try` block of `analyzeComplaint`
completes, and the result has priority Low, sentiment Neutral, department Public Works, no
urgency keywords and no tags.  The libraries are taken to behave on the one-space corpus
as they do: the sentiment score is 0, the stemmer returns, and no term of another
department has its stem in the stemmed corpus. -/
theorem analyzeComplaint_empty_input (rt : Runtime) (h : rt.Ecma) (st : JSString → JSString)
    (hst : ∀ w, rt.stem w = some (st w))
    (hsent : rt.sentimentScore [space] = some 0)
    (hother : ∀ d, d ≠ Department.publicWorks → stemMatchCount st [space] d = 0) :
    analyzeComplaintTry rt [] [] ≠ none ∧
      (analyzeComplaint rt [] []).priority = Priority.low ∧
      (analyzeComplaint rt [] []).sentiment = Sentiment.neutral ∧
      (analyzeComplaint rt [] []).department = Department.publicWorks ∧
      (analyzeComplaint rt [] []).urgencyKeywords = [] ∧
      (analyzeComplaint rt [] []).tags = [] := by
  have ht := analyzeComplaintTry_empty h hst hsent
  have hr := analyzeComplaint_of_try ht
  rw [hr, ht]
  refine ⟨by simp, ?_, ?_, department_blank hother, rfl, rfl⟩
  · norm_num [priorityLevel, priorityScoreOf, keywordDensity, priorityWeights]
  · rfl

theorem analyzeComplaint_empty_input_witness :
    plainRuntime.Ecma ∧ (∀ w, plainRuntime.stem w = some (id w)) ∧
      plainRuntime.sentimentScore [space] = some 0 ∧
      (∀ d, d ≠ Department.publicWorks → stemMatchCount id [space] d = 0) ∧
      (analyzeComplaintTry plainRuntime [] [] ≠ none ∧
        (analyzeComplaint plainRuntime [] []).priority = Priority.low ∧
        (analyzeComplaint plainRuntime [] []).sentiment = Sentiment.neutral ∧
        (analyzeComplaint plainRuntime [] []).department = Department.publicWorks ∧
        (analyzeComplaint plainRuntime [] []).urgencyKeywords = [] ∧
        (analyzeComplaint plainRuntime [] []).tags = []) :=
  ⟨plainRuntime_ecma, plainRuntime_stem, rfl, plainRuntime_blank_stems,
    analyzeComplaint_empty_input plainRuntime plainRuntime_ecma id plainRuntime_stem rfl
      plainRuntime_blank_stems⟩

theorem analyzeComplaint_empty_confidence {rt : Runtime} (h : rt.Ecma)
    {st : JSString → JSString} (hst : ∀ w, rt.stem w = some (st w)) {s : Int}
    (hsent : rt.sentimentScore [space] = some s) :
    (analyzeComplaint rt [] []).confidence = 1001 / 2000 := by
  rw [analyzeComplaint_of_try (analyzeComplaintTry_empty h hst hsent)]

/-- C12, as stated, fails.  On the empty title and the empty description the corpus is
the separator, one space, so `text.length` is 1 and the length term adds
`(1 / 200) * 0.1`: the confidence is 1001/2000 = 0.5005, not 0.5. -/
theorem empty_input_confidence_is_not_base :
    corpus plainRuntime [] [] = [space] ∧
      (analyzeComplaint plainRuntime [] []).confidence = 1001 / 2000 ∧
      (analyzeComplaint plainRuntime [] []).confidence ≠ 1 / 2 := by
  have hc : (analyzeComplaint plainRuntime [] []).confidence = 1001 / 2000 :=
    analyzeComplaint_empty_confidence plainRuntime_ecma plainRuntime_stem
      (rfl : plainRuntime.sentimentScore [space] = some 0)
  refine ⟨corpus_empty plainRuntime_ecma, hc, ?_⟩
  rw [hc]
  norm_num

/-- C12, amended.  On the empty title and the empty description, as soon as the library
calls return, the confidence of `analyzeComplaint` is 0.5 + min(1/200, 1) * 0.1 =
1001/2000 = 0.5005: the base value plus the length term of the one-space corpus. -/
theorem empty_input_confidence (rt : Runtime) (h : rt.Ecma) (st : JSString → JSString)
    (hst : ∀ w, rt.stem w = some (st w)) (s : Int)
    (hsent : rt.sentimentScore [space] = some s) :
    (analyzeComplaint rt [] []).confidence = 1001 / 2000 ∧
      (1001 / 2000 : ℚ) = 1 / 2 + min ((1 : ℚ) / 200) 1 * (1 / 10) ∧
      (corpus rt [] []).length = 1 := by
  refine ⟨analyzeComplaint_empty_confidence h hst hsent, by norm_num, ?_⟩
  rw [corpus_empty h]
  rfl

theorem empty_input_confidence_witness :
    plainRuntime.Ecma ∧ (∀ w, plainRuntime.stem w = some (id w)) ∧
      plainRuntime.sentimentScore [space] = some 0 ∧
      ((analyzeComplaint plainRuntime [] []).confidence = 1001 / 2000 ∧
        (1001 / 2000 : ℚ) = 1 / 2 + min ((1 : ℚ) / 200) 1 * (1 / 10) ∧
        (corpus plainRuntime [] []).length = 1) :=
  ⟨plainRuntime_ecma, plainRuntime_stem, rfl,
    empty_input_confidence plainRuntime plainRuntime_ecma id plainRuntime_stem 0 rfl⟩

theorem analyzeComplaintTry_none_of_step {rt : Runtime} {title description : JSString}
    (h : analyzePriority rt title description = none ∨
      analyzeSentiment rt title description = none ∨
      classifyDepartment rt title description = none ∨
      rt.sentimentScore (corpus rt title description) = none) :
    analyzeComplaintTry rt title description = none := by
  cases hr : analyzeComplaintTry rt title description with
  | none => rfl
  | some r =>
    obtain ⟨p, s, d, sc, hp, hs, hd, hsc, _⟩ := analyzeComplaintTry_some hr
    rcases h with h | h | h | h
    · rw [hp] at h; cases h
    · rw [hs] at h; cases h
    · rw [hd] at h; cases h
    · rw [hsc] at h; cases h

theorem failingRuntime_try (title description : JSString) :
    analyzeComplaintTry failingRuntime title description = none :=
  analyzeComplaintTry_none_of_step (Or.inr (Or.inr (Or.inr rfl)))

/-- C14, as stated, fails.  When the sentiment analysis throws, `analyzeComplaint` returns
the record of the `catch` branch, whose priority is Medium, not Low. -/
theorem fallback_priority_is_medium :
    analyzeComplaintTry failingRuntime [] [] = none ∧
      (analyzeComplaint failingRuntime [] []).priority = Priority.medium ∧
      (analyzeComplaint failingRuntime [] []).priority ≠ Priority.low := by
  have hr := analyzeComplaint_of_none (failingRuntime_try [] [])
  rw [hr]
  exact ⟨failingRuntime_try [] [], rfl, by decide⟩

/-- C14, amended.  When a step of the `try` block of `analyzeComplaint` throws, the result
is the record of the `catch` branch: priority Medium, sentiment Neutral, department Public
Works, no urgency keywords, no tags and confidence 0.5. -/
theorem fallback_result (rt : Runtime) (title description : JSString)
    (hfail : analyzeComplaintTry rt title description = none) :
    (analyzeComplaint rt title description).priority = Priority.medium ∧
      (analyzeComplaint rt title description).sentiment = Sentiment.neutral ∧
      (analyzeComplaint rt title description).department = Department.publicWorks ∧
      (analyzeComplaint rt title description).urgencyKeywords = [] ∧
      (analyzeComplaint rt title description).tags = [] ∧
      (analyzeComplaint rt title description).confidence = 1 / 2 := by
  rw [analyzeComplaint_of_none hfail]
  exact ⟨rfl, rfl, rfl, rfl, rfl, rfl⟩

theorem fallback_result_witness :
    analyzeComplaintTry failingRuntime scenario1Title scenario1Description = none ∧
      ((analyzeComplaint failingRuntime scenario1Title scenario1Description).priority =
          Priority.medium ∧
        (analyzeComplaint failingRuntime scenario1Title scenario1Description).sentiment =
          Sentiment.neutral ∧
        (analyzeComplaint failingRuntime scenario1Title scenario1Description).department =
          Department.publicWorks ∧
        (analyzeComplaint failingRuntime scenario1Title scenario1Description).urgencyKeywords =
          [] ∧
        (analyzeComplaint failingRuntime scenario1Title scenario1Description).tags = [] ∧
        (analyzeComplaint failingRuntime scenario1Title scenario1Description).confidence =
          1 / 2) :=
  ⟨failingRuntime_try _ _,
    fallback_result failingRuntime scenario1Title scenario1Description
      (failingRuntime_try _ _)⟩

/-! ### The corpus as the only input -/

theorem analyzeComplaint_congr_text (rt : Runtime) {t1 d1 t2 d2 : JSString}
    (heq : t1 ++ space :: d1 = t2 ++ space :: d2) :
    analyzeComplaint rt t1 d1 = analyzeComplaint rt t2 d2 := by
  simp only [analyzeComplaint, analyzeComplaintTry, analyzePriority, priorityScore,
    analyzeSentiment, classifyDepartment, extractUrgencyKeywords, extractTags, corpus, heq]

set_option maxRecDepth 100000 in
theorem urgencyKeywords_split :
    urgencyKeywords = urgencyKeywords.take 8 ++ js "gas leak" :: urgencyKeywords.drop 9 := by
  decide

theorem mem_take_filter_of_split {l pre post : List JSString} {x : JSString} (p : JSString → Bool)
    (hl : l = pre ++ x :: post) (hx : p x = true) (n : Nat) (hn : pre.length < n) :
    x ∈ (l.filter p).take n := by
  rw [hl, List.filter_append, List.filter_cons_of_pos hx, List.take_append_eq_append_take]
  apply List.mem_append_right
  have hlen : (pre.filter p).length ≤ pre.length := List.length_filter_le _ _
  obtain ⟨k, hk⟩ : ∃ k, n - (pre.filter p).length = k + 1 := ⟨n - (pre.filter p).length - 1, by omega⟩
  rw [hk, List.take_succ_cons]
  exact List.mem_cons_self _ _

set_option maxRecDepth 100000 in
theorem gas_leak_split_matched {rt : Runtime} (h : rt.Ecma) (p q : JSString)
    (hp : ∀ c ∈ p, c < 128) (hq : ∀ c ∈ q, c < 128) :
    js "gas leak" ∈ extractUrgencyKeywords rt (p ++ js "gas") (js "leak" ++ q) := by
  have hascii : ∀ c ∈ (p ++ js "gas") ++ space :: (js "leak" ++ q), c < 128 := by
    intro c hc
    simp only [List.mem_append, List.mem_cons] at hc
    rcases hc with (hc | hc) | rfl | hc | hc
    · exact hp c hc
    · revert c; decide
    · decide
    · revert c; decide
    · exact hq c hc
  have hc : corpus rt (p ++ js "gas") (js "leak" ++ q) =
      p.map asciiLower ++ (js "gas leak" ++ q.map asciiLower) := by
    unfold corpus
    rw [h.toLowerCase_ascii _ hascii]
    simp only [List.map_append, List.map_cons, List.append_assoc]
    congr 1
  rw [extractUrgencyKeywords_eq_take, urgencyMatches_eq h, hc]
  exact mem_take_filter_of_split _ urgencyKeywords_split
    (decide_eq_true (List.infix_append' _ _ _)) 10 (by decide)

/-- C16. Two calls of `analyzeComplaint` whose titles and descriptions give the same
template text `title + " " + description` return the same record; and, the lower-casing of
ASCII text being the ASCII one, a title ending in `gas` and a description starting with
`leak` have `gas leak` among the extracted urgency keywords. -/
theorem corpus_is_the_only_input (rt : Runtime) :
    (∀ t1 d1 t2 d2 : JSString, t1 ++ space :: d1 = t2 ++ space :: d2 →
      analyzeComplaint rt t1 d1 = analyzeComplaint rt t2 d2) ∧
    (rt.Ecma → ∀ p q : JSString, (∀ c ∈ p, c < 128) → (∀ c ∈ q, c < 128) →
      js "gas leak" ∈ extractUrgencyKeywords rt (p ++ js "gas") (js "leak" ++ q)) :=
  ⟨fun _ _ _ _ heq => analyzeComplaint_congr_text rt heq,
    fun h p q hp hq => gas_leak_split_matched h p q hp hq⟩

/-! ### Case of the input letters -/

theorem asciiLower_lt {c : Nat} (hc : c < 128) : asciiLower c < 128 := by
  unfold asciiLower
  split_ifs <;> omega

theorem asciiLower_idem (c : Nat) : asciiLower (asciiLower c) = asciiLower c := by
  unfold asciiLower
  split_ifs <;> omega

theorem corpus_ascii {rt : Runtime} (h : rt.Ecma) {title description : JSString}
    (ht : ∀ c ∈ title, c < 128) (hd : ∀ c ∈ description, c < 128) :
    corpus rt title description =
      title.map asciiLower ++ space :: description.map asciiLower := by
  unfold corpus
  rw [h.toLowerCase_ascii]
  · simp only [List.map_append, List.map_cons]
    rfl
  · intro c hc
    simp only [List.mem_append, List.mem_cons] at hc
    rcases hc with hc | rfl | hc
    · exact ht c hc
    · decide
    · exact hd c hc

theorem corpus_lowered {rt : Runtime} (h : rt.Ecma) {title description : JSString}
    (ht : ∀ c ∈ title, c < 128) (hd : ∀ c ∈ description, c < 128) :
    corpus rt (rt.toLowerCase title) (rt.toLowerCase description) =
      corpus rt title description := by
  have hmap : ∀ l : JSString, (∀ c ∈ l, c < 128) → ∀ c ∈ l.map asciiLower, c < 128 := by
    intro l hl c hc
    obtain ⟨a, ha, rfl⟩ := List.mem_map.mp hc
    exact asciiLower_lt (hl a ha)
  rw [h.toLowerCase_ascii _ ht, h.toLowerCase_ascii _ hd,
    corpus_ascii h (hmap _ ht) (hmap _ hd), corpus_ascii h ht hd]
  have hcomp : asciiLower ∘ asciiLower = asciiLower := funext asciiLower_idem
  simp only [List.map_map, hcomp]

theorem lowered_text {rt : Runtime} (h : rt.Ecma) {title description : JSString}
    (ht : ∀ c ∈ title, c < 128) (hd : ∀ c ∈ description, c < 128) :
    rt.toLowerCase title ++ space :: rt.toLowerCase description =
      corpus rt title description := by
  rw [h.toLowerCase_ascii _ ht, h.toLowerCase_ascii _ hd, corpus_ascii h ht hd]

theorem analyzeSentiment_eq (rt : Runtime) (title description : JSString) :
    analyzeSentiment rt title description =
      (rt.sentimentScore (title ++ space :: description)).map sentimentLabel := by
  simp only [analyzeSentiment]
  cases rt.sentimentScore (title ++ space :: description) <;> rfl

/-- C17. For every ASCII title and description on whose text the sentiment analysis
returns, the priority, department, urgency keywords, tags and confidence of
`analyzeComplaint` are those of the call on the lower-cased title and the lower-cased
description. -/
theorem case_insensitive (rt : Runtime) (h : rt.Ecma) (title description : JSString)
    (ht : ∀ c ∈ title, c < 128) (hd : ∀ c ∈ description, c < 128)
    (hs : rt.sentimentScore (title ++ space :: description) ≠ none) :
    (analyzeComplaint rt title description).priority =
        (analyzeComplaint rt (rt.toLowerCase title) (rt.toLowerCase description)).priority ∧
      (analyzeComplaint rt title description).department =
        (analyzeComplaint rt (rt.toLowerCase title) (rt.toLowerCase description)).department ∧
      (analyzeComplaint rt title description).urgencyKeywords =
        (analyzeComplaint rt (rt.toLowerCase title)
          (rt.toLowerCase description)).urgencyKeywords ∧
      (analyzeComplaint rt title description).tags =
        (analyzeComplaint rt (rt.toLowerCase title) (rt.toLowerCase description)).tags ∧
      (analyzeComplaint rt title description).confidence =
        (analyzeComplaint rt (rt.toLowerCase title) (rt.toLowerCase description)).confidence := by
  have hc := corpus_lowered h ht hd
  have hP : analyzePriority rt (rt.toLowerCase title) (rt.toLowerCase description) =
      analyzePriority rt title description := by
    rw [analyzePriority_eq, analyzePriority_eq, hc]
  have hD : classifyDepartment rt (rt.toLowerCase title) (rt.toLowerCase description) =
      classifyDepartment rt title description := by
    simp only [classifyDepartment, hc]
  have hU : extractUrgencyKeywords rt (rt.toLowerCase title) (rt.toLowerCase description) =
      extractUrgencyKeywords rt title description := by
    simp only [extractUrgencyKeywords, hc]
  have hT : extractTags rt (rt.toLowerCase title) (rt.toLowerCase description) =
      extractTags rt title description := by
    simp only [extractTags, hc]
  have hS : analyzeSentiment rt (rt.toLowerCase title) (rt.toLowerCase description) =
      (rt.sentimentScore (corpus rt title description)).map sentimentLabel := by
    rw [analyzeSentiment_eq, lowered_text h ht hd]
  cases h1 : analyzeComplaintTry rt title description with
  | none =>
    cases h2 : analyzeComplaintTry rt (rt.toLowerCase title) (rt.toLowerCase description) with
    | none =>
      rw [analyzeComplaint_of_none h1, analyzeComplaint_of_none h2]
      exact ⟨rfl, rfl, rfl, rfl, rfl⟩
    | some r' =>
      exfalso
      obtain ⟨p, s, d, sc, hp, _, hd', hsc, _⟩ := analyzeComplaintTry_some h2
      rw [hP] at hp
      rw [hD] at hd'
      rw [hc] at hsc
      obtain ⟨a, ha⟩ := Option.ne_none_iff_exists'.mp hs
      have hs' : analyzeSentiment rt title description = some (sentimentLabel a) := by
        rw [analyzeSentiment_eq, ha]; rfl
      rw [analyzeComplaintTry_of_some hp hs' hd' hsc] at h1
      cases h1
  | some r =>
    obtain ⟨p, s, d, sc, hp, _, hd', hsc, hr⟩ := analyzeComplaintTry_some h1
    have hs' : analyzeSentiment rt (rt.toLowerCase title) (rt.toLowerCase description) =
        some (sentimentLabel sc) := by
      rw [hS, hsc]; rfl
    have h2 := analyzeComplaintTry_of_some (hP.trans hp) hs' (hD.trans hd')
      (by rw [hc]; exact hsc)
    rw [analyzeComplaint_of_try h1, analyzeComplaint_of_try h2, hr, hU, hT, hc]
    exact ⟨rfl, rfl, rfl, rfl, rfl⟩

set_option maxRecDepth 100000 in
theorem scenario1_ascii :
    (∀ c ∈ scenario1Title, c < 128) ∧ (∀ c ∈ scenario1Description, c < 128) := by
  decide

theorem case_insensitive_witness :
    plainRuntime.Ecma ∧ (∀ c ∈ scenario1Title, c < 128) ∧
      (∀ c ∈ scenario1Description, c < 128) ∧
      plainRuntime.sentimentScore (scenario1Title ++ space :: scenario1Description) ≠ none ∧
      ((analyzeComplaint plainRuntime scenario1Title scenario1Description).priority =
          (analyzeComplaint plainRuntime (plainRuntime.toLowerCase scenario1Title)
            (plainRuntime.toLowerCase scenario1Description)).priority ∧
        (analyzeComplaint plainRuntime scenario1Title scenario1Description).department =
          (analyzeComplaint plainRuntime (plainRuntime.toLowerCase scenario1Title)
            (plainRuntime.toLowerCase scenario1Description)).department ∧
        (analyzeComplaint plainRuntime scenario1Title scenario1Description).urgencyKeywords =
          (analyzeComplaint plainRuntime (plainRuntime.toLowerCase scenario1Title)
            (plainRuntime.toLowerCase scenario1Description)).urgencyKeywords ∧
        (analyzeComplaint plainRuntime scenario1Title scenario1Description).tags =
          (analyzeComplaint plainRuntime (plainRuntime.toLowerCase scenario1Title)
            (plainRuntime.toLowerCase scenario1Description)).tags ∧
        (analyzeComplaint plainRuntime scenario1Title scenario1Description).confidence =
          (analyzeComplaint plainRuntime (plainRuntime.toLowerCase scenario1Title)
            (plainRuntime.toLowerCase scenario1Description)).confidence) :=
  ⟨plainRuntime_ecma, scenario1_ascii.1, scenario1_ascii.2, Option.some_ne_none 0,
    case_insensitive plainRuntime plainRuntime_ecma scenario1Title scenario1Description
      scenario1_ascii.1 scenario1_ascii.2 (Option.some_ne_none 0)⟩

/-! ### The batch variant -/

/-- C18. For every list of items `analyzeMultipleComplaints` returns a list of the same
length whose i-th element carries the id of the i-th item and the record of
`analyzeComplaint` on its title and description; the entry of an item is the same in any
other list that holds the item, at whatever position, and a permutation of the items
permutes the entries. -/
theorem analyzeMultipleComplaints_pointwise {ι : Type} (rt : Runtime)
    (complaints : List (ComplaintItem ι)) :
    (analyzeMultipleComplaints rt complaints).length = complaints.length ∧
    (∀ i : Nat, (analyzeMultipleComplaints rt complaints)[i]? =
      (complaints[i]?).map (fun c =>
        { id := c.id, analysis := analyzeComplaint rt c.title c.description })) ∧
    (∀ (others : List (ComplaintItem ι)) (i j : Nat), complaints[i]? = others[j]? →
      (analyzeMultipleComplaints rt complaints)[i]? =
        (analyzeMultipleComplaints rt others)[j]?) ∧
    (∀ others : List (ComplaintItem ι), complaints.Perm others →
      (analyzeMultipleComplaints rt complaints).Perm (analyzeMultipleComplaints rt others)) := by
  refine ⟨?_, ?_, ?_, ?_⟩
  · simp [analyzeMultipleComplaints]
  · intro i
    simp [analyzeMultipleComplaints]
  · intro others i j hij
    simp only [analyzeMultipleComplaints, List.getElem?_map, hij]
  · intro others hp
    exact hp.map _

/-! ### The scenarios -/

set_option maxRecDepth 100000 in
theorem scenario1_corpus {rt : Runtime} (h : rt.Ecma) :
    corpus rt scenario1Title scenario1Description = scenario1Corpus := by
  rw [corpus_ascii h scenario1_ascii.1 scenario1_ascii.2]
  decide

set_option maxRecDepth 100000 in
theorem scenario2_ascii :
    (∀ c ∈ scenario2Title, c < 128) ∧ (∀ c ∈ scenario2Description, c < 128) := by
  decide

set_option maxRecDepth 100000 in
theorem scenario2_corpus {rt : Runtime} (h : rt.Ecma) :
    corpus rt scenario2Title scenario2Description = scenario2Corpus := by
  rw [corpus_ascii h scenario2_ascii.1 scenario2_ascii.2]
  decide

set_option maxRecDepth 100000 in
theorem scenario1_urgency :
    urgencyKeywords.filter (fun t => includes scenario1Corpus t) =
      [js "urgent", js "immediate", js "gas leak", js "dangerous"] := by decide

set_option maxRecDepth 100000 in
theorem scenario2_urgency :
    urgencyKeywords.filter (fun t => includes scenario2Corpus t) = [] := by decide

set_option maxRecDepth 100000 in
theorem scenario1_exact (d : Department) :
    (departmentKeywords d).countP (fun t => includes scenario1Corpus t) =
      if d = Department.fireDepartment then 1 else 0 := by
  cases d <;> decide

set_option maxRecDepth 100000 in
theorem scenario2_exact (d : Department) :
    (departmentKeywords d).countP (fun t => includes scenario2Corpus t) =
      if d = Department.publicWorks then 3 else 0 := by
  cases d <;> decide

set_option maxRecDepth 100000 in
theorem scenario2_terms :
    (departmentKeywords Department.publicWorks).filter (fun t => includes scenario2Corpus t) =
      [js "street", js "pothole", js "curb"] := by decide

set_option maxRecDepth 100000 in
theorem scenario2_counts :
    (splitWhitespace scenario2Corpus).length = 12 ∧ scenario2Corpus.length = 69 := by decide

theorem importanceOf_le (d : Department) : 2 ≤ importanceOf d ∧ importanceOf d ≤ 4 := by
  cases d <;> decide

theorem priorityLevel_critical (score : ℚ) (u : Nat) (hu : 4 ≤ u) :
    priorityLevel score u = Priority.critical := by
  simp [priorityLevel, hu]

theorem scenario1_department {st : JSString → JSString}
    (hother : ∀ d, d ≠ Department.fireDepartment → stemMatchCount st scenario1Corpus d ≤ 1) :
    (allDepartments.foldl (pickBest (specDepartmentScore st scenario1Corpus))
      (Department.publicWorks, 0)).1 = Department.fireDepartment := by
  apply pickBest_strict
  intro d hd
  have h1 := hother d hd
  have hi := importanceOf_le d
  have hf : importanceOf Department.fireDepartment = 4 := by decide
  rw [specDepartmentScore_eq, specDepartmentScore_eq, scenario1_exact, scenario1_exact,
    if_neg hd, if_pos rfl, hf, Nat.mul_zero, Nat.zero_add]
  have : stemMatchCount st scenario1Corpus d * importanceOf d ≤ 1 * 4 :=
    Nat.mul_le_mul h1 hi.2
  omega

theorem scenario2_department {st : JSString → JSString}
    (hother : ∀ d, d ≠ Department.publicWorks → stemMatchCount st scenario2Corpus d ≤ 1) :
    (allDepartments.foldl (pickBest (specDepartmentScore st scenario2Corpus))
      (Department.publicWorks, 0)).1 = Department.publicWorks := by
  apply pickBest_publicWorks
  intro d
  by_cases hd : d = Department.publicWorks
  · rw [hd]
  · have h1 := hother d hd
    have hi := importanceOf_le d
    have hf : importanceOf Department.publicWorks = 3 := by decide
    rw [specDepartmentScore_eq, specDepartmentScore_eq, scenario2_exact, scenario2_exact,
      if_neg hd, if_pos rfl, hf, Nat.mul_zero, Nat.zero_add]
    have : stemMatchCount st scenario2Corpus d * importanceOf d ≤ 1 * 4 :=
      Nat.mul_le_mul h1 hi.2
    omega

set_option maxRecDepth 100000 in
theorem plainRuntime_scenario1_stems :
    ∀ d, d ≠ Department.fireDepartment → stemMatchCount id scenario1Corpus d ≤ 1 := by
  intro d hd
  cases d <;> first | exact absurd rfl hd | decide

set_option maxRecDepth 100000 in
theorem plainRuntime_scenario2_stems :
    ∀ d, d ≠ Department.publicWorks → stemMatchCount id scenario2Corpus d ≤ 1 := by
  intro d hd
  cases d <;> first | exact absurd rfl hd | decide

/-- C19. Scenario 1.  On the title "Urgent gas leak" and the description "Dangerous gas leak
near school, immediate evacuation needed" the `try` block completes, the urgency matches
are urgent, immediate, gas leak and dangerous (four of them), the priority is Critical, the
department is Fire Department and the urgency keywords hold `urgent` and `gas leak`.  The
libraries are taken to return on the texts of the call, and the stemmer to leave every
other department with at most one term whose stem occurs in the stemmed corpus. -/
theorem scenario1_urgent_gas_leak (rt : Runtime) (h : rt.Ecma) (st : JSString → JSString)
    (hst : ∀ w, rt.stem w = some (st w)) (s1 s2 : Int)
    (hs1 : rt.sentimentScore scenario1Corpus = some s1)
    (hs2 : rt.sentimentScore (scenario1Title ++ space :: scenario1Description) = some s2)
    (hother : ∀ d, d ≠ Department.fireDepartment → stemMatchCount st scenario1Corpus d ≤ 1) :
    analyzeComplaintTry rt scenario1Title scenario1Description ≠ none ∧
      (analyzeComplaint rt scenario1Title scenario1Description).priority = Priority.critical ∧
      urgencyMatches rt (corpus rt scenario1Title scenario1Description) =
        [js "urgent", js "immediate", js "gas leak", js "dangerous"] ∧
      4 ≤ (urgencyMatches rt (corpus rt scenario1Title scenario1Description)).length ∧
      (analyzeComplaint rt scenario1Title scenario1Description).department =
        Department.fireDepartment ∧
      js "urgent" ∈ (analyzeComplaint rt scenario1Title scenario1Description).urgencyKeywords ∧
      js "gas leak" ∈
        (analyzeComplaint rt scenario1Title scenario1Description).urgencyKeywords := by
  have hc := scenario1_corpus h
  have hu : urgencyMatches rt scenario1Corpus =
      [js "urgent", js "immediate", js "gas leak", js "dangerous"] := by
    rw [urgencyMatches_eq h, filter_infix_eq, scenario1_urgency]
  have hp := analyzePriority_eq rt scenario1Title scenario1Description
  rw [hc, hs1, hu, Option.map_some', priorityLevel_critical _ _ (by decide)] at hp
  have hsent : analyzeSentiment rt scenario1Title scenario1Description =
      some (sentimentLabel s2) := by
    rw [analyzeSentiment_eq, hs2]; rfl
  have hd := classifyDepartment_eq h hst scenario1Title scenario1Description
  rw [hc, scenario1_department hother] at hd
  have ht := analyzeComplaintTry_of_some hp hsent hd (by rw [hc]; exact hs1)
  have hk : extractUrgencyKeywords rt scenario1Title scenario1Description =
      [js "urgent", js "immediate", js "gas leak", js "dangerous"] := by
    rw [extractUrgencyKeywords_eq_take, hc, hu]; rfl
  rw [analyzeComplaint_of_try ht, ht, hc, hu, hk]
  refine ⟨by simp, rfl, rfl, by decide, rfl, ?_, ?_⟩
  · exact List.mem_cons_self _ _
  · simp

theorem scenario1_urgent_gas_leak_witness :
    plainRuntime.Ecma ∧ (∀ w, plainRuntime.stem w = some (id w)) ∧
      plainRuntime.sentimentScore scenario1Corpus = some 0 ∧
      plainRuntime.sentimentScore (scenario1Title ++ space :: scenario1Description) = some 0 ∧
      (∀ d, d ≠ Department.fireDepartment → stemMatchCount id scenario1Corpus d ≤ 1) ∧
      (analyzeComplaintTry plainRuntime scenario1Title scenario1Description ≠ none ∧
        (analyzeComplaint plainRuntime scenario1Title scenario1Description).priority =
          Priority.critical ∧
        urgencyMatches plainRuntime (corpus plainRuntime scenario1Title scenario1Description) =
          [js "urgent", js "immediate", js "gas leak", js "dangerous"] ∧
        4 ≤ (urgencyMatches plainRuntime
          (corpus plainRuntime scenario1Title scenario1Description)).length ∧
        (analyzeComplaint plainRuntime scenario1Title scenario1Description).department =
          Department.fireDepartment ∧
        js "urgent" ∈
          (analyzeComplaint plainRuntime scenario1Title scenario1Description).urgencyKeywords ∧
        js "gas leak" ∈
          (analyzeComplaint plainRuntime scenario1Title
            scenario1Description).urgencyKeywords) :=
  ⟨plainRuntime_ecma, plainRuntime_stem, rfl, rfl, plainRuntime_scenario1_stems,
    scenario1_urgent_gas_leak plainRuntime plainRuntime_ecma id plainRuntime_stem 0 0 rfl rfl
      plainRuntime_scenario1_stems⟩

/-- C20. Scenario 2.  On the title "Pothole on Elm Street" and the description "A
medium-sized pothole has formed near the curb" the `try` block completes, there is at most
one urgency match (there is none), the priority is Low or Medium, the department is Public
Works and its matched terms are street, pothole and curb.  The libraries are taken to
return on the texts of the call, the sentiment score of the corpus to be at most 39 in
absolute value, and the stemmer to leave every other department with at most one term whose
stem occurs in the stemmed corpus. -/
theorem scenario2_pothole (rt : Runtime) (h : rt.Ecma) (st : JSString → JSString)
    (hst : ∀ w, rt.stem w = some (st w)) (s1 s2 : Int)
    (hs1 : rt.sentimentScore scenario2Corpus = some s1) (hbound : |s1| ≤ 39)
    (hs2 : rt.sentimentScore (scenario2Title ++ space :: scenario2Description) = some s2)
    (hother : ∀ d, d ≠ Department.publicWorks → stemMatchCount st scenario2Corpus d ≤ 1) :
    analyzeComplaintTry rt scenario2Title scenario2Description ≠ none ∧
      (urgencyMatches rt (corpus rt scenario2Title scenario2Description)).length ≤ 1 ∧
      ((analyzeComplaint rt scenario2Title scenario2Description).priority = Priority.low ∨
        (analyzeComplaint rt scenario2Title scenario2Description).priority =
          Priority.medium) ∧
      (analyzeComplaint rt scenario2Title scenario2Description).department =
        Department.publicWorks ∧
      (departmentKeywords Department.publicWorks).filter
          (fun t => decide (t <:+: corpus rt scenario2Title scenario2Description)) =
        [js "street", js "pothole", js "curb"] := by
  have hc := scenario2_corpus h
  have hu : urgencyMatches rt scenario2Corpus = [] := by
    rw [urgencyMatches_eq h, filter_infix_eq, scenario2_urgency]
  have hp := analyzePriority_eq rt scenario2Title scenario2Description
  rw [hc, hs1, hu, Option.map_some', scenario2_counts.1, scenario2_counts.2] at hp
  have hsent : analyzeSentiment rt scenario2Title scenario2Description =
      some (sentimentLabel s2) := by
    rw [analyzeSentiment_eq, hs2]; rfl
  have hd := classifyDepartment_eq h hst scenario2Title scenario2Description
  rw [hc, scenario2_department hother] at hd
  have ht := analyzeComplaintTry_of_some hp hsent hd (by rw [hc]; exact hs1)
  rw [analyzeComplaint_of_try ht, ht, hc, hu, filter_infix_eq, scenario2_terms]
  refine ⟨by simp, by simp, ?_, rfl, rfl⟩
  have hq : |(s1 : ℚ)| ≤ 39 := by exact_mod_cast hbound
  have hlt : priorityScoreOf 0 s1 12 69 < 8 := by
    simp only [priorityScoreOf, keywordDensity, priorityWeights]
    norm_num
    linarith
  simp only [List.length_nil, priorityLevel]
  by_cases h4 : priorityScoreOf 0 s1 12 69 ≥ 4
  · right
    have h12 : ¬ priorityScoreOf 0 s1 12 69 ≥ 12 := by intro hh; linarith
    have h8 : ¬ priorityScoreOf 0 s1 12 69 ≥ 8 := by intro hh; linarith
    simp [h4, h12, h8]
  · left
    have h12 : ¬ priorityScoreOf 0 s1 12 69 ≥ 12 := by intro hh; linarith
    have h8 : ¬ priorityScoreOf 0 s1 12 69 ≥ 8 := by intro hh; linarith
    simp [h4, h12, h8]

theorem scenario2_pothole_witness :
    plainRuntime.Ecma ∧ (∀ w, plainRuntime.stem w = some (id w)) ∧
      plainRuntime.sentimentScore scenario2Corpus = some 0 ∧ |(0 : Int)| ≤ 39 ∧
      plainRuntime.sentimentScore (scenario2Title ++ space :: scenario2Description) = some 0 ∧
      (∀ d, d ≠ Department.publicWorks → stemMatchCount id scenario2Corpus d ≤ 1) ∧
      (analyzeComplaintTry plainRuntime scenario2Title scenario2Description ≠ none ∧
        (urgencyMatches plainRuntime
          (corpus plainRuntime scenario2Title scenario2Description)).length ≤ 1 ∧
        ((analyzeComplaint plainRuntime scenario2Title scenario2Description).priority =
            Priority.low ∨
          (analyzeComplaint plainRuntime scenario2Title scenario2Description).priority =
            Priority.medium) ∧
        (analyzeComplaint plainRuntime scenario2Title scenario2Description).department =
          Department.publicWorks ∧
        (departmentKeywords Department.publicWorks).filter
            (fun t => decide (t <:+: corpus plainRuntime scenario2Title scenario2Description)) =
          [js "street", js "pothole", js "curb"]) :=
  ⟨plainRuntime_ecma, plainRuntime_stem, rfl, by decide, rfl, plainRuntime_scenario2_stems,
    scenario2_pothole plainRuntime plainRuntime_ecma id plainRuntime_stem 0 0 rfl (by decide)
      rfl plainRuntime_scenario2_stems⟩

/-! ### The score alone, the density and the clamp -/

theorem calculateConfidence_eq_min (rt : Runtime) (text : JSString) (urgency : List JSString)
    (d : Department) :
    calculateConfidence rt text urgency d = min (confidenceSum rt text urgency d) 1 := rfl

theorem priorityLevel_eq_scoreOnly (u : Nat) (s : Int) (w L : Nat) :
    priorityLevel (priorityScoreOf u s w L) u = scoreOnlyTier (priorityScoreOf u s w L) := by
  have hge := priorityScoreOf_ge u s w L
  unfold priorityLevel scoreOnlyTier
  have h4 : u ≥ 4 → priorityScoreOf u s w L ≥ 12 := by
    intro hu
    have : (4 : ℚ) ≤ u := by exact_mod_cast hu
    linarith
  have h3 : u ≥ 3 → priorityScoreOf u s w L ≥ 8 := by
    intro hu
    have : (3 : ℚ) ≤ u := by exact_mod_cast hu
    linarith
  have h1 : u ≥ 1 → priorityScoreOf u s w L ≥ 4 := by
    intro hu
    have : (1 : ℚ) ≤ u := by exact_mod_cast hu
    linarith
  have e1 : (priorityScoreOf u s w L ≥ 12 ∨ u ≥ 4) ↔ priorityScoreOf u s w L ≥ 12 :=
    ⟨fun h => h.elim id h4, Or.inl⟩
  have e2 : (priorityScoreOf u s w L ≥ 8 ∨ u ≥ 3) ↔ priorityScoreOf u s w L ≥ 8 :=
    ⟨fun h => h.elim id h3, Or.inl⟩
  have e3 : (priorityScoreOf u s w L ≥ 4 ∨ u ≥ 1) ↔ priorityScoreOf u s w L ≥ 4 :=
    ⟨fun h => h.elim id h1, Or.inl⟩
  simp only [e1, e2, e3]

/-- C29. The tests on the number of urgency matches never decide the tier: for every title
and description `analyzePriority` returns the tier given by the score alone (>= 12
Critical, >= 8 High, >= 4 Medium, else Low), because the score is at least 4 times the
number of matches.  Hence three or more matches give Critical, two or more give at least
High, and Low is returned only without any match. -/
theorem priority_from_score_alone (rt : Runtime) (title description : JSString) :
    analyzePriority rt title description =
        (priorityScore rt title description).map scoreOnlyTier ∧
      (∀ score, priorityScore rt title description = some score →
        4 * ((urgencyMatches rt (corpus rt title description)).length : ℚ) ≤ score) ∧
      (∀ p, analyzePriority rt title description = some p →
        (3 ≤ (urgencyMatches rt (corpus rt title description)).length →
          p = Priority.critical) ∧
        (2 ≤ (urgencyMatches rt (corpus rt title description)).length →
          Priority.high.rank ≤ p.rank) ∧
        (p = Priority.low → (urgencyMatches rt (corpus rt title description)).length = 0)) := by
  refine ⟨?_, ?_, ?_⟩
  · rw [analyzePriority_eq, priorityScore_eq]
    cases rt.sentimentScore (corpus rt title description) with
    | none => rfl
    | some s =>
      simp only [Option.map_some']
      rw [priorityLevel_eq_scoreOnly]
  · intro score hs
    rw [priorityScore_eq] at hs
    cases hsc : rt.sentimentScore (corpus rt title description) with
    | none => rw [hsc] at hs; cases hs
    | some s =>
      rw [hsc, Option.map_some', Option.some.injEq] at hs
      rw [← hs]
      exact priorityScoreOf_ge _ _ _ _
  · intro p hp
    rw [analyzePriority_eq] at hp
    cases hsc : rt.sentimentScore (corpus rt title description) with
    | none => rw [hsc] at hp; cases hp
    | some s =>
      rw [hsc, Option.map_some', Option.some.injEq] at hp
      have hfloor := priorityLevel_floor
        (urgencyMatches rt (corpus rt title description)).length s
        (splitWhitespace (corpus rt title description)).length
        (corpus rt title description).length
      rw [hp] at hfloor
      refine ⟨?_, ?_, ?_⟩
      · intro h3
        have : 3 ≤ p.rank := le_trans (by omega) hfloor
        cases p <;> simp [Priority.rank] at this ⊢
      · intro h2
        exact le_trans (by simp only [Priority.rank]; omega) hfloor
      · intro hl
        rw [hl] at hfloor
        simp only [Priority.rank] at hfloor
        omega

theorem confidenceSum_bounds (rt : Runtime) (text : JSString) (urgency : List JSString)
    (d : Department) :
    1 / 2 ≤ confidenceSum rt text urgency d ∧ confidenceSum rt text urgency d ≤ 11 / 10 := by
  simp only [confidenceSum]
  have h0 : ∀ (x : ℚ), 0 ≤ x → 0 ≤ min x 1 := fun x hx => le_min hx (by norm_num)
  have h1 : ∀ (x : ℚ), min x 1 ≤ 1 := fun x => min_le_right _ _
  have a := h0 _ (div_nonneg (Nat.cast_nonneg
    ((departmentKeywords d).filter
      (fun keyword => includes text (rt.toLowerCase keyword))).length)
    (by norm_num : (0 : ℚ) ≤ 3))
  have b := h0 _ (div_nonneg (Nat.cast_nonneg urgency.length) (by norm_num : (0 : ℚ) ≤ 2))
  have c := h0 _ (div_nonneg (Nat.cast_nonneg text.length) (by norm_num : (0 : ℚ) ≤ 200))
  have a' := h1 ((((departmentKeywords d).filter
      (fun keyword => includes text (rt.toLowerCase keyword))).length : ℚ) / 3)
  have b' := h1 ((urgency.length : ℚ) / 2)
  have c' := h1 ((text.length : ℚ) / 200)
  constructor <;> linarith

theorem confidenceSum_full (rt : Runtime) (text : JSString) (urgency : List JSString)
    (d : Department)
    (hk : 3 ≤ ((departmentKeywords d).filter
      (fun keyword => includes text (rt.toLowerCase keyword))).length)
    (hu : 2 ≤ urgency.length) (hL : 200 ≤ text.length) :
    confidenceSum rt text urgency d = 11 / 10 := by
  simp only [confidenceSum]
  have a : min ((((departmentKeywords d).filter
      (fun keyword => includes text (rt.toLowerCase keyword))).length : ℚ) / 3) 1 = 1 := by
    apply min_eq_right
    have : (3 : ℚ) ≤ ((departmentKeywords d).filter
      (fun keyword => includes text (rt.toLowerCase keyword))).length := by exact_mod_cast hk
    linarith
  have b : min ((urgency.length : ℚ) / 2) 1 = 1 := by
    apply min_eq_right
    have : (2 : ℚ) ≤ urgency.length := by exact_mod_cast hu
    linarith
  have c : min ((text.length : ℚ) / 200) 1 = 1 := by
    apply min_eq_right
    have : (200 : ℚ) ≤ text.length := by exact_mod_cast hL
    linarith
  rw [a, b, c]
  norm_num

theorem endsWithWhitespace_cons (c : Nat) (cs : JSString) :
    endsWithWhitespace (c :: cs) = if cs = [] then isWhitespace c else endsWithWhitespace cs := by
  cases cs with
  | nil => rfl
  | cons a as => simp [endsWithWhitespace]

theorem splitWhitespaceAux_length (cs : JSString) :
    (∀ cur : JSString, cur ≠ [] →
      (splitWhitespaceAux cs false cur).length =
        (specTokensAux cs cur).length + (endsWithWhitespace cs).toNat) ∧
    (splitWhitespaceAux cs true []).length =
      (specTokensAux cs []).length + (if cs = [] then 1 else (endsWithWhitespace cs).toNat) := by
  induction cs with
  | nil =>
    refine ⟨?_, ?_⟩
    · intro cur hcur
      simp [splitWhitespaceAux, specTokensAux, hcur, endsWithWhitespace]
    · simp [splitWhitespaceAux, specTokensAux]
  | cons c cs ih =>
    obtain ⟨ihA, ihB⟩ := ih
    by_cases hc : isWhitespace c = true
    · refine ⟨?_, ?_⟩
      · intro cur hcur
        simp only [splitWhitespaceAux, specTokensAux, hc, if_true, hcur, if_false,
          List.length_cons, ihB, endsWithWhitespace_cons, Bool.false_eq_true]
        by_cases hcs : cs = []
        · simp [hcs, hc]
        · simp [hcs]
          omega
      · simp only [splitWhitespaceAux, specTokensAux, hc, if_true, ihB,
          endsWithWhitespace_cons]
        by_cases hcs : cs = []
        · simp [hcs, hc]
        · simp [hcs]
    · have hc' : isWhitespace c = false := by simpa using hc
      refine ⟨?_, ?_⟩
      · intro cur hcur
        simp only [splitWhitespaceAux, specTokensAux, hc', Bool.false_eq_true, if_false,
          ihA (c :: cur) (List.cons_ne_nil _ _), endsWithWhitespace_cons]
        by_cases hcs : cs = []
        · simp [hcs, hc', endsWithWhitespace]
        · simp [hcs]
      · simp only [splitWhitespaceAux, specTokensAux, hc', Bool.false_eq_true, if_false,
          ihA [c] (List.cons_ne_nil _ _), endsWithWhitespace_cons]
        by_cases hcs : cs = []
        · simp [hcs, hc', endsWithWhitespace]
        · simp [hcs]

theorem splitWhitespace_length (text : JSString) :
    (splitWhitespace text).length =
      (specTokens text).length +
        (if text = [] then 1
         else (startsWithWhitespace text).toNat + (endsWithWhitespace text).toNat) := by
  cases text with
  | nil => simp [splitWhitespace, splitWhitespaceAux, specTokens, specTokensAux]
  | cons c cs =>
    obtain ⟨hA, hB⟩ := splitWhitespaceAux_length cs
    by_cases hc : isWhitespace c = true
    · simp only [splitWhitespace, specTokens, splitWhitespaceAux, specTokensAux, hc, if_true,
        Bool.false_eq_true, if_false, List.length_cons, hB, startsWithWhitespace,
        endsWithWhitespace_cons, List.cons_ne_nil]
      by_cases hcs : cs = []
      · simp [hcs, hc]
      · simp [hcs]
        omega
    · have hc' : isWhitespace c = false := by simpa using hc
      simp only [splitWhitespace, specTokens, splitWhitespaceAux, specTokensAux, hc',
        Bool.false_eq_true, if_false, hA [c] (List.cons_ne_nil _ _), startsWithWhitespace,
        endsWithWhitespace_cons, List.cons_ne_nil]
      by_cases hcs : cs = []
      · simp [hcs, hc', endsWithWhitespace]
      · simp [hcs]

theorem splitWhitespaceAux_length_pos (cs : JSString) (inRun : Bool) (cur : JSString) :
    1 ≤ (splitWhitespaceAux cs inRun cur).length := by
  induction cs generalizing inRun cur with
  | nil => simp [splitWhitespaceAux]
  | cons c cs ih =>
    unfold splitWhitespaceAux
    split_ifs
    · exact ih _ _
    · simp
    · exact ih _ _

theorem splitWhitespace_length_pos (text : JSString) : 1 ≤ (splitWhitespace text).length :=
  splitWhitespaceAux_length_pos text false []

set_option maxRecDepth 100000 in
theorem urgent_only_counts :
    corpus plainRuntime [] (js "urgent") = js " urgent" ∧
    specTokens (js " urgent") = [js "urgent"] ∧
    (urgencyMatches plainRuntime (js " urgent")).length = 1 ∧
    (splitWhitespace (js " urgent")).length = 2 := by decide

/-- C27, as stated, fails.  For the empty title and the description `urgent` the corpus is
` urgent`: it has one token and one urgency match, but `text.split(/\s+/)` has two pieces,
the first of them empty, so the density used by `analyzePriority` is 1/2, not 1. -/
theorem density_counts_empty_pieces :
    corpus plainRuntime [] (js "urgent") = js " urgent" ∧
    (specTokens (corpus plainRuntime [] (js "urgent"))).length = 1 ∧
    (urgencyMatches plainRuntime (corpus plainRuntime [] (js "urgent"))).length = 1 ∧
    keywordDensity (urgencyMatches plainRuntime (corpus plainRuntime [] (js "urgent"))).length
        (splitWhitespace (corpus plainRuntime [] (js "urgent"))).length = 1 / 2 ∧
    keywordDensity (urgencyMatches plainRuntime (corpus plainRuntime [] (js "urgent"))).length
        (splitWhitespace (corpus plainRuntime [] (js "urgent"))).length ≠ 1 := by
  obtain ⟨hc, ht, hu, hw⟩ := urgent_only_counts
  rw [hc, ht, hu, hw]
  refine ⟨rfl, rfl, rfl, ?_, ?_⟩ <;> norm_num [keywordDensity]

/-- C27, amended.  For every title and description the density that enters the priority
score is the number of urgency matches divided by `words.length`, the number of pieces of
`text.split(/\s+/)`; that number is the number of whitespace-delimited tokens of the corpus,
plus one when the corpus begins with whitespace, plus one when it ends with whitespace (and
it is 1 for the empty text); it is never 0, so there is no division by zero. -/
theorem density_over_split_pieces (rt : Runtime) (title description : JSString) :
    priorityScore rt title description =
        (rt.sentimentScore (corpus rt title description)).map (fun sentimentScore =>
          specPriorityScore (urgencyMatches rt (corpus rt title description)).length
            sentimentScore
            (((urgencyMatches rt (corpus rt title description)).length : ℚ) /
              ((splitWhitespace (corpus rt title description)).length : ℚ))
            (corpus rt title description).length) ∧
      (splitWhitespace (corpus rt title description)).length =
        (specTokens (corpus rt title description)).length +
          (if corpus rt title description = [] then 1
           else (startsWithWhitespace (corpus rt title description)).toNat +
             (endsWithWhitespace (corpus rt title description)).toNat) ∧
      1 ≤ (splitWhitespace (corpus rt title description)).length := by
  refine ⟨?_, splitWhitespace_length _, splitWhitespace_length_pos _⟩
  rw [priorityScore_eq]
  simp only [priorityScoreOf_eq_spec, keywordDensity]

set_option maxRecDepth 100000 in
theorem smoke_counts :
    classifyDepartment plainRuntime smokeTitle smokeDescription =
        some Department.fireDepartment ∧
    ((departmentKeywords Department.fireDepartment).filter
      (fun keyword => includes (corpus plainRuntime smokeTitle smokeDescription)
        (plainRuntime.toLowerCase keyword))).length = 3 ∧
    (extractUrgencyKeywords plainRuntime smokeTitle smokeDescription).length = 3 ∧
    (corpus plainRuntime smokeTitle smokeDescription).length = 239 := by decide

/-- C28, as stated, fails.  On the report `smokeTitle`, `smokeDescription` the winning
department, Fire Department, has 3 matched terms, there are 3 urgency keywords and the
corpus has 239 code units, so the sum before `Math.min` is 0.5 + 0.3 + 0.2 + 0.1 = 1.1 and
the clamp lowers it to 1. -/
theorem clamp_changes_confidence :
    classifyDepartment plainRuntime smokeTitle smokeDescription =
        some Department.fireDepartment ∧
    confidenceSum plainRuntime (corpus plainRuntime smokeTitle smokeDescription)
        (extractUrgencyKeywords plainRuntime smokeTitle smokeDescription)
        Department.fireDepartment = 11 / 10 ∧
    (11 / 10 : ℚ) > 1 ∧
    calculateConfidence plainRuntime (corpus plainRuntime smokeTitle smokeDescription)
        (extractUrgencyKeywords plainRuntime smokeTitle smokeDescription)
        Department.fireDepartment = 1 ∧
    (analyzeComplaint plainRuntime smokeTitle smokeDescription).confidence = 1 := by
  obtain ⟨hd, hk, hu, hL⟩ := smoke_counts
  have hsum := confidenceSum_full plainRuntime
    (corpus plainRuntime smokeTitle smokeDescription)
    (extractUrgencyKeywords plainRuntime smokeTitle smokeDescription)
    Department.fireDepartment (by rw [hk]) (by rw [hu]; decide) (by rw [hL]; decide)
  have hcalc : calculateConfidence plainRuntime
      (corpus plainRuntime smokeTitle smokeDescription)
      (extractUrgencyKeywords plainRuntime smokeTitle smokeDescription)
      Department.fireDepartment = 1 := by
    rw [calculateConfidence_eq_min, hsum]; norm_num
  refine ⟨hd, hsum, by norm_num, hcalc, ?_⟩
  have hp := analyzePriority_eq plainRuntime smokeTitle smokeDescription
  have hs := analyzeSentiment_eq plainRuntime smokeTitle smokeDescription
  have hsc : plainRuntime.sentimentScore (corpus plainRuntime smokeTitle smokeDescription) =
      some 0 := rfl
  have ht := analyzeComplaintTry_of_some hp hs hd hsc
  rw [analyzeComplaint_of_try ht]
  exact hcalc

/-- C28, amended.  The value returned by `calculateConfidence` is the minimum of 1 and the
sum 0.5 + min(k/3, 1)*0.3 + min(u/2, 1)*0.2 + min(L/200, 1)*0.1; the sum lies between 0.5
and 1.1, the clamp changes the value exactly when the sum exceeds 1, and with at least 3
matched terms, 2 urgency keywords and 200 code units the sum is 1.1 and the result 1. -/
theorem confidence_clamp (rt : Runtime) (text : JSString) (urgency : List JSString)
    (d : Department) :
    calculateConfidence rt text urgency d = min (confidenceSum rt text urgency d) 1 ∧
      1 / 2 ≤ confidenceSum rt text urgency d ∧ confidenceSum rt text urgency d ≤ 11 / 10 ∧
      (calculateConfidence rt text urgency d ≠ confidenceSum rt text urgency d ↔
        1 < confidenceSum rt text urgency d) ∧
      (3 ≤ ((departmentKeywords d).filter
          (fun keyword => includes text (rt.toLowerCase keyword))).length →
        2 ≤ urgency.length → 200 ≤ text.length →
        confidenceSum rt text urgency d = 11 / 10 ∧
          calculateConfidence rt text urgency d = 1) := by
  have hb := confidenceSum_bounds rt text urgency d
  refine ⟨rfl, hb.1, hb.2, ?_, ?_⟩
  · rw [calculateConfidence_eq_min]
    constructor
    · intro hne
      by_contra hle
      exact hne (min_eq_left (not_lt.mp hle))
    · intro hlt hmin
      have := min_le_right (confidenceSum rt text urgency d) 1
      rw [hmin] at this
      linarith
  · intro hk hu hL
    have hsum := confidenceSum_full rt text urgency d hk hu hL
    refine ⟨hsum, ?_⟩
    rw [calculateConfidence_eq_min, hsum]
    norm_num

/-! ### Scenario 3 -/

set_option maxRecDepth 100000 in
theorem scenario3_ascii :
    (∀ c ∈ scenario3Title, c < 128) ∧ (∀ c ∈ scenario3Description, c < 128) := by
  decide

set_option maxRecDepth 100000 in
theorem scenario3_corpus {rt : Runtime} (h : rt.Ecma) :
    corpus rt scenario3Title scenario3Description = scenario3Corpus := by
  rw [corpus_ascii h scenario3_ascii.1 scenario3_ascii.2]
  decide

set_option maxRecDepth 100000 in
theorem scenario3_exact (d : Department) :
    (departmentKeywords d).countP (fun t => includes scenario3Corpus t) =
      if d = Department.policeDepartment then 3 else 0 := by
  cases d <;> decide

set_option maxRecDepth 100000 in
theorem scenario3_terms :
    (departmentKeywords Department.policeDepartment).filter
        (fun t => includes scenario3Corpus t) = [js "loud", js "party", js "music"] := by
  decide

theorem scenario3_department {st : JSString → JSString}
    (hother : ∀ d, d ≠ Department.policeDepartment → stemMatchCount st scenario3Corpus d ≤ 1) :
    (allDepartments.foldl (pickBest (specDepartmentScore st scenario3Corpus))
      (Department.publicWorks, 0)).1 = Department.policeDepartment := by
  apply pickBest_strict
  intro d hd
  have h1 := hother d hd
  have hi := importanceOf_le d
  have hf : importanceOf Department.policeDepartment = 4 := by decide
  rw [specDepartmentScore_eq, specDepartmentScore_eq, scenario3_exact, scenario3_exact,
    if_neg hd, if_pos rfl, hf, Nat.mul_zero, Nat.zero_add]
  have : stemMatchCount st scenario3Corpus d * importanceOf d ≤ 1 * 4 :=
    Nat.mul_le_mul h1 hi.2
  omega

set_option maxRecDepth 100000 in
theorem plainRuntime_scenario3_stems :
    ∀ d, d ≠ Department.policeDepartment → stemMatchCount id scenario3Corpus d ≤ 1 := by
  intro d hd
  cases d <;> first | exact absurd rfl hd | decide

/-! ### The client service -/

theorem clientAnalyzePriority_eq (rt : Runtime) (title description : JSString) :
    AIService.analyzePriority rt title description =
      (rt.sentimentScore (corpus rt title description)).map (fun (s : Int) =>
        AIService.priorityLevel
          (0 + ((AIService.urgencyKeywords.filter
              (fun keyword => includes (corpus rt title description) keyword)).length : ℚ) * 3 +
            |(s : ℚ)| / 5 * 2)
          (AIService.urgencyKeywords.filter
            (fun keyword => includes (corpus rt title description) keyword)).length) := by
  simp only [AIService.analyzePriority]
  cases rt.sentimentScore (corpus rt title description) <;> rfl

theorem clientAnalyzeSentiment_eq (rt : Runtime) (title description : JSString) :
    AIService.analyzeSentiment rt title description =
      (rt.sentimentScore (title ++ space :: description)).map AIService.sentimentLabel := by
  simp only [AIService.analyzeSentiment]
  cases rt.sentimentScore (title ++ space :: description) <;> rfl

theorem sentimentLabel_client_iff (s : Int) :
    AIService.sentimentLabel s = sentimentLabel s ↔ s ≠ 2 ∧ s ≠ -2 := by
  unfold AIService.sentimentLabel sentimentLabel
  split_ifs <;> simp <;> omega

set_option maxRecDepth 100000 in
theorem asap_counts :
    corpus plainRuntime asapTitle asapDescription =
        js "street light please repair the street light asap" ∧
    extractUrgencyKeywords plainRuntime asapTitle asapDescription = [js "asap"] ∧
    AIService.extractUrgencyKeywords plainRuntime asapTitle asapDescription = [] ∧
    extractTags plainRuntime asapTitle asapDescription =
      [js "street", js "repair", js "asap"] ∧
    AIService.extractTags plainRuntime asapTitle asapDescription = [js "street"] ∧
    (urgencyMatches plainRuntime (corpus plainRuntime asapTitle asapDescription)).length = 1 ∧
    (splitWhitespace (corpus plainRuntime asapTitle asapDescription)).length = 8 ∧
    (corpus plainRuntime asapTitle asapDescription).length = 48 ∧
    (AIService.urgencyKeywords.filter
      (fun keyword =>
        includes (corpus plainRuntime asapTitle asapDescription) keyword)).length = 0 := by
  decide

/-- C26, as stated, fails.  On the title "Street light" and the description "Please repair
the street light asap" the server extracts the urgency keyword `asap`, which the client
vocabulary does not hold, so the client extracts none; the server priority is Critical and
the client priority Low; the server tags are street, repair, asap and the client tags are
street. -/
theorem client_differs_from_server :
    extractUrgencyKeywords plainRuntime asapTitle asapDescription = [js "asap"] ∧
    AIService.extractUrgencyKeywords plainRuntime asapTitle asapDescription = [] ∧
    analyzePriority plainRuntime asapTitle asapDescription = some Priority.critical ∧
    AIService.analyzePriority plainRuntime asapTitle asapDescription = some Priority.low ∧
    extractTags plainRuntime asapTitle asapDescription =
      [js "street", js "repair", js "asap"] ∧
    AIService.extractTags plainRuntime asapTitle asapDescription = [js "street"] := by
  obtain ⟨_, hu, hcu, ht, hct, hm, hw, hL, hcm⟩ := asap_counts
  have hs : ∀ x, plainRuntime.sentimentScore x = some 0 := fun _ => rfl
  refine ⟨hu, hcu, ?_, ?_, ht, hct⟩
  · rw [analyzePriority_eq, hs, hm, hw, hL, Option.map_some']
    norm_num [priorityLevel, priorityScoreOf, keywordDensity, priorityWeights]
  · rw [clientAnalyzePriority_eq, hs, hcm, Option.map_some']
    norm_num [AIService.priorityLevel]

/-- C26, amended.  The complaint form uses a separate client service with its own
vocabularies, weights and thresholds.  For every title and description the client and the
server label the same sentiment score, and the labels agree unless the score is 2 or -2;
and a term of both urgency vocabularies is among the client urgency keywords exactly when
it is among the server urgency matches. -/
theorem client_relation (rt : Runtime) (h : rt.Ecma) (title description : JSString) :
    analyzeSentiment rt title description =
        (rt.sentimentScore (title ++ space :: description)).map sentimentLabel ∧
      AIService.analyzeSentiment rt title description =
        (rt.sentimentScore (title ++ space :: description)).map AIService.sentimentLabel ∧
      (∀ s : Int, AIService.sentimentLabel s = sentimentLabel s ↔ s ≠ 2 ∧ s ≠ -2) ∧
      (∀ k, k ∈ AIService.urgencyKeywords → k ∈ urgencyKeywords →
        (k ∈ AIService.extractUrgencyKeywords rt title description ↔
          k ∈ urgencyMatches rt (corpus rt title description))) := by
  refine ⟨analyzeSentiment_eq rt title description,
    clientAnalyzeSentiment_eq rt title description, sentimentLabel_client_iff, ?_⟩
  intro k hk1 hk2
  simp only [AIService.extractUrgencyKeywords, urgencyMatches, List.mem_filter, hk1, hk2,
    true_and, h.toLowerCase_urgency hk2]

theorem client_relation_witness :
    plainRuntime.Ecma ∧
      (analyzeSentiment plainRuntime asapTitle asapDescription =
          (plainRuntime.sentimentScore (asapTitle ++ space :: asapDescription)).map
            sentimentLabel ∧
        AIService.analyzeSentiment plainRuntime asapTitle asapDescription =
          (plainRuntime.sentimentScore (asapTitle ++ space :: asapDescription)).map
            AIService.sentimentLabel ∧
        (∀ s : Int, AIService.sentimentLabel s = sentimentLabel s ↔ s ≠ 2 ∧ s ≠ -2) ∧
        (∀ k, k ∈ AIService.urgencyKeywords → k ∈ urgencyKeywords →
          (k ∈ AIService.extractUrgencyKeywords plainRuntime asapTitle asapDescription ↔
            k ∈ urgencyMatches plainRuntime
              (corpus plainRuntime asapTitle asapDescription)))) :=
  ⟨plainRuntime_ecma, client_relation plainRuntime plainRuntime_ecma asapTitle asapDescription⟩

/-! ### Insights -/

theorem Table.get_set {α : Type} (table : Table α) (key : JSString) (value : α)
    (k : JSString) :
    (table.set key value).get k = if key = k then some value else table.get k := by
  induction table with
  | nil =>
    by_cases h : key = k <;> simp [Table.set, Table.get, h]
  | cons e rest ih =>
    obtain ⟨a, v⟩ := e
    by_cases ha : a = key
    · subst ha
      by_cases h : a = k <;> simp [Table.set, Table.get, h]
    · by_cases hk : a = k
      · subst hk
        simp [Table.set, Table.get, ha, Ne.symm ha]
      · simp [Table.set, Table.get, ha, hk, ih]

theorem Table.get_countUp (table : Table Nat) (key k : JSString) :
    (table.countUp key).get k =
      if key = k then some ((table.get key).getD 0 + 1) else table.get k := by
  rw [Table.countUp, Table.get_set]
  by_cases h : key = k
  · simp only [h, if_true]
    cases hg : table.get k with
    | none => simp
    | some n => by_cases hn : n = 0 <;> simp [hn]
  · simp only [h, if_false]

theorem Table.get_foldl_countUp (keys : List JSString) (table : Table Nat) (k : JSString) :
    (keys.foldl Table.countUp table).get k =
      if keys.count k = 0 then table.get k
      else some ((table.get k).getD 0 + keys.count k) := by
  induction keys generalizing table with
  | nil => simp
  | cons a keys ih =>
    rw [List.foldl_cons, ih, Table.get_countUp]
    by_cases ha : a = k
    · subst ha
      simp only [if_true, List.count_cons_self, Option.getD_some]
      by_cases hc : keys.count a = 0
      · simp [hc]
      · simp [hc]; omega
    · have hne : (a == k) = false := by simpa using ha
      simp only [ha, if_false, List.count_cons, hne, Bool.false_eq_true, Nat.add_zero]

theorem Table.get_increment (table : Table (Option Nat)) (key k : JSString) :
    (table.increment key).get k =
      if key = k then some (nextCount (table.get key)) else table.get k := by
  rw [Table.increment, Table.get_set]

theorem Table.get_foldl_increment (keys : List JSString) (table : Table (Option Nat))
    (k : JSString) (n : Nat) (h : table.get k = some (some n)) :
    (keys.foldl Table.increment table).get k = some (some (n + keys.count k)) := by
  induction keys generalizing table n with
  | nil => simpa using h
  | cons a keys ih =>
    rw [List.foldl_cons]
    by_cases ha : a = k
    · subst ha
      have h1 : (table.increment a).get a = some (some (n + 1)) := by
        rw [Table.get_increment, if_pos rfl, h]
        rfl
      rw [ih _ _ h1, List.count_cons_self]
      congr 2
      omega
    · have h1 : (table.increment a).get k = some (some n) := by
        rw [Table.get_increment, if_neg ha, h]
      have hne : (a == k) = false := by simpa using ha
      rw [ih _ _ h1, List.count_cons, hne]
      simp

theorem insightStep_of_keywords (parse : JSString → Option (List JSString))
    (st : Insights × ℚ) (c : StoredComplaint) (ks : List JSString)
    (hk : storedKeywords parse c = some ks) :
    ∃ st1, insightStep parse st c = some st1 ∧
      st1.1.totalComplaints = st.1.totalComplaints ∧
      st1.1.criticalCount =
        st.1.criticalCount + (if c.priority = some (js "Critical") then 1 else 0) ∧
      st1.1.highPriorityCount =
        st.1.highPriorityCount + (if c.priority = some (js "High") then 1 else 0) ∧
      st1.1.sentimentDistribution =
        (truthyString c.sentiment).toList.foldl Table.increment st.1.sentimentDistribution ∧
      st1.1.departmentDistribution =
        (truthyString c.department).toList.foldl Table.countUp st.1.departmentDistribution ∧
      st1.1.topUrgencyKeywords = ks.foldl Table.countUp st.1.topUrgencyKeywords ∧
      st1.2 = st.2 + storedConfidence c ∧
      st1.1.avgConfidence = st.1.avgConfidence ∧
      st1.1.recommendations = st.1.recommendations := by
  have hne : js "Critical" ≠ js "High" := by decide
  have hconf : (match c.ai_confidence with
      | some confidence => if confidence = 0 then st.2 else st.2 + confidence
      | none => st.2) = st.2 + storedConfidence c := by
    simp only [storedConfidence]
    cases c.ai_confidence with
    | none => simp
    | some x => by_cases hx : x = 0 <;> simp [hx]
  simp only [insightStep, hk, Option.bind_eq_bind, Option.some_bind, Option.pure_def]
  generalize js "Critical" = crit at hne ⊢
  generalize js "High" = high at hne ⊢
  have hne2 : ¬ (some crit = some high) := fun h => hne (Option.some.inj h)
  have hne3 : ¬ (some high = some crit) := fun h => hne (Option.some.inj h).symm
  cases truthyString c.sentiment <;> cases truthyString c.department <;>
    by_cases h1 : c.priority = some crit <;> by_cases h2 : c.priority = some high
  all_goals first
    | (exfalso; rw [h1] at h2; exact hne (Option.some.inj h2))
    | (simp only [h1, h2, hne2, hne3, if_true, if_false]
       exact ⟨_, rfl, rfl, rfl, rfl, rfl, rfl, rfl, hconf, rfl, rfl⟩)

theorem insightStep_none (parse : JSString → Option (List JSString))
    (st : Insights × ℚ) (c : StoredComplaint) (hk : storedKeywords parse c = none) :
    insightStep parse st c = none := by
  simp only [insightStep, hk, Option.bind_eq_bind, Option.none_bind]

theorem filterMap_cons_toList {α β : Type} (f : α → Option β) (a : α) (l : List α) :
    (a :: l).filterMap f = (f a).toList ++ l.filterMap f := by
  cases h : f a <;> simp [List.filterMap_cons, h]

/-- The state of the loop of `generateInsights` after a list of complaints whose keyword
fields all parse. -/
theorem insightFold (parse : JSString → Option (List JSString)) (cs : List StoredComplaint) :
    ∀ st : Insights × ℚ, (∀ c ∈ cs, storedKeywords parse c ≠ none) →
      ∃ st', cs.foldlM (insightStep parse) st = some st' ∧
        st'.1.totalComplaints = st.1.totalComplaints ∧
        st'.1.criticalCount =
          st.1.criticalCount + cs.countP (fun c => decide (c.priority = some (js "Critical"))) ∧
        st'.1.highPriorityCount =
          st.1.highPriorityCount + cs.countP (fun c => decide (c.priority = some (js "High"))) ∧
        st'.1.sentimentDistribution =
          (cs.filterMap (fun c => truthyString c.sentiment)).foldl Table.increment
            st.1.sentimentDistribution ∧
        st'.1.departmentDistribution =
          (cs.filterMap (fun c => truthyString c.department)).foldl Table.countUp
            st.1.departmentDistribution ∧
        st'.1.topUrgencyKeywords =
          ((cs.map (storedKeywordsOr parse)).flatten).foldl Table.countUp
            st.1.topUrgencyKeywords ∧
        st'.2 = st.2 + (cs.map storedConfidence).sum ∧
        st'.1.avgConfidence = st.1.avgConfidence ∧
        st'.1.recommendations = st.1.recommendations := by
  induction cs with
  | nil =>
    intro st _
    exact ⟨st, rfl, rfl, by simp, by simp, rfl, rfl, rfl, by simp, rfl, rfl⟩
  | cons c cs ih =>
    intro st hparse
    obtain ⟨ks, hks⟩ := Option.ne_none_iff_exists'.mp (hparse c (List.mem_cons_self _ _))
    obtain ⟨st1, hstep, a1, a2, a3, a4, a5, a6, a7, a8, a9⟩ :=
      insightStep_of_keywords parse st c ks hks
    obtain ⟨st', hfold, b1, b2, b3, b4, b5, b6, b7, b8, b9⟩ :=
      ih st1 (fun x hx => hparse x (List.mem_cons_of_mem _ hx))
    refine ⟨st', ?_, ?_, ?_, ?_, ?_, ?_, ?_, ?_, ?_, ?_⟩
    · rw [List.foldlM_cons, hstep]
      exact hfold
    · rw [b1, a1]
    · rw [b2, a2, List.countP_cons]
      by_cases h : c.priority = some (js "Critical") <;> (simp [h]; try omega)
    · rw [b3, a3, List.countP_cons]
      by_cases h : c.priority = some (js "High") <;> (simp [h]; try omega)
    · rw [b4, a4, filterMap_cons_toList, List.foldl_append]
    · rw [b5, a5, filterMap_cons_toList, List.foldl_append]
    · rw [b6, a6, List.map_cons, List.flatten_cons, List.foldl_append]
      simp only [storedKeywordsOr, hks, Option.getD_some]
    · rw [b7, a7, List.map_cons, List.sum_cons]
      ring
    · rw [b8, a8]
    · rw [b9, a9]

theorem insightFold_none (parse : JSString → Option (List JSString))
    (cs : List StoredComplaint) :
    ∀ st : Insights × ℚ, (∃ c ∈ cs, storedKeywords parse c = none) →
      cs.foldlM (insightStep parse) st = none := by
  induction cs with
  | nil => intro st h; obtain ⟨c, hc, _⟩ := h; cases hc
  | cons c cs ih =>
    intro st h
    rw [List.foldlM_cons]
    cases hk : storedKeywords parse c with
    | none => rw [insightStep_none parse st c hk]; rfl
    | some ks =>
      obtain ⟨st1, hstep, _⟩ := insightStep_of_keywords parse st c ks hk
      rw [hstep]
      apply ih
      obtain ⟨x, hx, hxn⟩ := h
      rcases List.mem_cons.mp hx with rfl | hx
      · rw [hk] at hxn; cases hxn
      · exact ⟨x, hx, hxn⟩

/-- The value that the three `if` statements give to `recommendations`. -/
theorem recommendationsOf_eq (insights : Insights) :
    recommendationsOf insights =
      (if (insights.criticalCount : ℚ) > (insights.totalComplaints : ℚ) * (1 / 10)
        then [capacityMessage] else []) ++
      ((if negativeAbove insights.sentimentDistribution
          ((insights.totalComplaints : ℚ) * (6 / 10)) = true
        then [negativeMessage] else []) ++
      (if insights.avgConfidence < 7 / 10 then [lowConfidenceMessage] else [])) := by
  simp only [recommendationsOf]
  split_ifs <;> simp

/-- The result of `generateInsights` on a list of complaints whose keyword fields all
parse. -/
theorem generateInsights_spec (parse : JSString → Option (List JSString))
    (cs : List StoredComplaint) (hparse : ∀ c ∈ cs, storedKeywords parse c ≠ none) :
    ∃ ins, generateInsights parse cs = some ins ∧
      ins.totalComplaints = cs.length ∧
      ins.criticalCount = cs.countP (fun c => decide (c.priority = some (js "Critical"))) ∧
      ins.highPriorityCount = cs.countP (fun c => decide (c.priority = some (js "High"))) ∧
      ins.sentimentDistribution =
        (cs.filterMap (fun c => truthyString c.sentiment)).foldl Table.increment
          (initialInsights cs).sentimentDistribution ∧
      ins.departmentDistribution =
        (cs.filterMap (fun c => truthyString c.department)).foldl Table.countUp [] ∧
      ins.topUrgencyKeywords =
        ((cs.map (storedKeywordsOr parse)).flatten).foldl Table.countUp [] ∧
      ins.avgConfidence =
        (if cs.length > 0 then (cs.map storedConfidence).sum / (cs.length : ℚ) else 0) ∧
      ins.recommendations =
        (if (ins.criticalCount : ℚ) > (ins.totalComplaints : ℚ) * (1 / 10)
          then [capacityMessage] else []) ++
        ((if negativeAbove ins.sentimentDistribution
            ((ins.totalComplaints : ℚ) * (6 / 10)) = true
          then [negativeMessage] else []) ++
        (if ins.avgConfidence < 7 / 10 then [lowConfidenceMessage] else [])) := by
  obtain ⟨st', hfold, b1, b2, b3, b4, b5, b6, b7, _, _⟩ :=
    insightFold parse cs (initialInsights cs, 0) hparse
  simp only [generateInsights, hfold, Option.bind_eq_bind, Option.some_bind, Option.pure_def]
  refine ⟨_, rfl, ?_, ?_, ?_, ?_, ?_, ?_, ?_, ?_⟩
  · simpa [initialInsights] using b1
  · simpa [initialInsights] using b2
  · simpa [initialInsights] using b3
  · exact b4
  · exact b5
  · exact b6
  · simp only [b7, zero_add]
  · rw [recommendationsOf_eq]

theorem generateInsights_none (parse : JSString → Option (List JSString))
    (cs : List StoredComplaint) (h : ∃ c ∈ cs, storedKeywords parse c = none) :
    generateInsights parse cs = none := by
  simp only [generateInsights, insightFold_none parse cs _ h, Option.bind_eq_bind,
    Option.none_bind]


theorem count_filterMap_truthy (f : StoredComplaint → Option JSString) (cs : List StoredComplaint)
    (k : JSString) (hk : k ≠ []) :
    (cs.filterMap (fun c => truthyString (f c))).count k =
      cs.countP (fun c => decide (f c = some k)) := by
  induction cs with
  | nil => rfl
  | cons c cs ih =>
    rw [filterMap_cons_toList, List.count_append, ih, List.countP_cons]
    cases hf : f c with
    | none => simp [truthyString]
    | some v =>
      cases v with
      | nil =>
        have : ¬ ([] : JSString) = k := fun h => hk h.symm
        simp [truthyString, this]
      | cons a as =>
        by_cases h : a :: as = k
        · simp [truthyString, h]; omega
        · have hb : ((a :: as) == k) = false := by simpa using h
          simp [truthyString, h, List.count_cons, hb]

theorem sum_storedConfidence (cs : List StoredComplaint) :
    (cs.map storedConfidence).sum = (storedValues cs).sum := by
  induction cs with
  | nil => rfl
  | cons c cs ih =>
    simp only [storedValues] at ih ⊢
    rw [List.map_cons, List.sum_cons, ih, filterMap_cons_toList, List.sum_append]
    congr 1
    simp only [storedConfidence]
    cases c.ai_confidence with
    | none => simp
    | some x => by_cases hx : x = 0 <;> simp [hx]

set_option maxRecDepth 100000 in
theorem initial_sentiment (cs : List StoredComplaint) :
    (initialInsights cs).sentimentDistribution.get (js "Positive") = some (some 0) ∧
    (initialInsights cs).sentimentDistribution.get (js "Neutral") = some (some 0) ∧
    (initialInsights cs).sentimentDistribution.get (js "Negative") = some (some 0) := by
  have h : (initialInsights cs).sentimentDistribution =
      [(js "Positive", some 0), (js "Neutral", some 0), (js "Negative", some 0)] := rfl
  rw [h]
  decide

set_option maxRecDepth 100000 in
theorem labels_nonempty :
    js "Positive" ≠ [] ∧ js "Neutral" ≠ [] ∧ js "Negative" ≠ [] := by decide

theorem sentiment_count (cs : List StoredComplaint) (label : JSString)
    (hl : label = js "Positive" ∨ label = js "Neutral" ∨ label = js "Negative") :
    ((cs.filterMap (fun c => truthyString c.sentiment)).foldl Table.increment
      (initialInsights cs).sentimentDistribution).get label =
        some (some (cs.countP (fun c => decide (c.sentiment = some label)))) := by
  have hne : label ≠ [] := by
    rcases hl with rfl | rfl | rfl
    · exact labels_nonempty.1
    · exact labels_nonempty.2.1
    · exact labels_nonempty.2.2
  have h0 : (initialInsights cs).sentimentDistribution.get label = some (some 0) := by
    rcases hl with rfl | rfl | rfl
    · exact (initial_sentiment cs).1
    · exact (initial_sentiment cs).2.1
    · exact (initial_sentiment cs).2.2
  rw [Table.get_foldl_increment _ _ _ 0 h0, Nat.zero_add,
    count_filterMap_truthy (fun c => c.sentiment) cs label hne]

theorem negativeAbove_eq (cs : List StoredComplaint) (bound : ℚ) :
    negativeAbove ((cs.filterMap (fun c => truthyString c.sentiment)).foldl Table.increment
      (initialInsights cs).sentimentDistribution) bound =
        decide (((cs.countP (fun c => decide (c.sentiment = some (js "Negative"))) : Nat) : ℚ)
          > bound) := by
  simp only [negativeAbove, sentiment_count cs (js "Negative") (Or.inr (Or.inr rfl))]

/-! ### Insights over a collection -/

theorem tenWithTwoCritical_parses :
    ∀ c ∈ tenWithTwoCritical, storedKeywords noJson c ≠ none := by
  intro c hc
  simp only [tenWithTwoCritical, List.mem_append, List.mem_replicate] at hc
  rcases hc with ⟨_, rfl⟩ | ⟨_, rfl⟩ <;> simp [storedKeywords, criticalComplaint, lowComplaint]

theorem tenWithOneCritical_parses :
    ∀ c ∈ tenWithOneCritical, storedKeywords noJson c ≠ none := by
  intro c hc
  simp only [tenWithOneCritical, List.mem_cons, List.mem_replicate] at hc
  rcases hc with rfl | ⟨_, rfl⟩ <;> simp [storedKeywords, criticalComplaint, lowComplaint]

theorem scoredAndUnscored_parses :
    ∀ c ∈ scoredAndUnscored, storedKeywords noJson c ≠ none := by
  intro c hc
  simp only [scoredAndUnscored, List.mem_cons, List.mem_singleton, List.not_mem_nil,
    or_false] at hc
  rcases hc with rfl | rfl <;> simp [storedKeywords, criticalComplaint, unscoredComplaint]

set_option maxRecDepth 100000 in
theorem tenWithTwoCritical_counts :
    tenWithTwoCritical.length = 10 ∧
    tenWithTwoCritical.countP (fun c => decide (c.priority = some (js "Critical"))) = 2 ∧
    tenWithTwoCritical.countP (fun c => decide (c.priority = some (js "High"))) = 0 ∧
    tenWithTwoCritical.countP (fun c => decide (c.sentiment = some (js "Negative"))) = 2 := by
  decide

set_option maxRecDepth 100000 in
theorem tenWithOneCritical_counts :
    tenWithOneCritical.length = 10 ∧
    tenWithOneCritical.countP (fun c => decide (c.priority = some (js "Critical"))) = 1 ∧
    tenWithOneCritical.countP (fun c => decide (c.sentiment = some (js "Negative"))) = 1 := by
  decide

/-- C22 (insight counts). For every collection of stored complaints whose stored keyword
lists can be read, `generateInsights` returns, `totalComplaints` is the number of complaints,
`criticalCount` is the number of complaints whose priority is `Critical`, and
`highPriorityCount` is the number of complaints whose priority is `High`. -/
theorem generateInsights_counts (parse : JSString → Option (List JSString))
    (cs : List StoredComplaint) (hparse : ∀ c ∈ cs, storedKeywords parse c ≠ none) :
    ∃ ins, generateInsights parse cs = some ins ∧
      ins.totalComplaints = cs.length ∧
      ins.criticalCount = cs.countP (fun c => decide (c.priority = some (js "Critical"))) ∧
      ins.highPriorityCount = cs.countP (fun c => decide (c.priority = some (js "High"))) := by
  obtain ⟨ins, h, h1, h2, h3, _⟩ := generateInsights_spec parse cs hparse
  exact ⟨ins, h, h1, h2, h3⟩

theorem generateInsights_counts_witness :
    (∀ c ∈ tenWithTwoCritical, storedKeywords noJson c ≠ none) ∧
      ∃ ins, generateInsights noJson tenWithTwoCritical = some ins ∧
        ins.totalComplaints = 10 ∧ ins.criticalCount = 2 ∧ ins.highPriorityCount = 0 := by
  obtain ⟨ins, h, h1, h2, h3⟩ :=
    generateInsights_counts noJson tenWithTwoCritical tenWithTwoCritical_parses
  refine ⟨tenWithTwoCritical_parses, ins, h, ?_, ?_, ?_⟩
  · rw [h1, tenWithTwoCritical_counts.1]
  · rw [h2, tenWithTwoCritical_counts.2.1]
  · rw [h3, tenWithTwoCritical_counts.2.2.1]

/-- C23 (insight frequency tables). For every collection of stored complaints whose stored
keyword lists can be read, `generateInsights` returns; its `sentimentDistribution` maps each
of `Positive`, `Neutral`, `Negative` to the number of complaints with that sentiment; its
`departmentDistribution` maps each department name to the number of complaints that carry it,
with no entry for a name that no complaint carries; its `topUrgencyKeywords` maps each keyword
to the number of its occurrences in the keyword lists of the complaints, with no entry for a
keyword that does not occur.  Department names and keywords are taken outside the names
inherited from `Object.prototype`, and the empty department is the falsy one the loop skips. -/
theorem generateInsights_tables (parse : JSString → Option (List JSString))
    (cs : List StoredComplaint) (hparse : ∀ c ∈ cs, storedKeywords parse c ≠ none) :
    ∃ ins, generateInsights parse cs = some ins ∧
      (∀ label, label = js "Positive" ∨ label = js "Neutral" ∨ label = js "Negative" →
        ins.sentimentDistribution.get label =
          some (some (cs.countP (fun c => decide (c.sentiment = some label))))) ∧
      (∀ d, d ≠ [] → d ∉ objectPrototypeNames →
        ins.departmentDistribution.get d =
          if cs.countP (fun c => decide (c.department = some d)) = 0 then none
          else some (cs.countP (fun c => decide (c.department = some d)))) ∧
      (∀ k, k ∉ objectPrototypeNames → ins.topUrgencyKeywords.get k =
          if ((cs.map (storedKeywordsOr parse)).flatten).count k = 0 then none
          else some (((cs.map (storedKeywordsOr parse)).flatten).count k)) := by
  obtain ⟨ins, h, _, _, _, h4, h5, h6, _⟩ := generateInsights_spec parse cs hparse
  refine ⟨ins, h, ?_, ?_, ?_⟩
  · intro label hl
    rw [h4]
    exact sentiment_count cs label hl
  · intro d hd _
    rw [h5, Table.get_foldl_countUp, count_filterMap_truthy (fun c => c.department) cs d hd]
    simp [Table.get]
  · intro k _
    rw [h6, Table.get_foldl_countUp]
    simp [Table.get]

theorem messages_distinct :
    capacityMessage ≠ negativeMessage ∧ capacityMessage ≠ lowConfidenceMessage ∧
      negativeMessage ≠ lowConfidenceMessage := by decide

/-- C25 (recommendation thresholds). For every collection of stored complaints whose stored
keyword lists can be read, `generateInsights` returns and `recommendations` is, in this order,
the response-capacity message if `criticalCount` > `totalComplaints` * 0.1, the
negative-sentiment message if the number of `Negative` complaints > `totalComplaints` * 0.6,
and the low-confidence message if `avgConfidence` < 0.7, and nothing else; each message is in
the list exactly when its strict comparison holds. -/
theorem generateInsights_recommendations (parse : JSString → Option (List JSString))
    (cs : List StoredComplaint) (hparse : ∀ c ∈ cs, storedKeywords parse c ≠ none) :
    ∃ ins, generateInsights parse cs = some ins ∧
      ins.recommendations =
        (if (ins.criticalCount : ℚ) > (ins.totalComplaints : ℚ) * (1 / 10)
          then [capacityMessage] else []) ++
        ((if ((cs.countP (fun c => decide (c.sentiment = some (js "Negative"))) : Nat) : ℚ) >
            (ins.totalComplaints : ℚ) * (6 / 10)
          then [negativeMessage] else []) ++
        (if ins.avgConfidence < 7 / 10 then [lowConfidenceMessage] else [])) ∧
      ins.sentimentDistribution.get (js "Negative") =
        some (some (cs.countP (fun c => decide (c.sentiment = some (js "Negative"))))) ∧
      (capacityMessage ∈ ins.recommendations ↔
        (ins.criticalCount : ℚ) > (ins.totalComplaints : ℚ) * (1 / 10)) ∧
      (negativeMessage ∈ ins.recommendations ↔
        ((cs.countP (fun c => decide (c.sentiment = some (js "Negative"))) : Nat) : ℚ) >
          (ins.totalComplaints : ℚ) * (6 / 10)) ∧
      (lowConfidenceMessage ∈ ins.recommendations ↔ ins.avgConfidence < 7 / 10) := by
  obtain ⟨ins, h, _, _, _, h4, _, _, _, h8⟩ := generateInsights_spec parse cs hparse
  have hr : ins.recommendations =
      (if (ins.criticalCount : ℚ) > (ins.totalComplaints : ℚ) * (1 / 10)
        then [capacityMessage] else []) ++
      ((if ((cs.countP (fun c => decide (c.sentiment = some (js "Negative"))) : Nat) : ℚ) >
          (ins.totalComplaints : ℚ) * (6 / 10)
        then [negativeMessage] else []) ++
      (if ins.avgConfidence < 7 / 10 then [lowConfidenceMessage] else [])) := by
    rw [h8, h4, negativeAbove_eq]
    simp only [decide_eq_true_eq]
  obtain ⟨d1, d2, d3⟩ := messages_distinct
  refine ⟨ins, h, hr, ?_, ?_, ?_, ?_⟩
  · rw [h4]
    exact sentiment_count cs (js "Negative") (Or.inr (Or.inr rfl))
  · rw [hr]
    split_ifs <;> simp_all
  · rw [hr]
    split_ifs <;> simp_all [Ne.symm d1]
  · rw [hr]
    split_ifs <;> simp_all [Ne.symm d2, Ne.symm d3]

theorem generateInsights_recommendations_witness :
    (∀ c ∈ tenWithTwoCritical, storedKeywords noJson c ≠ none) ∧
      (∀ c ∈ tenWithOneCritical, storedKeywords noJson c ≠ none) ∧
      (∃ ins, generateInsights noJson tenWithTwoCritical = some ins ∧
        capacityMessage ∈ ins.recommendations) ∧
      (∃ ins, generateInsights noJson tenWithOneCritical = some ins ∧
        capacityMessage ∉ ins.recommendations) := by
  refine ⟨tenWithTwoCritical_parses, tenWithOneCritical_parses, ?_, ?_⟩
  · obtain ⟨ins, h, _, _, hc, _, _⟩ :=
      generateInsights_recommendations noJson tenWithTwoCritical tenWithTwoCritical_parses
    obtain ⟨ins', h', h1, h2, _⟩ :=
      generateInsights_spec noJson tenWithTwoCritical tenWithTwoCritical_parses
    rw [h] at h'
    cases h'
    refine ⟨ins, h, hc.mpr ?_⟩
    rw [h1, h2, tenWithTwoCritical_counts.1, tenWithTwoCritical_counts.2.1]
    norm_num
  · obtain ⟨ins, h, _, _, hc, _, _⟩ :=
      generateInsights_recommendations noJson tenWithOneCritical tenWithOneCritical_parses
    obtain ⟨ins', h', h1, h2, _⟩ :=
      generateInsights_spec noJson tenWithOneCritical tenWithOneCritical_parses
    rw [h] at h'
    cases h'
    refine ⟨ins, h, fun hm => ?_⟩
    have := hc.mp hm
    rw [h1, h2, tenWithOneCritical_counts.1, tenWithOneCritical_counts.2.1] at this
    norm_num at this

set_option maxRecDepth 100000 in
theorem tenWithTwoCritical_tables :
    tenWithTwoCritical.countP (fun c => decide (c.department = some (js "Fire Department"))) = 2 ∧
    tenWithTwoCritical.countP (fun c => decide (c.department = some (js "Public Works"))) = 8 ∧
    ((tenWithTwoCritical.map (storedKeywordsOr noJson)).flatten).count (js "fire") = 2 ∧
    js "Fire Department" ≠ [] ∧ js "Public Works" ≠ [] ∧
    js "Fire Department" ∉ objectPrototypeNames ∧ js "Public Works" ∉ objectPrototypeNames ∧
    js "fire" ∉ objectPrototypeNames := by
  decide

theorem generateInsights_tables_witness :
    (∀ c ∈ tenWithTwoCritical, storedKeywords noJson c ≠ none) ∧
      ∃ ins, generateInsights noJson tenWithTwoCritical = some ins ∧
        ins.sentimentDistribution.get (js "Negative") = some (some 2) ∧
        ins.departmentDistribution.get (js "Fire Department") = some 2 ∧
        ins.departmentDistribution.get (js "Public Works") = some 8 ∧
        ins.topUrgencyKeywords.get (js "fire") = some 2 := by
  obtain ⟨ins, h, hs, hd, hk⟩ :=
    generateInsights_tables noJson tenWithTwoCritical tenWithTwoCritical_parses
  obtain ⟨t1, t2, t3, n1, n2, p1, p2, p3⟩ := tenWithTwoCritical_tables
  refine ⟨tenWithTwoCritical_parses, ins, h, ?_, ?_, ?_, ?_⟩
  · rw [hs _ (Or.inr (Or.inr rfl)), tenWithTwoCritical_counts.2.2.2]
  · rw [hd _ n1 p1, t1]; rfl
  · rw [hd _ n2 p2, t2]; rfl
  · rw [hk _ p3, t3]; rfl

/-- C30 (empty collection). `generateInsights([])` returns with `totalComplaints`,
`criticalCount` and `highPriorityCount` equal to 0, the three sentiment counts equal to 0, empty
department and keyword tables, `avgConfidence` = 0, and `recommendations` equal to the
low-confidence message alone: the other two messages are not in it. -/
theorem generateInsights_empty (parse : JSString → Option (List JSString)) :
    ∃ ins, generateInsights parse [] = some ins ∧
      ins.totalComplaints = 0 ∧ ins.criticalCount = 0 ∧ ins.highPriorityCount = 0 ∧
      ins.sentimentDistribution =
        [(js "Positive", some 0), (js "Neutral", some 0), (js "Negative", some 0)] ∧
      ins.departmentDistribution = [] ∧ ins.topUrgencyKeywords = [] ∧
      ins.avgConfidence = 0 ∧
      ins.recommendations = [lowConfidenceMessage] ∧
      capacityMessage ∉ ins.recommendations ∧
      negativeMessage ∉ ins.recommendations := by
  obtain ⟨ins, h, h1, h2, h3, h4, h5, h6, h7, h8⟩ :=
    generateInsights_spec parse [] (fun c hc => by cases hc)
  obtain ⟨d1, d2, d3⟩ := messages_distinct
  have hs : ins.sentimentDistribution =
      [(js "Positive", some 0), (js "Neutral", some 0), (js "Negative", some 0)] := by
    rw [h4]; rfl
  have ha : ins.avgConfidence = 0 := by rw [h7]; simp
  have hn : negativeAbove ins.sentimentDistribution ((ins.totalComplaints : ℚ) * (6 / 10)) =
      false := by
    have := negativeAbove_eq [] ((ins.totalComplaints : ℚ) * (6 / 10))
    rw [← h4] at this
    rw [this, h1]
    simp
  have hr : ins.recommendations = [lowConfidenceMessage] := by
    rw [h8, hn, ha, h1, h2]
    norm_num
  refine ⟨ins, h, h1, h2, h3, hs, by rw [h5]; rfl, by rw [h6]; rfl, ha, hr, ?_, ?_⟩
  · rw [hr]; simpa using d2
  · rw [hr]; simpa using d3

/-! ### Binary64 arithmetic -/

theorem roundHalfEven_eq_of_abs_lt (x : ℚ) (n : Int) (h : |x - n| < 1 / 2) :
    roundHalfEven x = n := by
  rw [abs_lt] at h
  obtain ⟨h1, h2⟩ := h
  have hfl := Int.floor_le x
  have hlt := Int.lt_floor_add_one x
  unfold roundHalfEven
  split_ifs with a b c
  · have h3 : (n : ℚ) - 1 < (⌊x⌋ : ℚ) := by linarith
    have h4 : (⌊x⌋ : ℚ) < (n : ℚ) + 1 := by linarith
    have h5 : n - 1 < ⌊x⌋ := by exact_mod_cast h3
    have h6 : ⌊x⌋ < n + 1 := by exact_mod_cast h4
    omega
  · have h3 : (n : ℚ) - 1 < (⌊x⌋ : ℚ) + 1 := by linarith
    have h4 : (⌊x⌋ : ℚ) + 1 < (n : ℚ) + 1 := by linarith
    have h5 : n - 1 < ⌊x⌋ + 1 := by exact_mod_cast h3
    have h6 : ⌊x⌋ + 1 < n + 1 := by exact_mod_cast h4
    omega
  · have he : x - ⌊x⌋ = 1 / 2 := le_antisymm (not_lt.mp b) (not_lt.mp a)
    have h3 : (n : ℚ) - 1 < (⌊x⌋ : ℚ) := by linarith
    have h4 : (⌊x⌋ : ℚ) < (n : ℚ) := by linarith
    have h5 : n - 1 < ⌊x⌋ := by exact_mod_cast h3
    have h6 : ⌊x⌋ < n := by exact_mod_cast h4
    omega
  · have he : x - ⌊x⌋ = 1 / 2 := le_antisymm (not_lt.mp b) (not_lt.mp a)
    have h3 : (n : ℚ) - 1 < (⌊x⌋ : ℚ) := by linarith
    have h4 : (⌊x⌋ : ℚ) < (n : ℚ) := by linarith
    have h5 : n - 1 < ⌊x⌋ := by exact_mod_cast h3
    have h6 : ⌊x⌋ < n := by exact_mod_cast h4
    omega

theorem abs_roundHalfEven_sub_le (x : ℚ) : |(roundHalfEven x : ℚ) - x| ≤ 1 / 2 := by
  have hfl := Int.floor_le x
  have hlt := Int.lt_floor_add_one x
  rw [abs_le]
  unfold roundHalfEven
  split_ifs with a b c
  · constructor <;> linarith
  · push_cast
    constructor <;> linarith
  · have he : x - ⌊x⌋ = 1 / 2 := le_antisymm (not_lt.mp b) (not_lt.mp a)
    constructor <;> linarith
  · have he : x - ⌊x⌋ = 1 / 2 := le_antisymm (not_lt.mp b) (not_lt.mp a)
    push_cast
    constructor <;> linarith

theorem floor_le_roundHalfEven (x : ℚ) : ⌊x⌋ ≤ roundHalfEven x := by
  unfold roundHalfEven
  split_ifs <;> omega

theorem binade_eq (q : ℚ) (e : Int) (h1 : 2 ^ e ≤ |q|) (h2 : |q| < 2 ^ (e + 1))
    (h3 : -1022 ≤ e) : binade q = e := by
  have hpos : 0 < |q| := lt_of_lt_of_le (zpow_pos (by norm_num) e) h1
  have ha : e ≤ Int.log 2 |q| := (Int.zpow_le_iff_le_log (by norm_num) hpos).mp (by exact_mod_cast h1)
  have hb : Int.log 2 |q| < e + 1 :=
    (Int.lt_zpow_iff_log_lt (by norm_num) hpos).mp (by exact_mod_cast h2)
  unfold binade
  omega

/-- The value of `roundToDouble` at a number of the normal range, from the exponent of its
binade and the integer nearest to its significand. -/
theorem roundToDouble_eq (q : ℚ) (e n : Int) (h1 : 2 ^ e ≤ |q|) (h2 : |q| < 2 ^ (e + 1))
    (h3 : -1022 ≤ e) (hn : |q / 2 ^ (e - 52) - n| < 1 / 2) :
    roundToDouble q = n * 2 ^ (e - 52) := by
  unfold roundToDouble
  rw [binade_eq q e h1 h2 h3, roundHalfEven_eq_of_abs_lt _ n hn]

theorem roundToDouble_nonneg (q : ℚ) (h : 0 ≤ q) : 0 ≤ roundToDouble q := by
  unfold roundToDouble
  have hu : (0 : ℚ) < 2 ^ (binade q - 52) := zpow_pos (by norm_num) _
  have hx : 0 ≤ q / 2 ^ (binade q - 52) := div_nonneg h hu.le
  have hf : 0 ≤ ⌊q / 2 ^ (binade q - 52)⌋ := Int.floor_nonneg.mpr hx
  have hr := floor_le_roundHalfEven (q / 2 ^ (binade q - 52))
  have : (0 : ℚ) ≤ (roundHalfEven (q / 2 ^ (binade q - 52)) : ℚ) := by
    exact_mod_cast le_trans hf hr
  positivity

theorem binade_le_zero (q : ℚ) (h : |q| < 2) : binade q ≤ 0 := by
  unfold binade
  rcases eq_or_lt_of_le (abs_nonneg q) with h0 | hpos
  · rw [← h0, Int.log_of_right_le_zero 2 (le_refl (0 : ℚ))]
    omega
  · have : Int.log 2 |q| < 1 :=
      (Int.lt_zpow_iff_log_lt (by norm_num) hpos).mp (by simpa using h)
    omega

/-- The rounding error of `roundToDouble` below 2 is at most half the spacing of the
binary64 numbers of `[1, 2)`. -/
theorem abs_roundToDouble_sub_le (q : ℚ) (h : |q| < 2) :
    |roundToDouble q - q| ≤ 1 / 2 ^ 53 := by
  have hb := binade_le_zero q h
  have hu : (0 : ℚ) < 2 ^ (binade q - 52) := zpow_pos (by norm_num) _
  have hule : (2 : ℚ) ^ (binade q - 52) ≤ 2 ^ (-52 : ℤ) :=
    zpow_le_zpow_right₀ (by norm_num) (by omega)
  have hr := abs_roundHalfEven_sub_le (q / 2 ^ (binade q - 52))
  have heq : roundToDouble q - q =
      ((roundHalfEven (q / 2 ^ (binade q - 52)) : ℚ) - q / 2 ^ (binade q - 52)) *
        2 ^ (binade q - 52) := by
    unfold roundToDouble
    field_simp
  rw [heq, abs_mul, abs_of_pos hu]
  calc |(roundHalfEven (q / 2 ^ (binade q - 52)) : ℚ) - q / 2 ^ (binade q - 52)| *
        2 ^ (binade q - 52)
      ≤ 1 / 2 * 2 ^ (-52 : ℤ) := mul_le_mul hr hule hu.le (by norm_num)
    _ = 1 / 2 ^ 53 := by norm_num

theorem one_le_roundToDouble (q : ℚ) (h : 1 ≤ q) : 1 ≤ roundToDouble q := by
  have hq : |q| = q := abs_of_pos (by linarith)
  have hpos : 0 < q := by linarith
  have hlog : 0 ≤ Int.log 2 q := (Int.zpow_le_iff_le_log (by norm_num) hpos).mp (by simpa using h)
  have hbin : binade q = Int.log 2 q := by
    unfold binade
    rw [hq]
    omega
  have hle : (2 : ℚ) ^ Int.log 2 q ≤ q := Int.zpow_log_le_self (by norm_num) hpos
  unfold roundToDouble
  rw [hbin]
  have hu : (0 : ℚ) < 2 ^ (Int.log 2 q - 52) := zpow_pos (by norm_num) _
  have hx : (2 : ℚ) ^ (52 : ℕ) ≤ q / 2 ^ (Int.log 2 q - 52) := by
    rw [le_div_iff₀ hu]
    calc (2 : ℚ) ^ (52 : ℕ) * 2 ^ (Int.log 2 q - 52) = 2 ^ Int.log 2 q := by
          rw [← zpow_natCast, ← zpow_add₀ (by norm_num)]
          congr 1
          omega
      _ ≤ q := hle
  have hf : (2 : Int) ^ (52 : ℕ) ≤ ⌊q / 2 ^ (Int.log 2 q - 52)⌋ := by
    rw [Int.le_floor]
    exact_mod_cast hx
  have hr := floor_le_roundHalfEven (q / 2 ^ (Int.log 2 q - 52))
  have hR : (2 : ℚ) ^ (52 : ℕ) ≤ (roundHalfEven (q / 2 ^ (Int.log 2 q - 52)) : ℚ) := by
    exact_mod_cast le_trans hf hr
  calc (1 : ℚ) ≤ 2 ^ Int.log 2 q := one_le_zpow₀ (by norm_num) hlog
    _ = (2 : ℚ) ^ (52 : ℕ) * 2 ^ (Int.log 2 q - 52) := by
          rw [← zpow_natCast, ← zpow_add₀ (by norm_num)]
          congr 1
          omega
    _ ≤ _ := mul_le_mul_of_nonneg_right hR hu.le

theorem abs_min_roundToDouble_sub_le (q : ℚ) (h : 0 ≤ q) :
    |min (roundToDouble q) 1 - min q 1| ≤ 1 / 2 ^ 53 ∧ 0 ≤ min (roundToDouble q) 1 := by
  refine ⟨?_, le_min (roundToDouble_nonneg q h) (by norm_num)⟩
  rcases le_or_lt 1 q with h1 | h1
  · rw [min_eq_right (one_le_roundToDouble q h1), min_eq_right h1]
    norm_num
  · have hq : |q| < 2 := by rw [abs_of_nonneg h]; linarith
    have := abs_min_sub_min_le_max (roundToDouble q) 1 q 1
    rw [sub_self, abs_zero, max_eq_left (abs_nonneg _)] at this
    exact le_trans this (abs_roundToDouble_sub_le q hq)

theorem mul_error (m ms c w e : ℚ) (hm0 : 0 ≤ m) (hm1 : m ≤ 1) (hw0 : 0 ≤ w) (hw : w ≤ 3 / 10)
    (he : 0 ≤ e) (h1 : |m - ms| ≤ e) (h2 : |c - w| ≤ e) : |m * c - ms * w| ≤ 13 / 10 * e := by
  rw [abs_le] at h1 h2 ⊢
  have e1 : m * c - ms * w = m * (c - w) + w * (m - ms) := by ring
  have a1 : m * (c - w) ≤ 1 * e :=
    le_trans (mul_le_mul_of_nonneg_left h2.2 hm0) (mul_le_mul_of_nonneg_right hm1 he)
  have a2 : -(1 * e) ≤ m * (c - w) := by
    have := mul_le_mul_of_nonneg_left h2.1 hm0
    have := mul_le_mul_of_nonneg_right hm1 he
    linarith
  have b1 : w * (m - ms) ≤ 3 / 10 * e :=
    le_trans (mul_le_mul_of_nonneg_left h1.2 hw0) (mul_le_mul_of_nonneg_right hw he)
  have b2 : -(3 / 10 * e) ≤ w * (m - ms) := by
    have := mul_le_mul_of_nonneg_left h1.1 hw0
    have := mul_le_mul_of_nonneg_right hw he
    linarith
  rw [e1]
  constructor <;> linarith

/-- One summand of the confidence: the rounded product of a clamped rounded quotient and a
rounded weight is within three half-spacings of the exact product. -/
theorem abs_term_sub_le (q w : ℚ) (h : 0 ≤ q) (hw0 : 0 ≤ w) (hw : w ≤ 3 / 10) :
    |Double.mul (min (roundToDouble q) 1) (roundToDouble w) - min q 1 * w| ≤ 3 / 2 ^ 53 ∧
      0 ≤ Double.mul (min (roundToDouble q) 1) (roundToDouble w) := by
  obtain ⟨hm, hm0⟩ := abs_min_roundToDouble_sub_le q h
  have hm1 : min (roundToDouble q) 1 ≤ 1 := min_le_right _ _
  have hc := abs_roundToDouble_sub_le w (by rw [abs_of_nonneg hw0]; linarith)
  have hc0 := roundToDouble_nonneg w hw0
  have hprod0 : 0 ≤ min (roundToDouble q) 1 * roundToDouble w := mul_nonneg hm0 hc0
  have hprod1 : min (roundToDouble q) 1 * roundToDouble w ≤ 1 * roundToDouble w :=
    mul_le_mul_of_nonneg_right hm1 hc0
  have hcw := (abs_le.mp hc).2
  have hfl := abs_roundToDouble_sub_le (min (roundToDouble q) 1 * roundToDouble w)
    (by rw [abs_of_nonneg hprod0]; norm_num at hcw ⊢; linarith)
  have hmul := mul_error _ (min q 1) _ w (1 / 2 ^ 53) hm0 hm1 hw0 hw (by norm_num) hm hc
  refine ⟨?_, roundToDouble_nonneg _ hprod0⟩
  unfold Double.mul
  rw [abs_le] at hfl hmul ⊢
  norm_num at hfl hmul ⊢
  constructor <;> linarith

theorem add_error (s ss t ts e1 e2 : ℚ) (hs : |s - ss| ≤ e1) (ht : |t - ts| ≤ e2)
    (hlt : |s + t| < 2) : |Double.add s t - (ss + ts)| ≤ e1 + e2 + 1 / 2 ^ 53 := by
  have hfl := abs_roundToDouble_sub_le (s + t) hlt
  unfold Double.add
  rw [abs_le] at hs ht hfl ⊢
  constructor <;> linarith

/-- The confidence formula in binary64 is within 2^-49 of its exact value. -/
theorem abs_specConfidenceDouble_sub_le (k u L : Nat) :
    |specConfidenceDouble k u L - specConfidence k u L| ≤ 1 / 2 ^ 49 := by
  obtain ⟨ha, ha0⟩ := abs_term_sub_le ((k : ℚ) / 3) (3 / 10) (by positivity) (by norm_num)
    (by norm_num)
  obtain ⟨hb, hb0⟩ := abs_term_sub_le ((u : ℚ) / 2) (2 / 10) (by positivity) (by norm_num)
    (by norm_num)
  obtain ⟨hc, hc0⟩ := abs_term_sub_le ((L : ℚ) / 200) (1 / 10) (by positivity) (by norm_num)
    (by norm_num)
  have ka : min ((k : ℚ) / 3) 1 * (3 / 10) ≤ 3 / 10 := by
    have := min_le_right ((k : ℚ) / 3) 1; linarith
  have kb : min ((u : ℚ) / 2) 1 * (2 / 10) ≤ 2 / 10 := by
    have := min_le_right ((u : ℚ) / 2) 1; linarith
  have kc : min ((L : ℚ) / 200) 1 * (1 / 10) ≤ 1 / 10 := by
    have := min_le_right ((L : ℚ) / 200) 1; linarith
  have s0 : |(1 / 2 : ℚ) - 1 / 2| ≤ 0 := by norm_num
  have ha' := (abs_le.mp ha)
  have hb' := (abs_le.mp hb)
  have hc' := (abs_le.mp hc)
  have h1 := add_error (1 / 2) (1 / 2) _ _ 0 _ s0 ha (by
    rw [abs_of_nonneg (by linarith)]; norm_num at ha' ⊢; linarith)
  have h1' := abs_le.mp h1
  have h10 : 0 ≤ Double.add (1 / 2) (Double.mul (min (roundToDouble ((k : ℚ) / 3)) 1)
      (roundToDouble (3 / 10))) := roundToDouble_nonneg _ (by linarith)
  have h2 := add_error _ _ _ _ _ _ h1 hb (by
    rw [abs_of_nonneg (by linarith)]; norm_num at h1' hb' ⊢; linarith)
  have h2' := abs_le.mp h2
  have h20 : 0 ≤ Double.add (Double.add (1 / 2) (Double.mul (min (roundToDouble ((k : ℚ) / 3)) 1)
      (roundToDouble (3 / 10)))) (Double.mul (min (roundToDouble ((u : ℚ) / 2)) 1)
      (roundToDouble (2 / 10))) := roundToDouble_nonneg _ (by linarith)
  have h3 := add_error _ _ _ _ _ _ h2 hc (by
    rw [abs_of_nonneg (by linarith)]; norm_num at h2' hc' ⊢; linarith)
  unfold specConfidenceDouble specConfidence Double.div
  have hmin := abs_min_sub_min_le_max (1 : ℚ)
    (Double.add (Double.add (Double.add (1 / 2) (Double.mul (min (roundToDouble ((k : ℚ) / 3)) 1)
      (roundToDouble (3 / 10)))) (Double.mul (min (roundToDouble ((u : ℚ) / 2)) 1)
      (roundToDouble (2 / 10)))) (Double.mul (min (roundToDouble ((L : ℚ) / 200)) 1)
      (roundToDouble (1 / 10))))
    1 (1 / 2 + min ((k : ℚ) / 3) 1 * (3 / 10) + min ((u : ℚ) / 2) 1 * (2 / 10) +
      min ((L : ℚ) / 200) 1 * (1 / 10))
  rw [sub_self, abs_zero, max_eq_right (abs_nonneg _)] at hmin
  refine le_trans hmin (le_trans h3 ?_)
  norm_num

/-! ### The service object: state and raised errors -/

theorem andThen_some {α β : Type} (value : α) (self : AIAnalysisService)
    (next : α → AIAnalysisService → Outcome β) :
    andThen (some value, self) next = next value self := rfl

theorem andThen_none {α β : Type} (self : AIAnalysisService)
    (next : α → AIAnalysisService → Outcome β) :
    andThen ((none : Option α), self) next = (none, self) := rfl

theorem andThen_state {α β : Type} (first : Outcome α)
    (next : α → AIAnalysisService → Outcome β) (self : AIAnalysisService)
    (hfirst : first.2 = self) (hnext : ∀ value, (next value self).2 = self) :
    (andThen first next).2 = self := by
  obtain ⟨result, state⟩ := first
  cases hfirst
  cases result with
  | none => rfl
  | some value => exact hnext value

theorem analyzeComplaintTry_state (self : AIAnalysisService) (rt : Runtime) (maxLength : Nat)
    (title description text : JSString) :
    (self.analyzeComplaintTry rt maxLength title description text).2 = self := by
  unfold AIAnalysisService.analyzeComplaintTry
  refine andThen_state _ _ self rfl (fun priority => ?_)
  refine andThen_state _ _ self rfl (fun sentiment => ?_)
  refine andThen_state _ _ self rfl (fun department => ?_)
  refine andThen_state _ _ self rfl (fun urgency => ?_)
  refine andThen_state _ _ self rfl (fun tags => ?_)
  refine andThen_state _ _ self rfl (fun confidence => ?_)
  exact andThen_state _ _ self rfl (fun sentimentScore => rfl)

theorem analyzeComplaint_state (self : AIAnalysisService) (rt : Runtime) (maxLength : Nat)
    (title description : JSString) :
    (self.analyzeComplaint rt maxLength title description).2 = self := by
  unfold AIAnalysisService.analyzeComplaint
  refine andThen_state _ _ self rfl (fun text => ?_)
  have h := analyzeComplaintTry_state self rt maxLength title description text
  generalize self.analyzeComplaintTry rt maxLength title description text = outcome at h ⊢
  obtain ⟨result, state⟩ := outcome
  cases result <;> exact h

theorem foldl_analyzeComplaint_state (rt : Runtime) (maxLength : Nat)
    (earlier : List (JSString × JSString)) (self : AIAnalysisService) :
    earlier.foldl (fun state call => (state.analyzeComplaint rt maxLength call.1 call.2).2)
      self = self := by
  induction earlier with
  | nil => rfl
  | cons call rest ih => rw [List.foldl_cons, analyzeComplaint_state, ih]

/-- C15. Determinism and the dictionaries.  `analyzeComplaint` is a method of an object
whose state is the four dictionaries of the constructor.  For every state, title and
description, a call leaves the urgency keywords, the department keywords, the weights and
the importance table as they were (the location keywords are a local constant of
`extractTags`); hence, after any sequence of earlier calls on the object, the state is the
one before them and a call returns the record, or raises the error, that the same call
returned or raised at the start; in particular two consecutive calls give identical
results. -/
theorem analyzeComplaint_deterministic (self : AIAnalysisService) (rt : Runtime)
    (maxLength : Nat) (title description : JSString) (earlier : List (JSString × JSString)) :
    (self.analyzeComplaint rt maxLength title description).2 = self ∧
    ((self.analyzeComplaint rt maxLength title description).2.urgencyKeywords =
        self.urgencyKeywords ∧
      (self.analyzeComplaint rt maxLength title description).2.departmentKeywords =
        self.departmentKeywords ∧
      (self.analyzeComplaint rt maxLength title description).2.priorityWeights =
        self.priorityWeights ∧
      (self.analyzeComplaint rt maxLength title description).2.categoryImportance =
        self.categoryImportance) ∧
    earlier.foldl (fun state call => (state.analyzeComplaint rt maxLength call.1 call.2).2)
      self = self ∧
    ((earlier.foldl (fun state call => (state.analyzeComplaint rt maxLength call.1 call.2).2)
      self).analyzeComplaint rt maxLength title description).1 =
      (self.analyzeComplaint rt maxLength title description).1 ∧
    ((self.analyzeComplaint rt maxLength title description).2.analyzeComplaint rt maxLength
      title description).1 = (self.analyzeComplaint rt maxLength title description).1 := by
  have h := analyzeComplaint_state self rt maxLength title description
  have hf := foldl_analyzeComplaint_state rt maxLength earlier self
  refine ⟨h, ?_, hf, ?_, ?_⟩
  · rw [h]; exact ⟨rfl, rfl, rfl, rfl⟩
  · rw [hf]
  · rw [h]

theorem templateLiteral_of_fit {maxLength : Nat} {title description : JSString}
    (hfit : title.length + 1 + description.length ≤ maxLength) :
    templateLiteral maxLength title description = some (title ++ space :: description) := by
  unfold templateLiteral
  rw [if_pos hfit]

theorem lowerCasedText_of_fit {rt : Runtime} {maxLength : Nat} {title description : JSString}
    (hfit : title.length + 1 + description.length ≤ maxLength)
    (hlow : (corpus rt title description).length ≤ maxLength) :
    lowerCasedText rt maxLength title description = some (corpus rt title description) := by
  unfold lowerCasedText
  rw [templateLiteral_of_fit hfit]
  unfold corpus at hlow
  simp only [Option.bind_eq_bind, Option.some_bind]
  rw [if_pos hlow]
  rfl

theorem lowerCasedText_of_long {rt : Runtime} {maxLength : Nat} {title description : JSString}
    (hlong : maxLength < title.length + 1 + description.length) :
    lowerCasedText rt maxLength title description = none := by
  unfold lowerCasedText templateLiteral
  rw [if_neg (by omega)]
  rfl

/-- Within the greatest string length `analyzeComplaint` returns a record: that of the `try`
block, or that of the `catch` branch when the block throws. -/
theorem analyzeComplaint_returns_of_fit (self : AIAnalysisService) (rt : Runtime)
    (maxLength : Nat) (title description : JSString)
    (hfit : title.length + 1 + description.length ≤ maxLength)
    (hlow : (corpus rt title description).length ≤ maxLength) :
    ∃ r, self.analyzeComplaint rt maxLength title description = (some r, self) ∧
      ((self.analyzeComplaintTry rt maxLength title description
          (corpus rt title description)).1 = some r ∨
        ((self.analyzeComplaintTry rt maxLength title description
          (corpus rt title description)).1 = none ∧ r = fallbackAnalysis)) := by
  have hs := analyzeComplaintTry_state self rt maxLength title description
    (corpus rt title description)
  unfold AIAnalysisService.analyzeComplaint
  rw [lowerCasedText_of_fit hfit hlow, andThen_some]
  generalize self.analyzeComplaintTry rt maxLength title description
    (corpus rt title description) = outcome at hs ⊢
  obtain ⟨result, state⟩ := outcome
  cases hs
  cases result with
  | none => exact ⟨fallbackAnalysis, rfl, Or.inr ⟨rfl, rfl⟩⟩
  | some r => exact ⟨r, rfl, Or.inl rfl⟩

/-- C13, at the failing input.  For a title of the greatest length that V8 gives a string,
2^29 - 24 code units, and the empty description, the template literal of line 85 is one
code unit too long: its `RangeError` is raised before the `try` statement is entered, so
`analyzeComplaint` raises it and returns no record. -/
theorem analyzeComplaint_raises_on_longest_title :
    (List.replicate v8MaxStringLength 97).length = v8MaxStringLength ∧
    v8MaxStringLength = 536870888 ∧
    templateLiteral v8MaxStringLength (List.replicate v8MaxStringLength 97) [] = none ∧
    (AIAnalysisService.new.analyzeComplaint plainRuntime v8MaxStringLength
      (List.replicate v8MaxStringLength 97) []).1 = none := by
  have hlen : (List.replicate v8MaxStringLength 97).length = v8MaxStringLength :=
    List.length_replicate _ _
  have hlong : v8MaxStringLength <
      (List.replicate v8MaxStringLength 97).length + 1 + ([] : JSString).length := by
    rw [hlen]
    exact Nat.lt_succ_self _
  refine ⟨hlen, by norm_num [v8MaxStringLength], ?_, ?_⟩
  · unfold templateLiteral
    rw [if_neg (by omega)]
  · unfold AIAnalysisService.analyzeComplaint
    rw [lowerCasedText_of_long hlong, andThen_none]

set_option maxRecDepth 100000 in
theorem specConfidenceDouble_two_one_eighteen :
    specConfidenceDouble 2 1 18 = ((3643412098542731 : ℚ) / 4503599627370496) := by
  have c3 : roundToDouble (3 / 10) = ((5404319552844595 : ℚ) / 18014398509481984) := by
    rw [roundToDouble_eq (3 / 10) (-2) (5404319552844595) (by norm_num [abs_of_pos])
      (by norm_num [abs_of_pos]) (by norm_num) (by norm_num [abs_lt])]
    norm_num
  have c2 : roundToDouble (2 / 10) = ((3602879701896397 : ℚ) / 18014398509481984) := by
    rw [roundToDouble_eq (2 / 10) (-3) (7205759403792794) (by norm_num [abs_of_pos])
      (by norm_num [abs_of_pos]) (by norm_num) (by norm_num [abs_lt])]
    norm_num
  have c1 : roundToDouble (1 / 10) = ((3602879701896397 : ℚ) / 36028797018963968) := by
    rw [roundToDouble_eq (1 / 10) (-4) (7205759403792794) (by norm_num [abs_of_pos])
      (by norm_num [abs_of_pos]) (by norm_num) (by norm_num [abs_lt])]
    norm_num
  have qa : roundToDouble (2 / 3) = ((6004799503160661 : ℚ) / 9007199254740992) := by
    rw [roundToDouble_eq (2 / 3) (-1) (6004799503160661) (by norm_num [abs_of_pos])
      (by norm_num [abs_of_pos]) (by norm_num) (by norm_num [abs_lt])]
    norm_num
  have ma : min ((6004799503160661 : ℚ) / 9007199254740992) 1 = ((6004799503160661 : ℚ) / 9007199254740992) := min_eq_left (by norm_num)
  have pa : roundToDouble (((6004799503160661 : ℚ) / 9007199254740992) * ((5404319552844595 : ℚ) / 18014398509481984)) = ((7205759403792793 : ℚ) / 36028797018963968) := by
    rw [roundToDouble_eq (((6004799503160661 : ℚ) / 9007199254740992) * ((5404319552844595 : ℚ) / 18014398509481984)) (-3) (7205759403792793) (by norm_num [abs_of_pos])
      (by norm_num [abs_of_pos]) (by norm_num) (by norm_num [abs_lt])]
    norm_num
  have qb : roundToDouble (1 / 2) = ((1 : ℚ) / 2) := by
    rw [roundToDouble_eq (1 / 2) (-1) (4503599627370496) (by norm_num [abs_of_pos])
      (by norm_num [abs_of_pos]) (by norm_num) (by norm_num [abs_lt])]
    norm_num
  have mb : min ((1 : ℚ) / 2) 1 = ((1 : ℚ) / 2) := min_eq_left (by norm_num)
  have pb : roundToDouble (((1 : ℚ) / 2) * ((3602879701896397 : ℚ) / 18014398509481984)) = ((3602879701896397 : ℚ) / 36028797018963968) := by
    rw [roundToDouble_eq (((1 : ℚ) / 2) * ((3602879701896397 : ℚ) / 18014398509481984)) (-4) (7205759403792794) (by norm_num [abs_of_pos])
      (by norm_num [abs_of_pos]) (by norm_num) (by norm_num [abs_lt])]
    norm_num
  have qc : roundToDouble (18 / 200) = ((3242591731706757 : ℚ) / 36028797018963968) := by
    rw [roundToDouble_eq (18 / 200) (-4) (6485183463413514) (by norm_num [abs_of_pos])
      (by norm_num [abs_of_pos]) (by norm_num) (by norm_num [abs_lt])]
    norm_num
  have mc : min ((3242591731706757 : ℚ) / 36028797018963968) 1 = ((3242591731706757 : ℚ) / 36028797018963968) := min_eq_left (by norm_num)
  have pc : roundToDouble (((3242591731706757 : ℚ) / 36028797018963968) * ((3602879701896397 : ℚ) / 36028797018963968)) = ((5188146770730811 : ℚ) / 576460752303423488) := by
    rw [roundToDouble_eq (((3242591731706757 : ℚ) / 36028797018963968) * ((3602879701896397 : ℚ) / 36028797018963968)) (-7) (5188146770730811) (by norm_num [abs_of_pos])
      (by norm_num [abs_of_pos]) (by norm_num) (by norm_num [abs_lt])]
    norm_num
  have s1 : roundToDouble (1 / 2 + ((7205759403792793 : ℚ) / 36028797018963968)) = ((3152519739159347 : ℚ) / 4503599627370496) := by
    rw [roundToDouble_eq (1 / 2 + ((7205759403792793 : ℚ) / 36028797018963968)) (-1) (6305039478318694) (by norm_num [abs_of_pos])
      (by norm_num [abs_of_pos]) (by norm_num) (by norm_num [abs_lt])]
    norm_num
  have s2 : roundToDouble (((3152519739159347 : ℚ) / 4503599627370496) + ((3602879701896397 : ℚ) / 36028797018963968)) = ((7205759403792793 : ℚ) / 9007199254740992) := by
    rw [roundToDouble_eq (((3152519739159347 : ℚ) / 4503599627370496) + ((3602879701896397 : ℚ) / 36028797018963968)) (-1) (7205759403792793) (by norm_num [abs_of_pos])
      (by norm_num [abs_of_pos]) (by norm_num) (by norm_num [abs_lt])]
    norm_num
  have s3 : roundToDouble (((7205759403792793 : ℚ) / 9007199254740992) + ((5188146770730811 : ℚ) / 576460752303423488)) = ((3643412098542731 : ℚ) / 4503599627370496) := by
    rw [roundToDouble_eq (((7205759403792793 : ℚ) / 9007199254740992) + ((5188146770730811 : ℚ) / 576460752303423488)) (-1) (7286824197085462) (by norm_num [abs_of_pos])
      (by norm_num [abs_of_pos]) (by norm_num) (by norm_num [abs_lt])]
    norm_num
  simp only [specConfidenceDouble, Double.add, Double.mul, Double.div, Nat.cast_ofNat,
    Nat.cast_one]
  rw [qa, c3, ma, pa, s1, qb, c2, mb, pb, s2, qc, c1, mc, pc, s3]
  norm_num

/-! ### The confidence in binary64 -/

theorem new_departmentStep (rt : Runtime) (text : JSString) :
    AIAnalysisService.new.departmentStep rt text = departmentStep rt text := rfl

theorem new_classifyDepartment {rt : Runtime} {maxLength : Nat} {title description : JSString}
    (hfit : title.length + 1 + description.length ≤ maxLength)
    (hlow : (corpus rt title description).length ≤ maxLength) :
    AIAnalysisService.new.classifyDepartment rt maxLength title description =
      (classifyDepartment rt title description, AIAnalysisService.new) := by
  unfold AIAnalysisService.classifyDepartment classifyDepartment
  rw [lowerCasedText_of_fit hfit hlow]
  rfl

theorem new_extractUrgencyKeywords {rt : Runtime} {maxLength : Nat}
    {title description : JSString}
    (hfit : title.length + 1 + description.length ≤ maxLength)
    (hlow : (corpus rt title description).length ≤ maxLength) :
    AIAnalysisService.new.extractUrgencyKeywords rt maxLength title description =
      (some (extractUrgencyKeywords rt title description), AIAnalysisService.new) := by
  unfold AIAnalysisService.extractUrgencyKeywords extractUrgencyKeywords
  rw [lowerCasedText_of_fit hfit hlow]
  rfl

theorem new_extractTags {rt : Runtime} {maxLength : Nat} {title description : JSString}
    (hfit : title.length + 1 + description.length ≤ maxLength)
    (hlow : (corpus rt title description).length ≤ maxLength) :
    AIAnalysisService.new.extractTags rt maxLength title description =
      (some (extractTags rt title description), AIAnalysisService.new) := by
  unfold AIAnalysisService.extractTags extractTags
  rw [lowerCasedText_of_fit hfit hlow]
  rfl

theorem analyzePriority_returns (self : AIAnalysisService) {rt : Runtime} {maxLength : Nat}
    {title description : JSString} {s : Int}
    (hfit : title.length + 1 + description.length ≤ maxLength)
    (hlow : (corpus rt title description).length ≤ maxLength)
    (hs : rt.sentimentScore (corpus rt title description) = some s) :
    ∃ p, self.analyzePriority rt maxLength title description = (some p, self) := by
  unfold AIAnalysisService.analyzePriority
  rw [lowerCasedText_of_fit hfit hlow]
  simp only [Option.bind_eq_bind, Option.some_bind, hs, Option.pure_def]
  exact ⟨_, rfl⟩

theorem analyzeSentiment_returns (self : AIAnalysisService) {rt : Runtime} {maxLength : Nat}
    {title description : JSString} {s : Int}
    (hfit : title.length + 1 + description.length ≤ maxLength)
    (hs : rt.sentimentScore (title ++ space :: description) = some s) :
    self.analyzeSentiment rt maxLength title description = (some (sentimentLabel s), self) := by
  unfold AIAnalysisService.analyzeSentiment
  rw [templateLiteral_of_fit hfit]
  simp only [Option.bind_eq_bind, Option.some_bind, hs, Option.pure_def]

theorem new_calculateConfidence {rt : Runtime} (h : rt.Ecma) (text : JSString)
    (urgency : List JSString) (d : Department) :
    AIAnalysisService.new.calculateConfidence rt text urgency d =
      (some (specConfidenceDouble
        ((departmentKeywords d).countP (fun t => decide (t <:+: text)))
        urgency.length text.length), AIAnalysisService.new) := by
  have hf : (departmentKeywords d).filter
      (fun keyword => includes text (rt.toLowerCase keyword)) =
        (departmentKeywords d).filter (fun t => decide (t <:+: text)) := by
    apply List.filter_congr
    intro k hk
    rw [h.toLowerCase_department hk, includes_eq_decide]
  unfold AIAnalysisService.calculateConfidence specConfidenceDouble
  simp only [AIAnalysisService.new, hf, List.countP_eq_length_filter]
  rw [min_comm]

/-- C8. For every title and description that the engine can join and on which the library
calls return, `analyzeComplaint` returns a record whose confidence is
`min(1, 0.5 + min(k/3, 1)*0.3 + min(u/2, 1)*0.2 + min(L/200, 1)*0.1)` computed as
JavaScript computes it, in binary64 with each quotient, product and sum rounded, where `k`
is the number of vocabulary terms of the department returned by `classifyDepartment` that
are substrings of the lower-cased corpus, `u` the number of extracted urgency keywords and
`L` the length of the corpus; that value is within 2^-49 of the value of the formula in
exact arithmetic. -/
theorem analyzeComplaint_confidence (rt : Runtime) (h : rt.Ecma) (st : JSString → JSString)
    (hst : ∀ w, rt.stem w = some (st w)) (maxLength : Nat) (title description : JSString)
    (s1 s2 : Int)
    (hs1 : rt.sentimentScore (corpus rt title description) = some s1)
    (hs2 : rt.sentimentScore (title ++ space :: description) = some s2)
    (hfit : title.length + 1 + description.length ≤ maxLength)
    (hlow : (corpus rt title description).length ≤ maxLength) :
    ∃ d r, classifyDepartment rt title description = some d ∧
      AIAnalysisService.new.analyzeComplaint rt maxLength title description =
        (some r, AIAnalysisService.new) ∧
      r.department = d ∧
      r.urgencyKeywords = extractUrgencyKeywords rt title description ∧
      r.confidence = specConfidenceDouble
        ((departmentKeywords d).countP (fun t => decide (t <:+: corpus rt title description)))
        (extractUrgencyKeywords rt title description).length
        (corpus rt title description).length ∧
      |r.confidence - min 1 (1 / 2 +
          min (((departmentKeywords d).countP
            (fun t => decide (t <:+: corpus rt title description)) : ℚ) / 3) 1 * (3 / 10) +
          min (((extractUrgencyKeywords rt title description).length : ℚ) / 2) 1 * (2 / 10) +
          min (((corpus rt title description).length : ℚ) / 200) 1 * (1 / 10))| ≤
        1 / 2 ^ 49 := by
  obtain ⟨d, hd⟩ : ∃ d, classifyDepartment rt title description = some d :=
    ⟨_, classifyDepartment_eq h hst title description⟩
  obtain ⟨p, hp⟩ := analyzePriority_returns AIAnalysisService.new hfit hlow hs1
  have hsent := analyzeSentiment_returns AIAnalysisService.new hfit hs2
  have hrun : AIAnalysisService.new.analyzeComplaint rt maxLength title description =
      (some
        { priority := p
          sentiment := sentimentLabel s2
          department := d
          urgencyKeywords := extractUrgencyKeywords rt title description
          tags := extractTags rt title description
          confidence := specConfidenceDouble
            ((departmentKeywords d).countP
              (fun t => decide (t <:+: corpus rt title description)))
            (extractUrgencyKeywords rt title description).length
            (corpus rt title description).length
          analysis := .stats (corpus rt title description).length
            (splitOn space (corpus rt title description)).length
            (extractUrgencyKeywords rt title description).length s1 },
        AIAnalysisService.new) := by
    unfold AIAnalysisService.analyzeComplaint
    rw [lowerCasedText_of_fit hfit hlow, andThen_some]
    unfold AIAnalysisService.analyzeComplaintTry
    rw [hp, andThen_some, hsent, andThen_some, new_classifyDepartment hfit hlow, hd,
      andThen_some, new_extractUrgencyKeywords hfit hlow, andThen_some,
      new_extractTags hfit hlow, andThen_some, new_calculateConfidence h, andThen_some, hs1,
      andThen_some]
  exact ⟨_, _, hd, hrun, rfl, rfl, rfl, abs_specConfidenceDouble_sub_le _ _ _⟩

set_option maxRecDepth 100000 in
theorem hall_counts :
    classifyDepartment plainRuntime hallTitle hallDescription =
        some Department.fireDepartment ∧
    (departmentKeywords Department.fireDepartment).countP
        (fun t => decide (t <:+: corpus plainRuntime hallTitle hallDescription)) = 2 ∧
    (extractUrgencyKeywords plainRuntime hallTitle hallDescription).length = 1 ∧
    (corpus plainRuntime hallTitle hallDescription).length = 18 ∧
    hallTitle.length + 1 + hallDescription.length ≤ v8MaxStringLength := by
  decide

theorem analyzeComplaint_confidence_witness :
    plainRuntime.Ecma ∧ (∀ w, plainRuntime.stem w = some (id w)) ∧
      plainRuntime.sentimentScore (corpus plainRuntime hallTitle hallDescription) = some 0 ∧
      plainRuntime.sentimentScore (hallTitle ++ space :: hallDescription) = some 0 ∧
      hallTitle.length + 1 + hallDescription.length ≤ v8MaxStringLength ∧
      (corpus plainRuntime hallTitle hallDescription).length ≤ v8MaxStringLength ∧
      ∃ r, AIAnalysisService.new.analyzeComplaint plainRuntime v8MaxStringLength hallTitle
          hallDescription = (some r, AIAnalysisService.new) ∧
        r.department = Department.fireDepartment ∧
        r.confidence = specConfidenceDouble 2 1 18 ∧
        r.confidence = 3643412098542731 / 4503599627370496 ∧
        r.confidence ≠ 809 / 1000 := by
  obtain ⟨hd, hk, hu, hL, hfit⟩ := hall_counts
  have hlow : (corpus plainRuntime hallTitle hallDescription).length ≤ v8MaxStringLength := by
    rw [hL]; norm_num [v8MaxStringLength]
  obtain ⟨d, r, hd', hrun, hdep, _, hconf, _⟩ :=
    analyzeComplaint_confidence plainRuntime plainRuntime_ecma id plainRuntime_stem
      v8MaxStringLength hallTitle hallDescription 0 0 rfl rfl hfit hlow
  rw [hd] at hd'
  cases hd'
  rw [hk, hu, hL] at hconf
  refine ⟨plainRuntime_ecma, plainRuntime_stem, rfl, rfl, hfit, hlow, r, hrun, hdep, hconf, ?_, ?_⟩
  · rw [hconf, specConfidenceDouble_two_one_eighteen]
  · rw [hconf, specConfidenceDouble_two_one_eighteen]
    norm_num

/-! ### The average confidence -/

theorem doubleInsightStep_total (parse : JSString → Option (List JSString))
    (state : Insights × ℚ) (complaint : StoredComplaint) (keywords : List JSString)
    (hk : storedKeywords parse complaint = some keywords) :
    ∃ next, AIAnalysisService.insightStep parse state complaint = some next ∧
      next.2 =
        (match complaint.ai_confidence with
          | some confidence =>
            if confidence = 0 then state.2 else Double.add state.2 confidence
          | none => state.2) := by
  simp only [AIAnalysisService.insightStep, hk, Option.bind_eq_bind, Option.some_bind,
    Option.pure_def]
  exact ⟨_, rfl, rfl⟩

/-- C24, at the failing input.  For the collection of one complaint with the stored
confidence 0.9 and one complaint without a stored confidence, `generateInsights` returns
`avgConfidence` = 0.45: line 329 adds only the stored value and line 333 divides by the
number of all complaints, 2.  The mean of the stored confidence values is 0.9. -/
theorem average_counts_unscored :
    ∃ ins, AIAnalysisService.new.generateInsights noJson ninetyAndUnscored =
        (some ins, AIAnalysisService.new) ∧
      storedValues ninetyAndUnscored = [roundToDouble (9 / 10)] ∧
      roundToDouble (9 / 10) = ((8106479329266893 : ℚ) / 9007199254740992) ∧
      specMeanStored ninetyAndUnscored = ((8106479329266893 : ℚ) / 9007199254740992) ∧
      ins.avgConfidence = ((8106479329266893 : ℚ) / 18014398509481984) ∧
      roundToDouble (45 / 100) = ((8106479329266893 : ℚ) / 18014398509481984) ∧
      ins.avgConfidence ≠ specMeanStored ninetyAndUnscored := by
  have d9 : roundToDouble (9 / 10) = ((8106479329266893 : ℚ) / 9007199254740992) := by
    rw [roundToDouble_eq (9 / 10) (-1) (8106479329266893) (by norm_num [abs_of_pos])
      (by norm_num [abs_of_pos]) (by norm_num) (by norm_num [abs_lt])]
    norm_num
  have hadd : roundToDouble (0 + ((8106479329266893 : ℚ) / 9007199254740992)) = ((8106479329266893 : ℚ) / 9007199254740992) := by
    rw [roundToDouble_eq (0 + ((8106479329266893 : ℚ) / 9007199254740992)) (-1) (8106479329266893) (by norm_num [abs_of_pos])
      (by norm_num [abs_of_pos]) (by norm_num) (by norm_num [abs_lt])]
    norm_num
  have hdiv : roundToDouble (((8106479329266893 : ℚ) / 9007199254740992) / 2) = ((8106479329266893 : ℚ) / 18014398509481984) := by
    rw [roundToDouble_eq (((8106479329266893 : ℚ) / 9007199254740992) / 2) (-2) (8106479329266893) (by norm_num [abs_of_pos])
      (by norm_num [abs_of_pos]) (by norm_num) (by norm_num [abs_lt])]
    norm_num
  have h45 : roundToDouble (45 / 100) = ((8106479329266893 : ℚ) / 18014398509481984) := by
    rw [roundToDouble_eq (45 / 100) (-2) (8106479329266893) (by norm_num [abs_of_pos])
      (by norm_num [abs_of_pos]) (by norm_num) (by norm_num [abs_lt])]
    norm_num
  have hne : roundToDouble (9 / 10) ≠ 0 := by rw [d9]; norm_num
  have hv : storedValues ninetyAndUnscored = [roundToDouble (9 / 10)] := by
    simp [storedValues, ninetyAndUnscored, ninetyComplaint, unscoredComplaint, hne]
  have hm : specMeanStored ninetyAndUnscored = ((8106479329266893 : ℚ) / 9007199254740992) := by
    rw [specMeanStored, hv, d9]
    norm_num
  obtain ⟨st1, h1, t1⟩ := doubleInsightStep_total noJson
    (initialInsights ninetyAndUnscored, 0) ninetyComplaint [js "fire", js "urgent"] rfl
  obtain ⟨st2, h2, t2⟩ := doubleInsightStep_total noJson st1 unscoredComplaint [] rfl
  have ht : st2.2 = ((8106479329266893 : ℚ) / 9007199254740992) := by
    rw [t2, t1]
    simp only [ninetyComplaint, unscoredComplaint, if_neg hne, Double.add]
    rw [d9, hadd]
  have hrun : AIAnalysisService.new.generateInsights noJson ninetyAndUnscored =
      (some { { st2.1 with avgConfidence := Double.div st2.2 2 } with
          recommendations := AIAnalysisService.recommendationsOf
            { st2.1 with avgConfidence := Double.div st2.2 2 } },
        AIAnalysisService.new) := by
    unfold AIAnalysisService.generateInsights
    simp only [ninetyAndUnscored, List.foldlM_cons, List.foldlM_nil, Option.bind_eq_bind,
      Option.pure_def]
    rw [show initialInsights [ninetyComplaint, unscoredComplaint] =
      initialInsights ninetyAndUnscored from rfl, h1, Option.some_bind, h2, Option.some_bind,
      Option.some_bind]
    simp
  refine ⟨_, hrun, hv, d9, hm, ?_, h45, ?_⟩
  · show Double.div st2.2 2 = _
    rw [ht, Double.div, hdiv]
  · show Double.div st2.2 2 ≠ _
    rw [ht, Double.div, hdiv, hm]
    norm_num

/-! ### Scenario 3 with a polarity lexicon -/

set_option maxRecDepth 100000 in
theorem scenario3_tokens :
    specTokens scenario3Corpus =
      [js "loud", js "party", js "every", js "night", js "neighbors", js "are",
        js "disturbing", js "the", js "peace", js "with", js "loud", js "music"] := by
  decide

set_option maxRecDepth 100000 in
theorem scenario3_tokens_distinct :
    js "loud" ≠ js "peace" ∧ js "party" ≠ js "peace" ∧ js "every" ≠ js "peace" ∧
    js "night" ≠ js "peace" ∧ js "neighbors" ≠ js "peace" ∧ js "are" ≠ js "peace" ∧
    js "disturbing" ≠ js "peace" ∧ js "the" ≠ js "peace" ∧ js "with" ≠ js "peace" ∧
    js "music" ≠ js "peace" := by
  decide

theorem scenario3_lexicalScore_le (lexicon : JSString → Int)
    (hwords : ∀ token ∈ specTokens scenario3Corpus, token ≠ js "peace" → lexicon token ≤ 0)
    (hpeace : lexicon (js "peace") + lexicon (js "disturbing") ≤ 1) :
    ((specTokens scenario3Corpus).map lexicon).sum ≤ 1 := by
  obtain ⟨n1, n2, n3, n4, n5, n6, n7, n8, n9, n10⟩ := scenario3_tokens_distinct
  rw [scenario3_tokens] at hwords ⊢
  have w1 := hwords (js "loud") (by simp) n1
  have w2 := hwords (js "party") (by simp) n2
  have w3 := hwords (js "every") (by simp) n3
  have w4 := hwords (js "night") (by simp) n4
  have w5 := hwords (js "neighbors") (by simp) n5
  have w6 := hwords (js "are") (by simp) n6
  have w8 := hwords (js "the") (by simp) n8
  have w9 := hwords (js "with") (by simp) n9
  have w10 := hwords (js "music") (by simp) n10
  simp only [List.map_cons, List.map_nil, List.sum_cons, List.sum_nil]
  omega

set_option maxRecDepth 100000 in
theorem scenario3_lowered : scenario3Corpus.map asciiLower = scenario3Corpus := by
  decide

theorem lexiconRuntime_ecma : lexiconRuntime.Ecma where
  toLowerCase_ascii := fun _ _ => rfl
  toLowerCase_append_space := fun s t => by simp [lexiconRuntime]

set_option maxRecDepth 100000 in
theorem sampleLexicon_scenario3 :
    (∀ token ∈ specTokens scenario3Corpus, token ≠ js "peace" → sampleLexicon token ≤ 0) ∧
    sampleLexicon (js "peace") + sampleLexicon (js "disturbing") ≤ 1 ∧
    ((specTokens scenario3Corpus).map sampleLexicon).sum = 0 := by
  rw [scenario3_tokens]
  decide

/-- C21. Scenario 3.  On the title "Loud party every night" and the description "Neighbors
are disturbing the peace with loud music" the `try` block completes, the department is
Police Department (its matched terms are loud, party and music) and the sentiment is
Negative or Neutral: Negative when the lexical score is below -1.  The stemmer is taken to
leave every other department with at most one term whose stem occurs in the stemmed corpus;
the sentiment score is the sum of the lexicon weights of the twelve tokens of the text, and
of the lexicon it is taken that no token other than `peace` has a positive weight and that
the weight of `peace` exceeds what `disturbing` takes away by at most 1. -/
theorem scenario3_loud_party (rt : Runtime) (h : rt.Ecma) (st : JSString → JSString)
    (hst : ∀ w, rt.stem w = some (st w)) (lexicon : JSString → Int) (s1 : Int)
    (hs1 : rt.sentimentScore scenario3Corpus = some s1)
    (hs2 : rt.sentimentScore (scenario3Title ++ space :: scenario3Description) =
      some (lexicalScore lexicon rt (scenario3Title ++ space :: scenario3Description)))
    (hwords : ∀ token ∈ specTokens scenario3Corpus, token ≠ js "peace" → lexicon token ≤ 0)
    (hpeace : lexicon (js "peace") + lexicon (js "disturbing") ≤ 1)
    (hother : ∀ d, d ≠ Department.policeDepartment →
      stemMatchCount st scenario3Corpus d ≤ 1) :
    analyzeComplaintTry rt scenario3Title scenario3Description ≠ none ∧
      (analyzeComplaint rt scenario3Title scenario3Description).department =
        Department.policeDepartment ∧
      ((analyzeComplaint rt scenario3Title scenario3Description).sentiment =
          Sentiment.negative ∨
        (analyzeComplaint rt scenario3Title scenario3Description).sentiment =
          Sentiment.neutral) ∧
      ((analyzeComplaint rt scenario3Title scenario3Description).sentiment =
          Sentiment.negative ↔
        ((specTokens scenario3Corpus).map lexicon).sum < -1) ∧
      (departmentKeywords Department.policeDepartment).filter
          (fun t => decide (t <:+: corpus rt scenario3Title scenario3Description)) =
        [js "loud", js "party", js "music"] := by
  have hc := scenario3_corpus h
  have hlow : rt.toLowerCase (scenario3Title ++ space :: scenario3Description) =
      scenario3Corpus := hc
  have hscore : lexicalScore lexicon rt (scenario3Title ++ space :: scenario3Description) =
      ((specTokens scenario3Corpus).map lexicon).sum := by
    rw [lexicalScore, hlow]
  have hle := scenario3_lexicalScore_le lexicon hwords hpeace
  have hp := analyzePriority_eq rt scenario3Title scenario3Description
  rw [hc, hs1, Option.map_some'] at hp
  have hsent : analyzeSentiment rt scenario3Title scenario3Description =
      some (sentimentLabel ((specTokens scenario3Corpus).map lexicon).sum) := by
    rw [analyzeSentiment_eq, hs2, hscore]; rfl
  have hd := classifyDepartment_eq h hst scenario3Title scenario3Description
  rw [hc, scenario3_department hother] at hd
  have ht := analyzeComplaintTry_of_some hp hsent hd (by rw [hc]; exact hs1)
  rw [analyzeComplaint_of_try ht, ht, hc, filter_infix_eq, scenario3_terms]
  refine ⟨by simp, rfl, ?_, ?_, rfl⟩
  · simp only [sentimentLabel]
    split_ifs <;> first | omega | simp
  · simp only [sentimentLabel]
    split_ifs <;> first | omega | (simp; omega)

theorem scenario3_loud_party_witness :
    lexiconRuntime.Ecma ∧ (∀ w, lexiconRuntime.stem w = some (id w)) ∧
      lexiconRuntime.sentimentScore scenario3Corpus = some 0 ∧
      lexiconRuntime.sentimentScore (scenario3Title ++ space :: scenario3Description) =
        some (lexicalScore sampleLexicon lexiconRuntime
          (scenario3Title ++ space :: scenario3Description)) ∧
      (∀ token ∈ specTokens scenario3Corpus, token ≠ js "peace" → sampleLexicon token ≤ 0) ∧
      sampleLexicon (js "peace") + sampleLexicon (js "disturbing") ≤ 1 ∧
      (∀ d, d ≠ Department.policeDepartment → stemMatchCount id scenario3Corpus d ≤ 1) ∧
      (analyzeComplaint lexiconRuntime scenario3Title scenario3Description).department =
        Department.policeDepartment ∧
      (analyzeComplaint lexiconRuntime scenario3Title scenario3Description).sentiment =
        Sentiment.neutral := by
  have hs1 : lexiconRuntime.sentimentScore scenario3Corpus = some 0 := by
    have hlowered : scenario3Corpus.map asciiLower = scenario3Corpus :=
      scenario3_lowered
    show some (((specTokens (scenario3Corpus.map asciiLower)).map sampleLexicon).sum) = some 0
    rw [hlowered, sampleLexicon_scenario3.2.2]
  obtain ⟨htry, hdep, hsent, hiff, _⟩ :=
    scenario3_loud_party lexiconRuntime lexiconRuntime_ecma id (fun _ => rfl) sampleLexicon 0
      hs1 rfl sampleLexicon_scenario3.1 sampleLexicon_scenario3.2.1
      plainRuntime_scenario3_stems
  refine ⟨lexiconRuntime_ecma, fun _ => rfl, hs1, rfl, sampleLexicon_scenario3.1,
    sampleLexicon_scenario3.2.1, plainRuntime_scenario3_stems, hdep, ?_⟩
  rcases hsent with hneg | hneu
  · have := hiff.mp hneg
    rw [sampleLexicon_scenario3.2.2] at this
    omega
  · exact hneu

end ComplaintAI
